import Mathlib

/-!
# Credential and token lifecycle of the auth service

A shallow embedding of `auth-service`: the domain objects, the Postgres
repositories (one list of rows per table), the `AuthService` use cases and the
HTTP handlers that compose them.

Everything the Go code obtains from outside the process is an explicit part of
the `World`:

* the database contents (`Store`);
* the outcome of each round trip to the database (`faults`: the next entry
  tells whether the next statement fails with a driver error);
* the wall clock (`clock`, advanced by `ticks` at every `time.Now()`);
* the random sources (`uuids` for `uuid.New()`, `secrets` for
  `GenerateSecureToken`, `salts` for bcrypt).

Logging is not modelled: it has no effect on results or on the store.
-/

namespace AuthSvc

/-! ## Primitive types -/

/-- A `uuid.UUID`. -/
abbrev UUID := Nat

/-- A `time.Time` instant, in nanoseconds. -/
abbrev Time := Int

/-- The `time.Second` duration, in nanoseconds. -/
def time.Second : Int := 1000000000

/-- The `time.Minute` duration. -/
def time.Minute : Int := 60 * time.Second

/-- The `time.Hour` duration. -/
def time.Hour : Int := 60 * time.Minute

/-- The `domain.UserRoleType` strings. -/
abbrev UserRoleType := String

/-- Role constant `domain.RoleAdmin`. -/
def RoleAdmin : UserRoleType := "admin"

/-- Role constant `domain.RoleModerator`. -/
def RoleModerator : UserRoleType := "moderator"

/-- Role constant `domain.RoleUser`. -/
def RoleUser : UserRoleType := "user"

/-- The error values of `repository_errors.go` and `service_errors.go` that the
service and the repositories return, together with the errors that come from
the libraries: `driver` is any error of the database driver other than
`pgx.ErrNoRows`, `bcrypt` is a failure of `bcrypt.GenerateFromPassword`. -/
inductive Err
  | ErrUserNotFound
  | ErrUserEmailExists
  | ErrUserUsernameExists
  | ErrUserAuthNotFound
  | ErrUserRoleNotFound
  | ErrUserRoleAlreadyExists
  | ErrInvalidRole
  | ErrRefreshTokenNotFound
  | ErrRefreshTokenInvalid
  | ErrEmailVerificationNotFound
  | ErrEmailVerificationInvalid
  | ErrPasswordResetNotFound
  | ErrPasswordResetInvalid
  | ErrInvalidCredentials
  | ErrUserInactive
  | ErrEmailAlreadyVerified
  | ErrInvalidCurrentPassword
  | ErrTokenInvalid
  | ErrPasswordTooWeak
  | driver
  | bcrypt
  deriving DecidableEq, Repr

/-! ## Domain objects (`internal/domain`) -/

/-- Row of `users` (`domain.User`). -/
structure User where
  id : UUID
  email : String
  username : String
  displayName : String
  isVerified : Bool
  isActive : Bool
  createdAt : Time
  updatedAt : Time
  deriving DecidableEq, Repr

/-- Row of `user_auth` (`domain.UserAuth`). -/
structure UserAuth where
  id : UUID
  userID : UUID
  passwordHash : String
  lastLoginAt : Option Time
  createdAt : Time
  updatedAt : Time
  deriving DecidableEq, Repr

/-- Row of `user_roles` (`domain.UserRole`). -/
structure UserRole where
  id : UUID
  userID : UUID
  role : UserRoleType
  grantedAt : Time
  isActive : Bool
  deriving DecidableEq, Repr

/-- Row of `refresh_tokens` (`domain.RefreshToken`). -/
structure RefreshToken where
  id : UUID
  userID : UUID
  token : String
  expiresAt : Time
  isRevoked : Bool
  createdAt : Time
  deriving DecidableEq, Repr

/-- Row of `email_verifications` (`domain.EmailVerification`). -/
structure EmailVerification where
  id : UUID
  userID : UUID
  token : String
  expiresAt : Time
  isUsed : Bool
  createdAt : Time
  deriving DecidableEq, Repr

/-- Row of `password_resets` (`domain.PasswordReset`). -/
structure PasswordReset where
  id : UUID
  userID : UUID
  token : String
  expiresAt : Time
  isUsed : Bool
  createdAt : Time
  deriving DecidableEq, Repr

/-! ## The world -/

/-- The database: one list of rows per table, in insertion order. -/
structure Store where
  users : List User
  userAuths : List UserAuth
  userRoles : List UserRole
  refreshTokens : List RefreshToken
  emailVerifications : List EmailVerification
  passwordResets : List PasswordReset
  deriving DecidableEq, Repr

/-- The database together with everything else the process reads from outside. `faults`
says for each coming round trip whether it fails. `cuts` says how the failure of a list
query shows: `none` when `db.Query` returns the error, `some n` when the error comes up
while the rows are read, after `n` rows; the entry for a round trip is the one at the
position given by the number of round trips still scheduled in `faults`, so that every
failing query has its own entry. -/
structure World where
  store : Store
  faults : List Bool
  clock : Time
  ticks : List Nat
  uuids : List UUID
  secrets : List String
  salts : List Nat
  cuts : List (Option Nat) := []
  deriving DecidableEq, Repr

/-- Equality of Go results `(value, error)` is decidable. -/
instance instDecidableEqExcept {ε α : Type} [DecidableEq ε] [DecidableEq α] :
    DecidableEq (Except ε α)
  | .error a, .error b =>
    if h : a = b then isTrue (congrArg Except.error h)
    else isFalse (fun h' => h (Except.error.inj h'))
  | .ok a, .ok b =>
    if h : a = b then isTrue (congrArg Except.ok h)
    else isFalse (fun h' => h (Except.ok.inj h'))
  | .error _, .ok _ => isFalse (fun h => Except.noConfusion h)
  | .ok _, .error _ => isFalse (fun h => Except.noConfusion h)

/-- A result in the Go style `(value, error)` together with the world left behind. -/
abbrev Res (α : Type) := Except Err α × World

/-- The database with every row of `refresh_tokens` replaced by its image. -/
def Store.mapRefreshTokens (s : Store) (f : RefreshToken → RefreshToken) : Store :=
  { s with refreshTokens := s.refreshTokens.map f }

/-- The empty database. -/
def Store.empty : Store := ⟨[], [], [], [], [], []⟩

/-- The value the next `uuid.New()` returns. -/
def World.nextUUID (w : World) : UUID := w.uuids.headD 0

/-- The world after one `uuid.New()`. -/
def World.afterUUID (w : World) : World := { w with uuids := w.uuids.tail }

/-- Call `uuid.New()`: the next value of the random source. -/
def uuid.New (w : World) : UUID × World :=
  (w.nextUUID, w.afterUUID)

/-- The world after one `time.Now()`: the clock has advanced by the next tick. -/
def World.afterTick (w : World) : World :=
  { w with clock := w.clock + (w.ticks.headD 0 : Nat), ticks := w.ticks.tail }

/-- Call `time.Now()`: the clock is read, and has advanced by the next tick at the
following read. -/
def time.Now (w : World) : Time × World :=
  (w.clock, w.afterTick)

/-- Whether the next round trip to the database fails with a driver error. -/
def World.nextFault (w : World) : Bool := w.faults.headD false

/-- The world after one round trip to the database. -/
def World.afterCall (w : World) : World := { w with faults := w.faults.tail }

/-- How the next list query shows its failure, if it fails: `none` when `db.Query` returns
the error, `some n` when reading the rows stops after `n` rows. -/
def World.nextCut (w : World) : Option Nat := w.cuts.getD w.faults.length none

/-- One round trip to the database (`db.Exec`, `db.QueryRow`, `db.Query`): `true`
when the driver reports an error. A failed statement changes no row. -/
def dbCall (w : World) : Bool × World :=
  (w.nextFault, w.afterCall)

/-- The value the next `GenerateSecureToken()` returns. -/
def World.nextSecret (w : World) : String := w.secrets.headD ""

/-- The world after one `GenerateSecureToken()`. -/
def World.afterSecret (w : World) : World := { w with secrets := w.secrets.tail }

/-- The salt the next `bcrypt.GenerateFromPassword` draws. -/
def World.nextSalt (w : World) : Nat := w.salts.headD 0

/-- The world after one `bcrypt.GenerateFromPassword`. -/
def World.afterSalt (w : World) : World := { w with salts := w.salts.tail }

/-- A world whose database answers every statement. -/
def World.reliable (w : World) : Prop := w.faults = []

instance (w : World) : Decidable w.reliable :=
  inferInstanceAs (Decidable (w.faults = []))

/-- The world with the database contents replaced. -/
def World.withStore (w : World) (s : Store) : World := { w with store := s }

/-- The SQL clause `ORDER BY key DESC` (rows with equal keys keep their order). -/
def orderByDesc {α : Type} (key : α → Time) (rows : List α) : List α :=
  rows.insertionSort (fun a b => key b ≤ key a)

/-- Constructor `domain.NewUser`. -/
def NewUser (email username displayName : String) (w : World) : User × World :=
  let (id, w) := uuid.New w
  let (createdAt, w) := time.Now w
  let (updatedAt, w) := time.Now w
  ({ id := id, email := email, username := username, displayName := displayName,
     isVerified := false, isActive := true, createdAt := createdAt, updatedAt := updatedAt }, w)

/-- Setter `User.SetVerified`. -/
def User.SetVerified (u : User) (verified : Bool) (w : World) : User × World :=
  let (now, w) := time.Now w
  ({ u with isVerified := verified, updatedAt := now }, w)

/-- Constructor `domain.NewUserAuth`. -/
def NewUserAuth (userID : UUID) (passwordHash : String) (w : World) : UserAuth × World :=
  let (id, w) := uuid.New w
  let (createdAt, w) := time.Now w
  let (updatedAt, w) := time.Now w
  ({ id := id, userID := userID, passwordHash := passwordHash, lastLoginAt := none,
     createdAt := createdAt, updatedAt := updatedAt }, w)

/-- Setter `UserAuth.SetPasswordHash`. -/
def UserAuth.SetPasswordHash (ua : UserAuth) (passwordHash : String) (w : World) :
    UserAuth × World :=
  let (now, w) := time.Now w
  ({ ua with passwordHash := passwordHash, updatedAt := now }, w)

/-- Setter `UserAuth.SetLastLoginAt`. -/
def UserAuth.SetLastLoginAt (ua : UserAuth) (lastLoginAt : Option Time) (w : World) :
    UserAuth × World :=
  let (now, w) := time.Now w
  ({ ua with lastLoginAt := lastLoginAt, updatedAt := now }, w)

/-- Constructor `domain.NewUserRole`. -/
def NewUserRole (userID : UUID) (role : UserRoleType) (w : World) : UserRole × World :=
  let (id, w) := uuid.New w
  let (grantedAt, w) := time.Now w
  ({ id := id, userID := userID, role := role, grantedAt := grantedAt, isActive := true }, w)

/-- Setter `UserRole.SetActive`. -/
def UserRole.SetActive (ur : UserRole) (active : Bool) : UserRole :=
  { ur with isActive := active }

/-- Constructor `domain.NewRefreshToken`. -/
def NewRefreshToken (userID : UUID) (token : String) (expiresAt : Time) (w : World) :
    RefreshToken × World :=
  let (id, w) := uuid.New w
  let (createdAt, w) := time.Now w
  ({ id := id, userID := userID, token := token, expiresAt := expiresAt, isRevoked := false,
     createdAt := createdAt }, w)

/-- Setter `RefreshToken.SetRevoked`. -/
def RefreshToken.SetRevoked (rt : RefreshToken) (revoked : Bool) : RefreshToken :=
  { rt with isRevoked := revoked }

/-- The row after `SetRevoked(true)` when its id satisfies `p`, the row itself otherwise. -/
def RefreshToken.revokeIfId (p : UUID → Bool) (rt : RefreshToken) : RefreshToken :=
  if p rt.id then rt.SetRevoked true else rt

/-- Method `RefreshToken.IsExpired`: `time.Now().After(rt.expiresAt)`. -/
def RefreshToken.IsExpired (rt : RefreshToken) (w : World) : Bool × World :=
  let (now, w) := time.Now w
  (decide (rt.expiresAt < now), w)

/-- Method `RefreshToken.IsValid`: `!rt.isRevoked && !rt.IsExpired()`; the clock is
read only when the token is not revoked. -/
def RefreshToken.IsValid (rt : RefreshToken) (w : World) : Bool × World :=
  if rt.isRevoked then (false, w)
  else
    let (expired, w) := rt.IsExpired w
    (!expired, w)

/-- Constructor `domain.NewEmailVerification`. -/
def NewEmailVerification (userID : UUID) (token : String) (expiresAt : Time) (w : World) :
    EmailVerification × World :=
  let (id, w) := uuid.New w
  let (createdAt, w) := time.Now w
  ({ id := id, userID := userID, token := token, expiresAt := expiresAt, isUsed := false,
     createdAt := createdAt }, w)

/-- Setter `EmailVerification.SetUsed`. -/
def EmailVerification.SetUsed (ev : EmailVerification) (used : Bool) : EmailVerification :=
  { ev with isUsed := used }

/-- Method `EmailVerification.IsExpired`: `time.Now().After(ev.expiresAt)`. -/
def EmailVerification.IsExpired (ev : EmailVerification) (w : World) : Bool × World :=
  let (now, w) := time.Now w
  (decide (ev.expiresAt < now), w)

/-- Method `EmailVerification.IsValid`: `!ev.isUsed && !ev.IsExpired()`. -/
def EmailVerification.IsValid (ev : EmailVerification) (w : World) : Bool × World :=
  if ev.isUsed then (false, w)
  else
    let (expired, w) := ev.IsExpired w
    (!expired, w)

/-- Constructor `domain.NewPasswordReset`. -/
def NewPasswordReset (userID : UUID) (token : String) (expiresAt : Time) (w : World) :
    PasswordReset × World :=
  let (id, w) := uuid.New w
  let (createdAt, w) := time.Now w
  ({ id := id, userID := userID, token := token, expiresAt := expiresAt, isUsed := false,
     createdAt := createdAt }, w)

/-- Setter `PasswordReset.SetUsed`. -/
def PasswordReset.SetUsed (pr : PasswordReset) (used : Bool) : PasswordReset :=
  { pr with isUsed := used }

/-- Method `PasswordReset.IsExpired`: `time.Now().After(pr.expiresAt)`. -/
def PasswordReset.IsExpired (pr : PasswordReset) (w : World) : Bool × World :=
  let (now, w) := time.Now w
  (decide (pr.expiresAt < now), w)

/-- Method `PasswordReset.IsValid`: `!pr.isUsed && !pr.IsExpired()`. -/
def PasswordReset.IsValid (pr : PasswordReset) (w : World) : Bool × World :=
  if pr.isUsed then (false, w)
  else
    let (expired, w) := pr.IsExpired w
    (!expired, w)

/-! ## Repositories (`internal/infrastructure/postgres`)

Every method is one SQL statement. A row read back is the stored row: the
repositories rebuild the domain object with its constructor and then overwrite
the generated id and timestamps with the stored ones. -/

/-- Method `userRepositoryImpl.Create`: `INSERT INTO users`. -/
def userRepositoryImpl.Create (user : User) (w : World) : Res Unit :=
  let (fault, w) := dbCall w
  if fault then (.error .driver, w)
  else (.ok (), { w with store := { w.store with users := w.store.users ++ [user] } })

/-- Method `userRepositoryImpl.GetByID`: `SELECT ... FROM users WHERE id = $1`. -/
def userRepositoryImpl.GetByID (id : UUID) (w : World) : Res User :=
  let (fault, w) := dbCall w
  if fault then (.error .driver, w)
  else match w.store.users.find? (fun u => u.id == id) with
    | none => (.error .ErrUserNotFound, w)
    | some u => (.ok u, w)

/-- Method `userRepositoryImpl.GetByEmail`: `SELECT ... FROM users WHERE email = $1`. -/
def userRepositoryImpl.GetByEmail (email : String) (w : World) : Res User :=
  let (fault, w) := dbCall w
  if fault then (.error .driver, w)
  else match w.store.users.find? (fun u => u.email == email) with
    | none => (.error .ErrUserNotFound, w)
    | some u => (.ok u, w)

/-- Method `userRepositoryImpl.Update`: `UPDATE users SET ... WHERE id = $1`; no row
affected is `ErrUserNotFound`. -/
def userRepositoryImpl.Update (user : User) (w : World) : Res Unit :=
  let (fault, w) := dbCall w
  if fault then (.error .driver, w)
  else if w.store.users.any (fun u => u.id == user.id) then
    (.ok (), { w with store := { w.store with users := w.store.users.map (fun u =>
      if u.id == user.id then
        { u with email := user.email, username := user.username,
                 displayName := user.displayName, isVerified := user.isVerified,
                 isActive := user.isActive, updatedAt := user.updatedAt }
      else u) } })
  else (.error .ErrUserNotFound, w)

/-- Method `userRepositoryImpl.ExistsByEmail`. -/
def userRepositoryImpl.ExistsByEmail (email : String) (w : World) : Res Bool :=
  let (fault, w) := dbCall w
  if fault then (.error .driver, w)
  else (.ok (w.store.users.any (fun u => u.email == email)), w)

/-- Method `userRepositoryImpl.ExistsByUsername`. -/
def userRepositoryImpl.ExistsByUsername (username : String) (w : World) : Res Bool :=
  let (fault, w) := dbCall w
  if fault then (.error .driver, w)
  else (.ok (w.store.users.any (fun u => u.username == username)), w)

/-- Method `userAuthRepositoryImpl.Create`: `INSERT INTO user_auth`. -/
def userAuthRepositoryImpl.Create (userAuth : UserAuth) (w : World) : Res Unit :=
  let (fault, w) := dbCall w
  if fault then (.error .driver, w)
  else (.ok (), { w with store := { w.store with userAuths := w.store.userAuths ++ [userAuth] } })

/-- Method `userAuthRepositoryImpl.GetByUserID`: `SELECT ... WHERE user_id = $1`. -/
def userAuthRepositoryImpl.GetByUserID (userID : UUID) (w : World) : Res UserAuth :=
  let (fault, w) := dbCall w
  if fault then (.error .driver, w)
  else match w.store.userAuths.find? (fun a => a.userID == userID) with
    | none => (.error .ErrUserAuthNotFound, w)
    | some a => (.ok a, w)

/-- Method `userAuthRepositoryImpl.Update`: `UPDATE user_auth SET password_hash,
last_login_at, updated_at WHERE user_id = $1`. -/
def userAuthRepositoryImpl.Update (userAuth : UserAuth) (w : World) : Res Unit :=
  let (fault, w) := dbCall w
  if fault then (.error .driver, w)
  else if w.store.userAuths.any (fun a => a.userID == userAuth.userID) then
    (.ok (), { w with store := { w.store with userAuths := w.store.userAuths.map (fun a =>
      if a.userID == userAuth.userID then
        { a with passwordHash := userAuth.passwordHash, lastLoginAt := userAuth.lastLoginAt,
                 updatedAt := userAuth.updatedAt }
      else a) } })
  else (.error .ErrUserAuthNotFound, w)

/-- Method `userRoleRepositoryImpl.Create`: `INSERT INTO user_roles`. -/
def userRoleRepositoryImpl.Create (userRole : UserRole) (w : World) : Res Unit :=
  let (fault, w) := dbCall w
  if fault then (.error .driver, w)
  else (.ok (), { w with store := { w.store with userRoles := w.store.userRoles ++ [userRole] } })

/-- Method `userRoleRepositoryImpl.GetByUserID`: `SELECT ... WHERE user_id = $1 ORDER
BY granted_at DESC`. The method returns the error of `db.Query` and of `rows.Scan`, but
never reads `rows.Err()`: a failure that comes up while the rows are read ends the loop
over `rows.Next()`, and the rows read so far are returned without an error. -/
def userRoleRepositoryImpl.GetByUserID (userID : UUID) (w : World) : Res (List UserRole) :=
  let cut := w.nextCut
  let (fault, w) := dbCall w
  let rows := orderByDesc (fun r => r.grantedAt)
    (w.store.userRoles.filter (fun r => r.userID == userID))
  if fault then
    match cut with
    | none => (.error .driver, w)
    | some n => (.ok (rows.take n), w)
  else (.ok rows, w)

/-- Method `userRoleRepositoryImpl.Update`: `UPDATE user_roles SET role, is_active
WHERE id = $1`. -/
def userRoleRepositoryImpl.Update (userRole : UserRole) (w : World) : Res Unit :=
  let (fault, w) := dbCall w
  if fault then (.error .driver, w)
  else if w.store.userRoles.any (fun r => r.id == userRole.id) then
    (.ok (), { w with store := { w.store with userRoles := w.store.userRoles.map (fun r =>
      if r.id == userRole.id then { r with role := userRole.role, isActive := userRole.isActive }
      else r) } })
  else (.error .ErrUserRoleNotFound, w)

/-- Method `refreshTokenRepositoryImpl.Create`: `INSERT INTO refresh_tokens`. -/
def refreshTokenRepositoryImpl.Create (token : RefreshToken) (w : World) : Res Unit :=
  let (fault, w) := dbCall w
  if fault then (.error .driver, w)
  else (.ok (), { w with store :=
    { w.store with refreshTokens := w.store.refreshTokens ++ [token] } })

/-- Method `refreshTokenRepositoryImpl.GetByToken`: `SELECT ... WHERE token = $1`, first
row. -/
def refreshTokenRepositoryImpl.GetByToken (tokenStr : String) (w : World) : Res RefreshToken :=
  let (fault, w) := dbCall w
  if fault then (.error .driver, w)
  else match w.store.refreshTokens.find? (fun r => r.token == tokenStr) with
    | none => (.error .ErrRefreshTokenNotFound, w)
    | some r => (.ok r, w)

/-- Method `refreshTokenRepositoryImpl.GetByUserID`: `SELECT ... WHERE user_id = $1
ORDER BY created_at DESC`. As in `userRoleRepositoryImpl.GetByUserID`, `rows.Err()` is
never read: a failure that comes up while the rows are read returns the rows read so
far without an error. -/
def refreshTokenRepositoryImpl.GetByUserID (userID : UUID) (w : World) :
    Res (List RefreshToken) :=
  let cut := w.nextCut
  let (fault, w) := dbCall w
  let rows := orderByDesc (fun r => r.createdAt)
    (w.store.refreshTokens.filter (fun r => r.userID == userID))
  if fault then
    match cut with
    | none => (.error .driver, w)
    | some n => (.ok (rows.take n), w)
  else (.ok rows, w)

/-- Method `refreshTokenRepositoryImpl.Update`: `UPDATE refresh_tokens SET is_revoked =
$2 WHERE id = $1`; no row affected is `ErrRefreshTokenNotFound`. -/
def refreshTokenRepositoryImpl.Update (token : RefreshToken) (w : World) : Res Unit :=
  let (fault, w) := dbCall w
  if fault then (.error .driver, w)
  else if w.store.refreshTokens.any (fun r => r.id == token.id) then
    (.ok (), { w with store :=
      { w.store with refreshTokens := w.store.refreshTokens.map (fun r =>
        if r.id == token.id then { r with isRevoked := token.isRevoked } else r) } })
  else (.error .ErrRefreshTokenNotFound, w)

/-- Method `emailVerificationRepositoryImpl.Create`: `INSERT INTO email_verifications`. -/
def emailVerificationRepositoryImpl.Create (verification : EmailVerification) (w : World) :
    Res Unit :=
  let (fault, w) := dbCall w
  if fault then (.error .driver, w)
  else (.ok (), { w with store :=
    { w.store with emailVerifications := w.store.emailVerifications ++ [verification] } })

/-- Method `emailVerificationRepositoryImpl.GetByToken`: `SELECT ... WHERE token = $1`. -/
def emailVerificationRepositoryImpl.GetByToken (token : String) (w : World) :
    Res EmailVerification :=
  let (fault, w) := dbCall w
  if fault then (.error .driver, w)
  else match w.store.emailVerifications.find? (fun r => r.token == token) with
    | none => (.error .ErrEmailVerificationNotFound, w)
    | some r => (.ok r, w)

/-- Method `emailVerificationRepositoryImpl.Update`: `UPDATE email_verifications SET
is_used = $2 WHERE id = $1`. -/
def emailVerificationRepositoryImpl.Update (verification : EmailVerification) (w : World) :
    Res Unit :=
  let (fault, w) := dbCall w
  if fault then (.error .driver, w)
  else if w.store.emailVerifications.any (fun r => r.id == verification.id) then
    (.ok (), { w with store :=
      { w.store with emailVerifications := w.store.emailVerifications.map (fun r =>
        if r.id == verification.id then { r with isUsed := verification.isUsed } else r) } })
  else (.error .ErrEmailVerificationNotFound, w)

/-- Method `passwordResetRepositoryImpl.Create`: `INSERT INTO password_resets`. -/
def passwordResetRepositoryImpl.Create (reset : PasswordReset) (w : World) : Res Unit :=
  let (fault, w) := dbCall w
  if fault then (.error .driver, w)
  else (.ok (), { w with store :=
    { w.store with passwordResets := w.store.passwordResets ++ [reset] } })

/-- Method `passwordResetRepositoryImpl.GetByToken`: `SELECT ... WHERE token = $1`. -/
def passwordResetRepositoryImpl.GetByToken (token : String) (w : World) : Res PasswordReset :=
  let (fault, w) := dbCall w
  if fault then (.error .driver, w)
  else match w.store.passwordResets.find? (fun r => r.token == token) with
    | none => (.error .ErrPasswordResetNotFound, w)
    | some r => (.ok r, w)

/-- Method `passwordResetRepositoryImpl.Update`: `UPDATE password_resets SET is_used =
$2 WHERE id = $1`. -/
def passwordResetRepositoryImpl.Update (reset : PasswordReset) (w : World) : Res Unit :=
  let (fault, w) := dbCall w
  if fault then (.error .driver, w)
  else if w.store.passwordResets.any (fun r => r.id == reset.id) then
    (.ok (), { w with store :=
      { w.store with passwordResets := w.store.passwordResets.map (fun r =>
        if r.id == reset.id then { r with isUsed := reset.isUsed } else r) } })
  else (.error .ErrPasswordResetNotFound, w)

/-! ## Helpers (`pkg/helpers`) -/

/-- The bcrypt library: `GenerateFromPassword` (with the salt it draws) and
`CompareHashAndPassword` (`true` when it returns no error). -/
structure Hasher where
  GenerateFromPassword : Nat → String → Except Err String
  CompareHashAndPassword : String → String → Bool

/-- Helper `helpers.HashPassword`. -/
def HashPassword (H : Hasher) (password : String) (w : World) : Res String :=
  (H.GenerateFromPassword w.nextSalt password, w.afterSalt)

/-- Helper `helpers.ComparePassword`: `true` when the returned error is nil. -/
def ComparePassword (H : Hasher) (hashedPassword password : String) : Bool :=
  H.CompareHashAndPassword hashedPassword password

/-- Helper `helpers.GenerateSecureToken`: the next value of the random source. -/
def GenerateSecureToken (w : World) : String × World :=
  (w.nextSecret, w.afterSecret)

/-- Table `helpers.TokenExpirationTimes.AccessToken`. -/
def TokenExpirationTimes.AccessToken : Int := 15 * time.Minute

/-- Table `helpers.TokenExpirationTimes.RefreshToken`. -/
def TokenExpirationTimes.RefreshToken : Int := 7 * 24 * time.Hour

/-- Table `helpers.TokenExpirationTimes.EmailVerification`. -/
def TokenExpirationTimes.EmailVerification : Int := 24 * time.Hour

/-- Table `helpers.TokenExpirationTimes.PasswordReset`. -/
def TokenExpirationTimes.PasswordReset : Int := 1 * time.Hour

/-- Helper `helpers.GetExpirationTime`. -/
def GetExpirationTime (tokenType : String) (w : World) : Time × World :=
  let (now, w) := time.Now w
  if tokenType = "access" then (now + TokenExpirationTimes.AccessToken, w)
  else if tokenType = "refresh" then (now + TokenExpirationTimes.RefreshToken, w)
  else if tokenType = "email_verification" then (now + TokenExpirationTimes.EmailVerification, w)
  else if tokenType = "password_reset" then (now + TokenExpirationTimes.PasswordReset, w)
  else (now + 1 * time.Hour, w)

/-- Table `helpers.RoleHierarchy`. -/
def RoleHierarchy (role : UserRoleType) : Option Int :=
  if role = RoleUser then some 1
  else if role = RoleModerator then some 2
  else if role = RoleAdmin then some 3
  else none

/-- Helper `helpers.HasHigherRole`. -/
def HasHigherRole (userRole requiredRole : UserRoleType) : Bool :=
  match RoleHierarchy userRole, RoleHierarchy requiredRole with
  | some userLevel, some requiredLevel => decide (userLevel ≥ requiredLevel)
  | _, _ => false

/-- Helper `helpers.GetRoleLevel`. -/
def GetRoleLevel (role : UserRoleType) : Int :=
  match RoleHierarchy role with
  | some level => level
  | none => 0

/-- Helper `helpers.IsValidRole`. -/
def IsValidRole (role : UserRoleType) : Bool :=
  (RoleHierarchy role).isSome

/-- Helper `helpers.CanAssignRole`. -/
def CanAssignRole (assignerRole targetRole : UserRoleType) : Bool :=
  decide (GetRoleLevel assignerRole > GetRoleLevel targetRole)

/-! ## The service (`internal/service/auth_service.go`) -/

/-- Method `AuthService.GetUserByID`. -/
def AuthService.GetUserByID (userID : UUID) (w : World) : Res User :=
  userRepositoryImpl.GetByID userID w

/-- Method `AuthService.createEmailVerification`. -/
def AuthService.createEmailVerification (userID : UUID) (w : World) : Res Unit :=
  let (token, w) := GenerateSecureToken w
  let (expiresAt, w) := GetExpirationTime "email_verification" w
  let (verification, w) := NewEmailVerification userID token expiresAt w
  emailVerificationRepositoryImpl.Create verification w

/-- Method `AuthService.createPasswordReset`. -/
def AuthService.createPasswordReset (userID : UUID) (w : World) : Res Unit :=
  let (token, w) := GenerateSecureToken w
  let (expiresAt, w) := GetExpirationTime "password_reset" w
  let (reset, w) := NewPasswordReset userID token expiresAt w
  passwordResetRepositoryImpl.Create reset w

/-- Method `AuthService.RegisterUser`. A failure to create the verification token is
only logged. -/
def AuthService.RegisterUser (H : Hasher) (email username displayName password : String)
    (w : World) : Res User :=
  match userRepositoryImpl.ExistsByEmail email w with
  | (.error err, w) => (.error err, w)
  | (.ok true, w) => (.error .ErrUserEmailExists, w)
  | (.ok false, w) =>
  match userRepositoryImpl.ExistsByUsername username w with
  | (.error err, w) => (.error err, w)
  | (.ok true, w) => (.error .ErrUserUsernameExists, w)
  | (.ok false, w) =>
  let (user, w) := NewUser email username displayName w
  match userRepositoryImpl.Create user w with
  | (.error err, w) => (.error err, w)
  | (.ok _, w) =>
  match HashPassword H password w with
  | (.error err, w) => (.error err, w)
  | (.ok hashedPassword, w) =>
  let (userAuth, w) := NewUserAuth user.id hashedPassword w
  match userAuthRepositoryImpl.Create userAuth w with
  | (.error err, w) => (.error err, w)
  | (.ok _, w) =>
  let (userRole, w) := NewUserRole user.id RoleUser w
  match userRoleRepositoryImpl.Create userRole w with
  | (.error err, w) => (.error err, w)
  | (.ok _, w) =>
  let (_, w) := AuthService.createEmailVerification user.id w
  (.ok user, w)

/-- Method `AuthService.AuthenticateUser`. Any error of the user lookup is reported
as `ErrUserNotFound`, any error of the credential lookup as `ErrUserAuthNotFound`; a
failure to store the last login time is only logged. -/
def AuthService.AuthenticateUser (H : Hasher) (email password : String) (w : World) :
    Res User :=
  match userRepositoryImpl.GetByEmail email w with
  | (.error _, w) => (.error .ErrUserNotFound, w)
  | (.ok user, w) =>
  if !user.isActive then (.error .ErrUserInactive, w)
  else
  match userAuthRepositoryImpl.GetByUserID user.id w with
  | (.error _, w) => (.error .ErrUserAuthNotFound, w)
  | (.ok userAuth, w) =>
  if !ComparePassword H userAuth.passwordHash password then (.error .ErrInvalidCredentials, w)
  else
  let (now, w) := time.Now w
  let (userAuth, w) := userAuth.SetLastLoginAt (some now) w
  let (_, w) := userAuthRepositoryImpl.Update userAuth w
  (.ok user, w)

/-- Method `AuthService.CreateRefreshToken`. -/
def AuthService.CreateRefreshToken (userID : UUID) (w : World) : Res RefreshToken :=
  let (token, w) := GenerateSecureToken w
  let (expiresAt, w) := GetExpirationTime "refresh" w
  let (refreshToken, w) := NewRefreshToken userID token expiresAt w
  match refreshTokenRepositoryImpl.Create refreshToken w with
  | (.error err, w) => (.error err, w)
  | (.ok _, w) => (.ok refreshToken, w)

/-- The row `CreateRefreshToken` builds in the world `w` for a user. -/
def AuthService.newSession (userID : UUID) (w : World) : RefreshToken :=
  { id := w.nextUUID, userID := userID, token := w.nextSecret,
    expiresAt := w.clock + TokenExpirationTimes.RefreshToken, isRevoked := false,
    createdAt := w.afterTick.clock }

/-- Method `AuthService.ValidateRefreshToken`. -/
def AuthService.ValidateRefreshToken (token : String) (w : World) : Res RefreshToken :=
  match refreshTokenRepositoryImpl.GetByToken token w with
  | (.error err, w) => (.error err, w)
  | (.ok refreshToken, w) =>
  let (valid, w) := refreshToken.IsValid w
  if !valid then (.error .ErrRefreshTokenInvalid, w)
  else (.ok refreshToken, w)

/-- Method `AuthService.RevokeRefreshToken`. -/
def AuthService.RevokeRefreshToken (token : String) (w : World) : Res Unit :=
  match refreshTokenRepositoryImpl.GetByToken token w with
  | (.error err, w) => (.error err, w)
  | (.ok refreshToken, w) =>
  refreshTokenRepositoryImpl.Update (refreshToken.SetRevoked true) w

/-- The loop of `AuthService.RevokeAllUserTokens`: every token that is not yet revoked is
updated; an update that fails is logged and the loop goes on. -/
def AuthService.revokeEach : List RefreshToken → World → World
  | [], w => w
  | token :: tokens, w =>
    if !token.isRevoked then
      let (_, w) := refreshTokenRepositoryImpl.Update (token.SetRevoked true) w
      AuthService.revokeEach tokens w
    else AuthService.revokeEach tokens w

/-- Method `AuthService.RevokeAllUserTokens`. -/
def AuthService.RevokeAllUserTokens (userID : UUID) (w : World) : Res Unit :=
  match refreshTokenRepositoryImpl.GetByUserID userID w with
  | (.error err, w) => (.error err, w)
  | (.ok tokens, w) => (.ok (), AuthService.revokeEach tokens w)

/-- Method `AuthService.VerifyEmail`. -/
def AuthService.VerifyEmail (token : String) (w : World) : Res Unit :=
  match emailVerificationRepositoryImpl.GetByToken token w with
  | (.error err, w) => (.error err, w)
  | (.ok verification, w) =>
  let (valid, w) := verification.IsValid w
  if !valid then (.error .ErrEmailVerificationInvalid, w)
  else
  match userRepositoryImpl.GetByID verification.userID w with
  | (.error err, w) => (.error err, w)
  | (.ok user, w) =>
  if user.isVerified then (.error .ErrEmailAlreadyVerified, w)
  else
  let (user, w) := user.SetVerified true w
  match userRepositoryImpl.Update user w with
  | (.error err, w) => (.error err, w)
  | (.ok _, w) =>
  emailVerificationRepositoryImpl.Update (verification.SetUsed true) w

/-- Method `AuthService.InitiatePasswordReset`. -/
def AuthService.InitiatePasswordReset (email : String) (w : World) : Res Unit :=
  match userRepositoryImpl.GetByEmail email w with
  | (.error _, w) => (.ok (), w)
  | (.ok user, w) =>
  if !user.isActive then (.ok (), w)
  else AuthService.createPasswordReset user.id w

/-- Method `AuthService.ResetPassword`. -/
def AuthService.ResetPassword (H : Hasher) (token newPassword : String) (w : World) :
    Res Unit :=
  match passwordResetRepositoryImpl.GetByToken token w with
  | (.error err, w) => (.error err, w)
  | (.ok reset, w) =>
  let (valid, w) := reset.IsValid w
  if !valid then (.error .ErrPasswordResetInvalid, w)
  else
  match HashPassword H newPassword w with
  | (.error err, w) => (.error err, w)
  | (.ok hashedPassword, w) =>
  match userAuthRepositoryImpl.GetByUserID reset.userID w with
  | (.error err, w) => (.error err, w)
  | (.ok userAuth, w) =>
  let (userAuth, w) := userAuth.SetPasswordHash hashedPassword w
  match userAuthRepositoryImpl.Update userAuth w with
  | (.error err, w) => (.error err, w)
  | (.ok _, w) =>
  match passwordResetRepositoryImpl.Update (reset.SetUsed true) w with
  | (.error err, w) => (.error err, w)
  | (.ok _, w) =>
  AuthService.RevokeAllUserTokens reset.userID w

/-- Method `AuthService.ChangePassword`. -/
def AuthService.ChangePassword (H : Hasher) (userID : UUID)
    (currentPassword newPassword : String) (w : World) : Res Unit :=
  match userAuthRepositoryImpl.GetByUserID userID w with
  | (.error err, w) => (.error err, w)
  | (.ok userAuth, w) =>
  if !ComparePassword H userAuth.passwordHash currentPassword then
    (.error .ErrInvalidCurrentPassword, w)
  else
  match HashPassword H newPassword w with
  | (.error err, w) => (.error err, w)
  | (.ok hashedPassword, w) =>
  let (userAuth, w) := userAuth.SetPasswordHash hashedPassword w
  match userAuthRepositoryImpl.Update userAuth w with
  | (.error err, w) => (.error err, w)
  | (.ok _, w) =>
  AuthService.RevokeAllUserTokens userID w

/-- Method `AuthService.GetUserRoles`. -/
def AuthService.GetUserRoles (userID : UUID) (w : World) : Res (List UserRole) :=
  userRoleRepositoryImpl.GetByUserID userID w

/-- Method `AuthService.HasRole`. -/
def AuthService.HasRole (userID : UUID) (role : UserRoleType) (w : World) : Res Bool :=
  match userRoleRepositoryImpl.GetByUserID userID w with
  | (.error err, w) => (.error err, w)
  | (.ok roles, w) => (.ok (roles.any (fun userRole => userRole.role == role && userRole.isActive)), w)

/-- Method `AuthService.HasPermission`. -/
def AuthService.HasPermission (userID : UUID) (requiredRole : UserRoleType) (w : World) :
    Res Bool :=
  match userRoleRepositoryImpl.GetByUserID userID w with
  | (.error err, w) => (.error err, w)
  | (.ok roles, w) =>
    (.ok (roles.any (fun userRole =>
      userRole.isActive && HasHigherRole userRole.role requiredRole)), w)

/-- Method `AuthService.AssignRole`. -/
def AuthService.AssignRole (userID : UUID) (role : UserRoleType) (w : World) : Res Unit :=
  if !IsValidRole role then (.error .ErrInvalidRole, w)
  else
  match AuthService.HasRole userID role w with
  | (.error err, w) => (.error err, w)
  | (.ok true, w) => (.error .ErrUserRoleAlreadyExists, w)
  | (.ok false, w) =>
  let (userRole, w) := NewUserRole userID role w
  userRoleRepositoryImpl.Create userRole w

/-- Method `AuthService.RevokeRole`: the first active grant of the role, in the order of
the query, is deactivated. -/
def AuthService.RevokeRole (userID : UUID) (role : UserRoleType) (w : World) : Res Unit :=
  match userRoleRepositoryImpl.GetByUserID userID w with
  | (.error err, w) => (.error err, w)
  | (.ok roles, w) =>
  match roles.find? (fun userRole => userRole.role == role && userRole.isActive) with
  | some userRole => userRoleRepositoryImpl.Update (userRole.SetActive false) w
  | none => (.error .ErrUserRoleNotFound, w)

/-- One call of an exported method of `AuthService`, with its arguments. -/
inductive AuthService.Op
  | GetUserByID (userID : UUID)
  | RegisterUser (email username displayName password : String)
  | AuthenticateUser (email password : String)
  | CreateRefreshToken (userID : UUID)
  | ValidateRefreshToken (token : String)
  | RevokeRefreshToken (token : String)
  | RevokeAllUserTokens (userID : UUID)
  | VerifyEmail (token : String)
  | InitiatePasswordReset (email : String)
  | ResetPassword (token newPassword : String)
  | ChangePassword (userID : UUID) (currentPassword newPassword : String)
  | GetUserRoles (userID : UUID)
  | HasRole (userID : UUID) (role : UserRoleType)
  | HasPermission (userID : UUID) (requiredRole : UserRoleType)
  | AssignRole (userID : UUID) (role : UserRoleType)
  | RevokeRole (userID : UUID) (role : UserRoleType)
  deriving DecidableEq, Repr

/-- The world after one call of the service. -/
def AuthService.run (H : Hasher) : AuthService.Op → World → World
  | .GetUserByID userID, w => (AuthService.GetUserByID userID w).2
  | .RegisterUser email username displayName password, w =>
    (AuthService.RegisterUser H email username displayName password w).2
  | .AuthenticateUser email password, w => (AuthService.AuthenticateUser H email password w).2
  | .CreateRefreshToken userID, w => (AuthService.CreateRefreshToken userID w).2
  | .ValidateRefreshToken token, w => (AuthService.ValidateRefreshToken token w).2
  | .RevokeRefreshToken token, w => (AuthService.RevokeRefreshToken token w).2
  | .RevokeAllUserTokens userID, w => (AuthService.RevokeAllUserTokens userID w).2
  | .VerifyEmail token, w => (AuthService.VerifyEmail token w).2
  | .InitiatePasswordReset email, w => (AuthService.InitiatePasswordReset email w).2
  | .ResetPassword token newPassword, w => (AuthService.ResetPassword H token newPassword w).2
  | .ChangePassword userID currentPassword newPassword, w =>
    (AuthService.ChangePassword H userID currentPassword newPassword w).2
  | .GetUserRoles userID, w => (AuthService.GetUserRoles userID w).2
  | .HasRole userID role, w => (AuthService.HasRole userID role w).2
  | .HasPermission userID requiredRole, w => (AuthService.HasPermission userID requiredRole w).2
  | .AssignRole userID role, w => (AuthService.AssignRole userID role w).2
  | .RevokeRole userID role, w => (AuthService.RevokeRole userID role w).2

/-- The world after a sequence of calls of the service, in order. -/
def AuthService.runAll (H : Hasher) : List AuthService.Op → World → World
  | [], w => w
  | op :: ops, w => AuthService.runAll H ops (AuthService.run H op w)

/-- The refresh tokens `after` are the rows `before`, in the same order, some of them with
the revoked flag set, followed by new rows. -/
def SessionsPersist (before after : List RefreshToken) : Prop :=
  ∃ (p : UUID → Bool) (extra : List RefreshToken),
    after = before.map (RefreshToken.revokeIfId p) ++ extra

/-! ## Access tokens (`internal/service/jwt_service.go`)

The `golang-jwt` library is outside the repository. A signed token is kept as
the claims it carries together with the signing method and the key it was
signed with. -/

/-- The `jwt.RegisteredClaims` fields the service sets. The subject is the canonical
text of the user ID, kept here as the ID. -/
structure RegisteredClaims where
  Issuer : String
  Subject : UUID
  IssuedAt : Time
  ExpiresAt : Time
  NotBefore : Time
  deriving DecidableEq, Repr

/-- The Go type `service.AccessTokenClaims`. -/
structure AccessTokenClaims where
  UserID : UUID
  Email : String
  Username : String
  DisplayName : String
  Roles : List UserRoleType
  IsVerified : Bool
  Registered : RegisteredClaims
  deriving DecidableEq, Repr

/-- A compact signed token: signing method, claims, and the key of the signature. -/
structure SignedToken where
  method : String
  claims : AccessTokenClaims
  key : String
  deriving DecidableEq, Repr

/-- The Go type `service.JWTService`. -/
structure JWTService where
  accessSecret : String
  refreshSecret : String
  issuer : String
  deriving DecidableEq, Repr

/-- Library function `jwt.NewNumericDate`: the instant truncated to whole seconds. -/
def jwt.NewNumericDate (t : Time) : Time :=
  t - t % time.Second

/-- Method `JWTService.GenerateAccessToken`. Signing with an HMAC key does not fail. -/
def JWTService.GenerateAccessToken (s : JWTService) (user : User) (roles : List UserRoleType)
    (w : World) : Res SignedToken :=
  let (now, w) := time.Now w
  let claims : AccessTokenClaims :=
    { UserID := user.id, Email := user.email, Username := user.username,
      DisplayName := user.displayName, Roles := roles, IsVerified := user.isVerified,
      Registered :=
        { Issuer := s.issuer, Subject := user.id, IssuedAt := jwt.NewNumericDate now,
          ExpiresAt := jwt.NewNumericDate (now + 15 * time.Minute),
          NotBefore := jwt.NewNumericDate now } }
  (.ok { method := "HS256", claims := claims, key := s.accessSecret }, w)

/-! ## HTTP transport (`internal/transport/http`) -/

/-- The part of a `gin.Context` the handlers read: the request path and the JSON body
(`none` when the body does not decode into the request type). -/
structure Context (α : Type) where
  path : String
  json : Option α

/-- The Go type `dto.RefreshTokenRequest`. -/
structure dto.RefreshTokenRequest where
  RefreshToken : String
  deriving DecidableEq, Repr

/-- The Go type `dto.ErrorResponse`. -/
structure dto.ErrorResponse where
  Error : String
  Message : String
  Timestamp : Time
  Path : String
  deriving DecidableEq, Repr

/-- The Go type `dto.TokenResponse`. -/
structure dto.TokenResponse where
  AccessToken : SignedToken
  RefreshToken : String
  TokenType : String
  ExpiresIn : Int
  deriving DecidableEq, Repr

/-- The JSON bodies the handlers write. -/
inductive Payload
  | error (e : dto.ErrorResponse)
  | tokens (t : dto.TokenResponse)
  | message (m : String)
  deriving DecidableEq, Repr

/-- What `c.JSON(status, body)` writes. -/
structure Response where
  status : Nat
  payload : Payload
  deriving DecidableEq, Repr

/-- Method `AuthHandler.respondError`. -/
def AuthHandler.respondError {α : Type} (c : Context α) (statusCode : Nat)
    (errorType message : String) (w : World) : Response × World :=
  let (now, w) := time.Now w
  ({ status := statusCode,
     payload := .error { Error := errorType, Message := message, Timestamp := now,
                         Path := c.path } }, w)

/-- Binding `c.ShouldBindJSON(&req)` for `dto.RefreshTokenRequest`: the body decodes and
the `required` field is not empty; otherwise the text of the binding error. -/
def ShouldBindJSON.RefreshTokenRequest (c : Context dto.RefreshTokenRequest) :
    Except String dto.RefreshTokenRequest :=
  match c.json with
  | none => .error "invalid request"
  | some req =>
    if req.RefreshToken = "" then
      .error "refresh_token is required"
    else .ok req

/-- Handler `AuthHandler.RefreshToken`: validate the presented refresh token, load the
user and the roles, mint an access token, create a new refresh token, revoke the old
one (a failure of the revocation is only logged). -/
def AuthHandler.RefreshToken (jwtService : JWTService)
    (c : Context dto.RefreshTokenRequest) (w : World) : Response × World :=
  match ShouldBindJSON.RefreshTokenRequest c with
  | .error msg => AuthHandler.respondError c 400 "validation_error" msg w
  | .ok req =>
  match AuthService.ValidateRefreshToken req.RefreshToken w with
  | (.error _, w) =>
    AuthHandler.respondError c 401 "invalid_token" "Invalid or expired refresh token" w
  | (.ok refreshToken, w) =>
  match AuthService.GetUserByID refreshToken.userID w with
  | (.error _, w) => AuthHandler.respondError c 401 "user_not_found" "User not found" w
  | (.ok user, w) =>
  let (roles, w) :=
    match AuthService.GetUserRoles user.id w with
    | (.error _, w) => (([] : List UserRole), w)
    | (.ok roles, w) => (roles, w)
  let roleStrings := roles.map (fun role => role.role)
  match jwtService.GenerateAccessToken user roleStrings w with
  | (.error _, w) =>
    AuthHandler.respondError c 500 "token_generation_error" "Failed to generate access token" w
  | (.ok accessToken, w) =>
  match AuthService.CreateRefreshToken user.id w with
  | (.error _, w) =>
    AuthHandler.respondError c 500 "token_generation_error" "Failed to generate refresh token" w
  | (.ok newRefreshToken, w) =>
  let (_, w) := AuthService.RevokeRefreshToken req.RefreshToken w
  ({ status := 200,
     payload := .tokens { AccessToken := accessToken, RefreshToken := newRefreshToken.token,
                          TokenType := "Bearer", ExpiresIn := 900 } }, w)

/-! ## Concrete data used by the examples -/

/-- A refresh session of user 7 that expires at instant 100. -/
def sessionA : RefreshToken :=
  { id := 1, userID := 7, token := "old", expiresAt := 100, isRevoked := false, createdAt := 0 }

/-- An email-verification token of user 7 that expires at instant 100. -/
def verificationA : EmailVerification :=
  { id := 1, userID := 7, token := "v", expiresAt := 100, isUsed := false, createdAt := 0 }

/-- A password-reset token of user 7 that expires at instant 100. -/
def resetA : PasswordReset :=
  { id := 1, userID := 7, token := "r", expiresAt := 100, isUsed := false, createdAt := 0 }

/-- User 7. -/
def userA : User :=
  { id := 7, email := "alice@x.com", username := "alice", displayName := "Alice",
    isVerified := false, isActive := true, createdAt := 0, updatedAt := 0 }

/-- A world whose clock shows the given instant, with a reliable database that holds
user 7 and the session `sessionA`. -/
def worldAt (now : Time) : World :=
  { store := { Store.empty with users := [userA], refreshTokens := [sessionA] },
    faults := [], clock := now, ticks := [], uuids := [2], secrets := ["new"], salts := [] }

/-- The world `worldAt 50` with a database that fails as the schedule says. -/
def faultyWorld (faults : List Bool) : World :=
  { worldAt 50 with faults := faults }

/-- A stand-in for bcrypt: the digest of `p` is `bcrypt:p`, whatever the salt. -/
def toyHasher : Hasher :=
  { GenerateFromPassword := fun _ p => .ok ("bcrypt:" ++ p)
    CompareHashAndPassword := fun h p => h == "bcrypt:" ++ p }

/-- The credential record of user 7: the password is `OldPass1!`. -/
def authA : UserAuth :=
  { id := 70, userID := 7, passwordHash := "bcrypt:OldPass1!", lastLoginAt := none,
    createdAt := 0, updatedAt := 0 }

/-- Five concurrent sessions of user 7 and one session of user 8. -/
def sessions : List RefreshToken :=
  [ { id := 1, userID := 7, token := "s1", expiresAt := 100, isRevoked := false, createdAt := 1 },
    { id := 2, userID := 7, token := "s2", expiresAt := 100, isRevoked := false, createdAt := 2 },
    { id := 3, userID := 8, token := "s3", expiresAt := 100, isRevoked := false, createdAt := 3 },
    { id := 4, userID := 7, token := "s4", expiresAt := 100, isRevoked := false, createdAt := 4 },
    { id := 5, userID := 7, token := "s5", expiresAt := 100, isRevoked := false, createdAt := 5 },
    { id := 6, userID := 7, token := "s6", expiresAt := 100, isRevoked := false, createdAt := 6 } ]

/-- A world at instant 50 in which user 7 has a credential record, the reset token
`resetA` and five sessions; the database fails as the schedule says. -/
def accountWorld (faults : List Bool) : World :=
  { store := { Store.empty with users := [userA], userAuths := [authA],
                                refreshTokens := sessions, passwordResets := [resetA] },
    faults := faults, clock := 50, ticks := [], uuids := [], secrets := [], salts := [] }

/-- The session `sessionA` after its revocation. -/
def sessionRevoked : RefreshToken := { sessionA with isRevoked := true }

/-- The world `worldAt 50` after the session `old` was revoked, with fresh values left in
the random sources. -/
def revokedWorld : World :=
  { store := { Store.empty with users := [userA], userAuths := [authA],
                                refreshTokens := [sessionRevoked] },
    faults := [], clock := 50, ticks := [], uuids := [2, 3], secrets := ["new", "reset"],
    salts := [] }

/-- A world with an empty database, a reliable connection and fresh random values. -/
def emptyWorld : World :=
  { store := Store.empty, faults := [], clock := 1000, ticks := [1, 1, 1, 1, 1, 1, 1, 1],
    uuids := [11, 12, 13, 14, 15], secrets := ["verify-secret", "reset-secret"], salts := [] }

/-- The world after `alice@x.com` registered with the password `OldPass1!`. -/
def registeredWorld : World :=
  (AuthService.RegisterUser toyHasher "alice@x.com" "alice" "Alice" "OldPass1!" emptyWorld).2

/-- The identity `RegisterUser` created for `alice@x.com`. -/
def alice : User :=
  { id := 11, email := "alice@x.com", username := "alice", displayName := "Alice",
    isVerified := false, isActive := true, createdAt := 1000, updatedAt := 1001 }

/-- The credential record `RegisterUser` created for `alice@x.com`. -/
def aliceAuth : UserAuth :=
  { id := 12, userID := 11, passwordHash := "bcrypt:OldPass1!", lastLoginAt := none,
    createdAt := 1002, updatedAt := 1003 }

/-- A JWT service with fixed secrets. -/
def jwtA : JWTService := ⟨"access-secret", "refresh-secret", "auth-service"⟩

/-- The request that presents the refresh secret `old`. -/
def rotateOld : Context dto.RefreshTokenRequest :=
  { path := "/auth/refresh", json := some { RefreshToken := "old" } }

/-- The token response of the rotation of `old` in `worldAt 50`. -/
def rotatedTokens : dto.TokenResponse :=
  { AccessToken :=
      { method := "HS256",
        claims :=
          { UserID := 7, Email := "alice@x.com", Username := "alice", DisplayName := "Alice",
            Roles := [], IsVerified := false,
            Registered :=
              { Issuer := "auth-service", Subject := 7, IssuedAt := 0,
                ExpiresAt := 900000000000, NotBefore := 0 } },
        key := "access-secret" },
    RefreshToken := "new", TokenType := "Bearer", ExpiresIn := 900 }

/-- Whether the round trip to the database that comes after `n` others fails with a driver
error (`faultAt 0` is the next one). -/
def World.faultAt (w : World) (n : Nat) : Bool := (w.faults.drop n).headD false

/-! ## Password-reset request over HTTP -/

/-- The Go type `dto.InitiatePasswordResetRequest`. -/
structure dto.InitiatePasswordResetRequest where
  Email : String
  deriving DecidableEq, Repr

/-- Binding `c.ShouldBindJSON(&req)` for `dto.InitiatePasswordResetRequest`
(`binding:"required,email"`): the body decodes, the field is not empty and it passes the
email rule `isEmail` of the validator; otherwise the text of the binding error. -/
def ShouldBindJSON.InitiatePasswordResetRequest (isEmail : String → Bool)
    (c : Context dto.InitiatePasswordResetRequest) :
    Except String dto.InitiatePasswordResetRequest :=
  match c.json with
  | none => .error "invalid request"
  | some req =>
    if req.Email = "" then .error "email is required"
    else if !isEmail req.Email then .error "email must be a valid email address"
    else .ok req

/-- Handler `AuthHandler.InitiatePasswordReset`: an error of the service is only logged
and the same message is always sent. -/
def AuthHandler.InitiatePasswordReset (isEmail : String → Bool)
    (c : Context dto.InitiatePasswordResetRequest) (w : World) : Response × World :=
  match ShouldBindJSON.InitiatePasswordResetRequest isEmail c with
  | .error msg => AuthHandler.respondError c 400 "validation_error" msg w
  | .ok req =>
  let (_, w) := AuthService.InitiatePasswordReset req.Email w
  ({ status := 200,
     payload := .message "If the email exists, a password reset link has been sent" }, w)

/-! ## More concrete data -/

/-- A world at instant 50 in which user 7 is not verified, has a credential record and
holds the verification token `verificationA` and the reset token `resetA`; the database
fails as the schedule says. -/
def tokenWorld (faults : List Bool) : World :=
  { store := { Store.empty with users := [userA], userAuths := [authA],
                                emailVerifications := [verificationA],
                                passwordResets := [resetA] },
    faults := faults, clock := 50, ticks := [], uuids := [21, 22], secrets := ["fresh"],
    salts := [] }

/-- User 7 after the verification of the email address. -/
def userVerified : User := { userA with isVerified := true }

/-- The world `tokenWorld` in which user 7 is already verified. -/
def verifiedWorld (faults : List Bool) : World :=
  { tokenWorld faults with
    store := { (tokenWorld faults).store with users := [userVerified] } }

/-- User 8, a deactivated account. -/
def userB : User :=
  { id := 8, email := "bob@x.com", username := "bob", displayName := "Bob",
    isVerified := true, isActive := false, createdAt := 0, updatedAt := 0 }

/-- The credential record of user 8: the password is `BobPass1!`. -/
def authB : UserAuth :=
  { id := 80, userID := 8, passwordHash := "bcrypt:BobPass1!", lastLoginAt := none,
    createdAt := 0, updatedAt := 0 }

/-- A world at instant 50 with the active user 7 and the deactivated user 8, both with a
credential record; the database fails as the schedule says. -/
def loginWorld (faults : List Bool) : World :=
  { store := { Store.empty with users := [userA, userB], userAuths := [authA, authB] },
    faults := faults, clock := 50, ticks := [], uuids := [21, 22], secrets := ["fresh"],
    salts := [] }

/-- The world `emptyWorld` with a database that fails as the schedule says. -/
def signupWorld (faults : List Bool) : World :=
  { emptyWorld with faults := faults }

/-- A password-reset request for the given address. -/
def resetRequest (email : String) : Context dto.InitiatePasswordResetRequest :=
  { path := "/auth/reset-password", json := some { Email := email } }

/-- The sessions the loop of `RevokeAllUserTokens` has to update for a user: the rows its
query returns, in the order of the query, that are not yet revoked. -/
def AuthService.pendingSessions (userID : UUID) (w : World) : List RefreshToken :=
  (orderByDesc (fun r => r.createdAt)
    (w.store.refreshTokens.filter (fun r => r.userID == userID))).filter
      (fun t => !t.isRevoked)

/-! ## Role grants -/

/-- No two different rows are active grants of the same role to the same user. -/
def ActiveGrantsUnique (grants : List UserRole) : Prop :=
  grants.Pairwise (fun a b =>
    ¬(a.userID = b.userID ∧ a.role = b.role ∧ a.isActive = true ∧ b.isActive = true))

instance (grants : List UserRole) : Decidable (ActiveGrantsUnique grants) :=
  inferInstanceAs (Decidable (List.Pairwise _ grants))

/-- A grant of the role `moderator` to user 7, and an older, revoked grant of the role
`admin`. -/
def grantsA : List UserRole :=
  [ { id := 31, userID := 7, role := RoleModerator, grantedAt := 10, isActive := true },
    { id := 32, userID := 7, role := RoleAdmin, grantedAt := 5, isActive := false },
    { id := 33, userID := 8, role := RoleUser, grantedAt := 7, isActive := true } ]

/-- A world at instant 50 with the users 7 and 8 and the grants `grantsA`; the database
fails as the schedule says. -/
def roleWorld (faults : List Bool) : World :=
  { store := { Store.empty with users := [userA, userB], userRoles := grantsA },
    faults := faults, clock := 50, ticks := [], uuids := [41, 42], secrets := [],
    salts := [] }

/-- The world `roleWorld` in which the next round trip, a list query, fails while its rows
are read, before the first row. -/
def cutWorld : World :=
  { roleWorld [true] with cuts := [none, some 0] }

/-! ## Friendship (`user-service/internal/domain/user_friends.go`) -/

/-- The Go type `domain.FriendshipStatus` (an `int`). -/
abbrev FriendshipStatus := Int

/-- Constant `domain.FriendshipPending`. -/
def FriendshipPending : FriendshipStatus := 0

/-- Constant `domain.FriendshipAccepted`. -/
def FriendshipAccepted : FriendshipStatus := 1

/-- Constant `domain.FriendshipRejected`. -/
def FriendshipRejected : FriendshipStatus := 2

/-- The Go type `domain.Friendship`; the ids are `int64` values. -/
structure Friendship where
  id : Int
  requesterID : Int
  addresseeID : Int
  status : FriendshipStatus
  createdAt : Time
  updatedAt : Time
  deriving DecidableEq, Repr

/-- Constructor `domain.NewFriendship`; the id is left at its zero value. -/
def NewFriendship (requesterID addresseeID : Int) (w : World) :
    Except String Friendship × World :=
  if requesterID = addresseeID then (.error "user cannot be friend with themselves", w)
  else if requesterID ≤ 0 ∨ addresseeID ≤ 0 then (.error "invalid user IDs", w)
  else
    let (now, w) := time.Now w
    (.ok { id := 0, requesterID := requesterID, addresseeID := addresseeID,
           status := FriendshipPending, createdAt := now, updatedAt := now }, w)

/-- Method `Friendship.Accept`: the returned error, the receiver afterwards, the world. -/
def Friendship.Accept (f : Friendship) (w : World) : Except String Unit × Friendship × World :=
  if f.status ≠ FriendshipPending then (.error "can only accept pending friendship", f, w)
  else
    let (now, w) := time.Now w
    (.ok (), { f with status := FriendshipAccepted, updatedAt := now }, w)

/-- Method `Friendship.Reject`: the returned error, the receiver afterwards, the world. -/
def Friendship.Reject (f : Friendship) (w : World) : Except String Unit × Friendship × World :=
  if f.status ≠ FriendshipPending then (.error "can only reject pending friendship", f, w)
  else
    let (now, w) := time.Now w
    (.ok (), { f with status := FriendshipRejected, updatedAt := now }, w)

/-- A call of one of the two methods that change a friendship. -/
inductive Friendship.Op
  | Accept
  | Reject
  deriving DecidableEq, Repr

/-- The friendship and the world after one call. -/
def Friendship.run : Friendship.Op → Friendship → World → Friendship × World
  | .Accept, f, w => (f.Accept w).2
  | .Reject, f, w => (f.Reject w).2

/-- The friendship and the world after a sequence of calls, in order. -/
def Friendship.runAll : List Friendship.Op → Friendship → World → Friendship × World
  | [], f, w => (f, w)
  | op :: ops, f, w => Friendship.runAll ops (Friendship.run op f w).1 (Friendship.run op f w).2

/-! ## Password rules (`pkg/helpers/validation.go`, `internal/service/validation_service.go`) -/

/-- The predicates of the Go package `unicode` that `ValidatePassword` calls, as functions
of the code point. -/
structure unicode.Classes where
  IsUpper : Char → Bool
  IsLower : Char → Bool
  IsNumber : Char → Bool
  IsPunct : Char → Bool
  IsSymbol : Char → Bool

/-- The four flags of the loop of `ValidatePassword`. -/
structure PasswordFlags where
  hasUpper : Bool
  hasLower : Bool
  hasNumber : Bool
  hasSpecial : Bool
  deriving DecidableEq, Repr

/-- One turn of the loop of `ValidatePassword`: the `switch` takes the first case that
holds for the character. -/
def ValidatePassword.step (U : unicode.Classes) (flags : PasswordFlags) (char : Char) :
    PasswordFlags :=
  if U.IsUpper char then { flags with hasUpper := true }
  else if U.IsLower char then { flags with hasLower := true }
  else if U.IsNumber char then { flags with hasNumber := true }
  else if U.IsPunct char || U.IsSymbol char then { flags with hasSpecial := true }
  else flags

/-- Helper `helpers.ValidatePassword`; `len(password)` is the length in bytes and the loop
ranges over the code points. -/
def ValidatePassword (U : unicode.Classes) (password : String) : Bool :=
  if password.utf8ByteSize < 8 ∨ password.utf8ByteSize > 128 then false
  else
    let flags := password.toList.foldl (ValidatePassword.step U) ⟨false, false, false, false⟩
    flags.hasUpper && flags.hasLower && flags.hasNumber && flags.hasSpecial

/-- Method `ValidationService.ValidatePassword`. -/
def ValidationService.ValidatePassword (U : unicode.Classes) (password : String) :
    Except Err Unit :=
  if !AuthSvc.ValidatePassword U password then .error .ErrPasswordTooWeak
  else .ok ()

/-- The classes of the characters below 128, by code point: the letters `A` to `Z`, the
letters `a` to `z`, the digits, the ASCII punctuation and the ASCII symbols; a character
from 128 on is in none of the classes. -/
def asciiClasses : unicode.Classes :=
  { IsUpper := fun c => decide (65 ≤ c.toNat ∧ c.toNat ≤ 90)
    IsLower := fun c => decide (97 ≤ c.toNat ∧ c.toNat ≤ 122)
    IsNumber := fun c => decide (48 ≤ c.toNat ∧ c.toNat ≤ 57)
    IsPunct := fun c =>
      [33, 34, 35, 37, 38, 39, 40, 41, 42, 44, 45, 46, 47, 58, 59, 63, 64, 91, 92, 93, 95,
        123, 125].contains c.toNat
    IsSymbol := fun c => [36, 43, 60, 61, 62, 94, 96, 124, 126].contains c.toNat }

/-! ## Validation of access tokens (`internal/service/jwt_service.go`) -/

/-- Method `JWTService.ValidateAccessToken`, for the token string that is the compact form
of `token`. `jwt.ParseWithClaims` calls the key function, which refuses a signing method
that is not an HMAC method, verifies the signature with the access secret, and validates
the registered claims against the clock: the token is refused when now is not before
expires-at, and when now is before not-before. Every error is reported as
`ErrTokenInvalid`. -/
def JWTService.ValidateAccessToken (s : JWTService) (token : SignedToken) (w : World) :
    Res AccessTokenClaims :=
  if token.method ≠ "HS256" ∧ token.method ≠ "HS384" ∧ token.method ≠ "HS512" then
    (.error .ErrTokenInvalid, w)
  else if token.key ≠ s.accessSecret then (.error .ErrTokenInvalid, w)
  else
    let (now, w) := time.Now w
    if ¬(now < token.claims.Registered.ExpiresAt) then (.error .ErrTokenInvalid, w)
    else if now < token.claims.Registered.NotBefore then (.error .ErrTokenInvalid, w)
    else (.ok token.claims, w)

/-- The world `worldAt now` read as nanoseconds: one second and a half. -/
def halfSecondWorld : World := worldAt 1500000000

/-! ## Middleware (`internal/transport/http/middleware/auth_middleware.go`) -/

/-- A value stored in the gin context by `c.Set`, tagged with its Go type:
`[]domain.UserRoleType` and `[]string` are different types. -/
inductive gin.Value
  | uuid (v : UUID)
  | string (v : String)
  | bool (v : Bool)
  | roleTypes (v : List UserRoleType)
  | strings (v : List String)
  deriving DecidableEq, Repr

/-- The part of a `gin.Context` the middleware reads and writes: the request path, the
token that `extractToken` finds in the `Authorization: Bearer` header or in the `token`
query parameter (`none` when it returns the empty string), the values set by `c.Set`, the
response written so far, and whether `c.Abort()` was called. -/
structure gin.Context where
  path : String
  token : Option SignedToken
  keys : List (String × gin.Value)
  response : Option Response
  aborted : Bool
  deriving DecidableEq, Repr

/-- Method `c.Set(key, value)`. -/
def gin.Context.Set (c : gin.Context) (key : String) (value : gin.Value) : gin.Context :=
  { c with keys := (key, value) :: c.keys.filter (fun kv => kv.1 != key) }

/-- Method `c.Get(key)`. -/
def gin.Context.Get (c : gin.Context) (key : String) : Option gin.Value :=
  (c.keys.find? (fun kv => kv.1 == key)).map (fun kv => kv.2)

/-- Method `AuthMiddleware.respondUnauthorized`. -/
def AuthMiddleware.respondUnauthorized (c : gin.Context) (message : String) (w : World) :
    gin.Context × World :=
  let (now, w) := time.Now w
  ({ c with response := some { status := 401,
                               payload := .error { Error := "unauthorized", Message := message,
                                                   Timestamp := now, Path := c.path } },
            aborted := true }, w)

/-- Method `AuthMiddleware.respondForbidden`. -/
def AuthMiddleware.respondForbidden (c : gin.Context) (message : String) (w : World) :
    gin.Context × World :=
  let (now, w) := time.Now w
  ({ c with response := some { status := 403,
                               payload := .error { Error := "forbidden", Message := message,
                                                   Timestamp := now, Path := c.path } },
            aborted := true }, w)

/-- Middleware `AuthMiddleware.RequireAuth`; returning without `c.Abort()` stands for
`c.Next()`. The roles are stored as they are in the claims, a `[]domain.UserRoleType`. -/
def AuthMiddleware.RequireAuth (jwtService : JWTService) (c : gin.Context) (w : World) :
    gin.Context × World :=
  match c.token with
  | none => AuthMiddleware.respondUnauthorized c "Missing authorization token" w
  | some token =>
  match jwtService.ValidateAccessToken token w with
  | (.error _, w) => AuthMiddleware.respondUnauthorized c "Invalid or expired token" w
  | (.ok claims, w) =>
    (((((c.Set "user_id" (.uuid claims.UserID)).Set "user_email" (.string claims.Email)).Set
      "user_username" (.string claims.Username)).Set "user_roles" (.roleTypes claims.Roles)).Set
      "user_verified" (.bool claims.IsVerified), w)

/-- Middleware `AuthMiddleware.RequireRole`: the type assertion `roles.([]string)` holds
for a value of the Go type `[]string` only. -/
def AuthMiddleware.RequireRole (requiredRole : String) (c : gin.Context) (w : World) :
    gin.Context × World :=
  match c.Get "user_roles" with
  | none => AuthMiddleware.respondForbidden c "No roles found" w
  | some (.strings userRoles) =>
    if userRoles.any (fun role => role == requiredRole) then (c, w)
    else AuthMiddleware.respondForbidden c "Insufficient permissions" w
  | some _ => AuthMiddleware.respondForbidden c "Invalid roles format" w

/-- Middleware `AuthMiddleware.RequireAdmin`. -/
def AuthMiddleware.RequireAdmin (c : gin.Context) (w : World) : gin.Context × World :=
  AuthMiddleware.RequireRole "admin" c w

/-- Middleware `AuthMiddleware.RequireModerator`. -/
def AuthMiddleware.RequireModerator (c : gin.Context) (w : World) : gin.Context × World :=
  match c.Get "user_roles" with
  | none => AuthMiddleware.respondForbidden c "No roles found" w
  | some (.strings userRoles) =>
    if userRoles.any (fun role => role == "admin" || role == "moderator") then (c, w)
    else AuthMiddleware.respondForbidden c "Insufficient permissions" w
  | some _ => AuthMiddleware.respondForbidden c "Invalid roles format" w

/-- The handlers of a route run in order; after `c.Abort()` the pending ones are
skipped. -/
def gin.handle : List (gin.Context → World → gin.Context × World) → gin.Context → World →
    gin.Context × World
  | [], c, w => (c, w)
  | handler :: handlers, c, w =>
    if c.aborted then (c, w)
    else gin.handle handlers (handler c w).1 (handler c w).2

/-- The routes of the group `/api/auth/users` in `SetupRoutes`: `RequireAuth`, then
`RequireAdmin`, then the handler of the endpoint. -/
def adminRoute (jwtService : JWTService) (endpoint : gin.Context → World → gin.Context × World) :
    List (gin.Context → World → gin.Context × World) :=
  [AuthMiddleware.RequireAuth jwtService, AuthMiddleware.RequireAdmin, endpoint]

/-- An access token of user 7 with the role `admin`, issued by `jwtA` at instant 50. -/
def adminToken : SignedToken :=
  { method := "HS256",
    claims :=
      { UserID := 7, Email := "alice@x.com", Username := "alice", DisplayName := "Alice",
        Roles := [RoleAdmin], IsVerified := false,
        Registered :=
          { Issuer := "auth-service", Subject := 7, IssuedAt := 0,
            ExpiresAt := 900000000000, NotBefore := 0 } },
    key := "access-secret" }

/-- A request for the grants of user 8 that carries `adminToken`. -/
def adminRequest : gin.Context :=
  { path := "/api/auth/users/8/roles", token := some adminToken, keys := [], response := none,
    aborted := false }

/-- An endpoint that answers 200. -/
def okEndpoint (c : gin.Context) (w : World) : gin.Context × World :=
  ({ c with response := some { status := 200, payload := .message "ok" } }, w)

/-! ## Password reset over HTTP: confirmation -/

/-- The text of an error, `err.Error()`. The texts of `driver` and `bcrypt` stand for the
texts of the errors of the libraries, none of which is a text of the sentinels. -/
def Err.Error : Err → String
  | .ErrUserNotFound => "user not found"
  | .ErrUserEmailExists => "user with this email already exists"
  | .ErrUserUsernameExists => "user with this username already exists"
  | .ErrUserAuthNotFound => "user auth not found"
  | .ErrUserRoleNotFound => "user role not found"
  | .ErrUserRoleAlreadyExists => "user role already exists"
  | .ErrInvalidRole => "invalid role type"
  | .ErrRefreshTokenNotFound => "refresh token not found"
  | .ErrRefreshTokenInvalid => "refresh token is invalid"
  | .ErrEmailVerificationNotFound => "email verification not found"
  | .ErrEmailVerificationInvalid => "email verification token is invalid"
  | .ErrPasswordResetNotFound => "password reset not found"
  | .ErrPasswordResetInvalid => "password reset token is invalid"
  | .ErrInvalidCredentials => "invalid email or password"
  | .ErrUserInactive => "user account is inactive"
  | .ErrEmailAlreadyVerified => "email is already verified"
  | .ErrInvalidCurrentPassword => "current password is incorrect"
  | .ErrTokenInvalid => "token is invalid"
  | .ErrPasswordTooWeak => "password is too weak"
  | .driver => "driver error"
  | .bcrypt => "bcrypt error"

/-- Method `AuthHandler.handleServiceError`: a `switch` on the text of the error. -/
def AuthHandler.handleServiceError {α : Type} (c : Context α) (err : Err) (w : World) :
    Response × World :=
  if err.Error = "user not found" then
    AuthHandler.respondError c 404 "user_not_found" "User not found" w
  else if err.Error = "invalid email or password" then
    AuthHandler.respondError c 401 "invalid_credentials" "Invalid email or password" w
  else if err.Error = "user account is inactive" then
    AuthHandler.respondError c 403 "account_inactive" "User account is inactive" w
  else if err.Error = "email is already verified" then
    AuthHandler.respondError c 400 "already_verified" "Email is already verified" w
  else if err.Error = "user with this email already exists" then
    AuthHandler.respondError c 409 "email_exists" "User with this email already exists" w
  else if err.Error = "user with this username already exists" then
    AuthHandler.respondError c 409 "username_exists"
      "User with this username already exists" w
  else if err.Error = "email verification not found" then
    AuthHandler.respondError c 404 "verification_not_found"
      "Email verification token not found" w
  else if err.Error = "email verification token has expired" then
    AuthHandler.respondError c 400 "verification_expired"
      "Email verification token has expired" w
  else if err.Error = "email verification token has already been used" then
    AuthHandler.respondError c 400 "verification_used"
      "Email verification token has already been used" w
  else if err.Error = "email verification token is invalid" then
    AuthHandler.respondError c 400 "verification_invalid"
      "Email verification token is invalid" w
  else AuthHandler.respondError c 500 "internal_error" "Internal server error" w

/-- The Go type `dto.ResetPasswordRequest`. -/
structure dto.ResetPasswordRequest where
  Token : String
  NewPassword : String
  deriving DecidableEq, Repr

/-- Binding `c.ShouldBindJSON(&req)` for `dto.ResetPasswordRequest` (`required` and
`required,min=8,max=128`, the lengths counted in characters); otherwise the text of the
binding error. -/
def ShouldBindJSON.ResetPasswordRequest (c : Context dto.ResetPasswordRequest) :
    Except String dto.ResetPasswordRequest :=
  match c.json with
  | none => .error "invalid request"
  | some req =>
    if req.Token = "" then .error "token is required"
    else if req.NewPassword = "" then .error "new_password is required"
    else if req.NewPassword.length < 8 then .error "new_password is too short"
    else if req.NewPassword.length > 128 then .error "new_password is too long"
    else .ok req

/-- Handler `AuthHandler.ResetPassword`. -/
def AuthHandler.ResetPassword (U : unicode.Classes) (H : Hasher)
    (c : Context dto.ResetPasswordRequest) (w : World) : Response × World :=
  match ShouldBindJSON.ResetPasswordRequest c with
  | .error msg => AuthHandler.respondError c 400 "validation_error" msg w
  | .ok req =>
  match ValidationService.ValidatePassword U req.NewPassword with
  | .error err => AuthHandler.respondError c 400 "validation_error" err.Error w
  | .ok _ =>
  match AuthService.ResetPassword H req.Token req.NewPassword w with
  | (.error err, w) => AuthHandler.handleServiceError c err w
  | (.ok _, w) => ({ status := 200, payload := .message "Password reset successfully" }, w)

/-- A request to confirm a password reset with the given token and new password. -/
def confirmRequest (token newPassword : String) : Context dto.ResetPasswordRequest :=
  { path := "/api/auth/reset-password/confirm",
    json := some { Token := token, NewPassword := newPassword } }

/-- The world `tokenWorld` at instant 200, after the reset token `resetA` has expired. -/
def lateWorld : World := { tokenWorld [] with clock := 200 }

/-! ## Theorems -/

/-! ### Validity of stored tokens -/

/-- C3 (as the code has it): for the three kinds of stored token, `IsValid` holds exactly
when the flag (revoked, respectively used) is false and the clock is not after
expires-at; the instant expires-at itself is still valid. -/
theorem isValid_iff_flag_false_and_not_after :
    (∀ (rt : RefreshToken) (w : World),
      (rt.IsValid w).1 = true ↔ (rt.isRevoked = false ∧ w.clock ≤ rt.expiresAt)) ∧
    (∀ (ev : EmailVerification) (w : World),
      (ev.IsValid w).1 = true ↔ (ev.isUsed = false ∧ w.clock ≤ ev.expiresAt)) ∧
    (∀ (pr : PasswordReset) (w : World),
      (pr.IsValid w).1 = true ↔ (pr.isUsed = false ∧ w.clock ≤ pr.expiresAt)) := by
  refine ⟨?_, ?_, ?_⟩
  · intro rt w
    cases h : rt.isRevoked <;>
      simp [RefreshToken.IsValid, RefreshToken.IsExpired, time.Now, h]
  · intro ev w
    cases h : ev.isUsed <;>
      simp [EmailVerification.IsValid, EmailVerification.IsExpired, time.Now, h]
  · intro pr w
    cases h : pr.isUsed <;>
      simp [PasswordReset.IsValid, PasswordReset.IsExpired, time.Now, h]

/-- C3 (as stated) fails at the boundary: at the instant expires-at (here 100) an
unrevoked refresh token, an unused verification token and an unused reset token are
all valid, although the clock is not strictly before expires-at. -/
theorem isValid_at_expiry_instant :
    (sessionA.IsValid (worldAt 100)).1 = true ∧
    (verificationA.IsValid (worldAt 100)).1 = true ∧
    (resetA.IsValid (worldAt 100)).1 = true ∧
    ¬ ((worldAt 100).clock < sessionA.expiresAt) ∧
    ¬ ((worldAt 100).clock < verificationA.expiresAt) ∧
    ¬ ((worldAt 100).clock < resetA.expiresAt) := by
  decide

/-! ### The oracles are independent of each other -/
@[simp] theorem World.afterCall_store (w : World) : w.afterCall.store = w.store := rfl
@[simp] theorem World.afterCall_clock (w : World) : w.afterCall.clock = w.clock := rfl
@[simp] theorem World.afterCall_ticks (w : World) : w.afterCall.ticks = w.ticks := rfl
@[simp] theorem World.afterCall_uuids (w : World) : w.afterCall.uuids = w.uuids := rfl
@[simp] theorem World.afterCall_secrets (w : World) : w.afterCall.secrets = w.secrets := rfl
@[simp] theorem World.afterCall_salts (w : World) : w.afterCall.salts = w.salts := rfl
@[simp] theorem World.afterCall_nextUUID (w : World) : w.afterCall.nextUUID = w.nextUUID := rfl
@[simp] theorem World.afterCall_nextSecret (w : World) : w.afterCall.nextSecret = w.nextSecret := rfl
@[simp] theorem World.afterCall_nextSalt (w : World) : w.afterCall.nextSalt = w.nextSalt := rfl
@[simp] theorem World.afterTick_store (w : World) : w.afterTick.store = w.store := rfl
@[simp] theorem World.afterTick_faults (w : World) : w.afterTick.faults = w.faults := rfl
@[simp] theorem World.afterTick_uuids (w : World) : w.afterTick.uuids = w.uuids := rfl
@[simp] theorem World.afterTick_secrets (w : World) : w.afterTick.secrets = w.secrets := rfl
@[simp] theorem World.afterTick_salts (w : World) : w.afterTick.salts = w.salts := rfl
@[simp] theorem World.afterTick_nextFault (w : World) : w.afterTick.nextFault = w.nextFault := rfl
@[simp] theorem World.afterTick_nextUUID (w : World) : w.afterTick.nextUUID = w.nextUUID := rfl
@[simp] theorem World.afterTick_nextSecret (w : World) : w.afterTick.nextSecret = w.nextSecret := rfl
@[simp] theorem World.afterTick_nextSalt (w : World) : w.afterTick.nextSalt = w.nextSalt := rfl
@[simp] theorem World.afterUUID_store (w : World) : w.afterUUID.store = w.store := rfl
@[simp] theorem World.afterUUID_faults (w : World) : w.afterUUID.faults = w.faults := rfl
@[simp] theorem World.afterUUID_clock (w : World) : w.afterUUID.clock = w.clock := rfl
@[simp] theorem World.afterUUID_ticks (w : World) : w.afterUUID.ticks = w.ticks := rfl
@[simp] theorem World.afterUUID_secrets (w : World) : w.afterUUID.secrets = w.secrets := rfl
@[simp] theorem World.afterUUID_salts (w : World) : w.afterUUID.salts = w.salts := rfl
@[simp] theorem World.afterUUID_nextFault (w : World) : w.afterUUID.nextFault = w.nextFault := rfl
@[simp] theorem World.afterUUID_nextSecret (w : World) : w.afterUUID.nextSecret = w.nextSecret := rfl
@[simp] theorem World.afterUUID_nextSalt (w : World) : w.afterUUID.nextSalt = w.nextSalt := rfl
@[simp] theorem World.afterSecret_store (w : World) : w.afterSecret.store = w.store := rfl
@[simp] theorem World.afterSecret_faults (w : World) : w.afterSecret.faults = w.faults := rfl
@[simp] theorem World.afterSecret_clock (w : World) : w.afterSecret.clock = w.clock := rfl
@[simp] theorem World.afterSecret_ticks (w : World) : w.afterSecret.ticks = w.ticks := rfl
@[simp] theorem World.afterSecret_uuids (w : World) : w.afterSecret.uuids = w.uuids := rfl
@[simp] theorem World.afterSecret_salts (w : World) : w.afterSecret.salts = w.salts := rfl
@[simp] theorem World.afterSecret_nextFault (w : World) : w.afterSecret.nextFault = w.nextFault := rfl
@[simp] theorem World.afterSecret_nextUUID (w : World) : w.afterSecret.nextUUID = w.nextUUID := rfl
@[simp] theorem World.afterSecret_nextSalt (w : World) : w.afterSecret.nextSalt = w.nextSalt := rfl
@[simp] theorem World.afterSalt_store (w : World) : w.afterSalt.store = w.store := rfl
@[simp] theorem World.afterSalt_faults (w : World) : w.afterSalt.faults = w.faults := rfl
@[simp] theorem World.afterSalt_clock (w : World) : w.afterSalt.clock = w.clock := rfl
@[simp] theorem World.afterSalt_ticks (w : World) : w.afterSalt.ticks = w.ticks := rfl
@[simp] theorem World.afterSalt_uuids (w : World) : w.afterSalt.uuids = w.uuids := rfl
@[simp] theorem World.afterSalt_secrets (w : World) : w.afterSalt.secrets = w.secrets := rfl
@[simp] theorem World.afterSalt_nextFault (w : World) : w.afterSalt.nextFault = w.nextFault := rfl
@[simp] theorem World.afterSalt_nextUUID (w : World) : w.afterSalt.nextUUID = w.nextUUID := rfl
@[simp] theorem World.afterSalt_nextSecret (w : World) : w.afterSalt.nextSecret = w.nextSecret := rfl

@[simp] theorem World.afterCall_reliable (w : World) (h : w.reliable) : w.afterCall.reliable := by
  unfold World.reliable at *
  simp [World.afterCall, h]

@[simp] theorem World.afterTick_reliable (w : World) : w.afterTick.reliable ↔ w.reliable :=
  Iff.rfl

@[simp] theorem World.afterUUID_reliable (w : World) : w.afterUUID.reliable ↔ w.reliable :=
  Iff.rfl

@[simp] theorem World.afterSecret_reliable (w : World) : w.afterSecret.reliable ↔ w.reliable :=
  Iff.rfl

@[simp] theorem World.afterSalt_reliable (w : World) : w.afterSalt.reliable ↔ w.reliable :=
  Iff.rfl

theorem World.nextFault_of_reliable (w : World) (h : w.reliable) : w.nextFault = false := by
  unfold World.reliable at h
  simp [World.nextFault, h]

theorem World.afterCall_of_reliable (w : World) (h : w.reliable) : w.afterCall = w := by
  unfold World.reliable at h
  cases w
  simp_all [World.afterCall]

theorem World.clock_le_afterTick (w : World) : w.clock ≤ w.afterTick.clock := by
  simp [World.afterTick]

/-! ### Validation of a refresh token -/

theorem decide_lt_eq_not_decide_le (a b : Int) : decide (a < b) = !decide (b ≤ a) := by
  by_cases h : b ≤ a
  · simp [h, not_lt.mpr h]
  · simp [h, not_le.mp h]

@[simp] theorem RefreshToken_IsValid_fst (rt : RefreshToken) (w : World) :
    (rt.IsValid w).1 = (!rt.isRevoked && decide (w.clock ≤ rt.expiresAt)) := by
  cases h : rt.isRevoked <;>
    simp [RefreshToken.IsValid, RefreshToken.IsExpired, time.Now, h, decide_lt_eq_not_decide_le]

@[simp] theorem RefreshToken_IsValid_store (rt : RefreshToken) (w : World) :
    (rt.IsValid w).2.store = w.store := by
  cases h : rt.isRevoked <;> simp [RefreshToken.IsValid, RefreshToken.IsExpired, time.Now, h]

/-- C4: `ValidateRefreshToken` never modifies the store; and when the lookup is answered
by the database, it fails with `ErrRefreshTokenNotFound` if no stored token has the
secret, fails with `ErrRefreshTokenInvalid` if the stored token is revoked or expired,
and otherwise returns the stored session. -/
theorem validateRefreshToken_cases (secret : String) (w : World) :
    (AuthService.ValidateRefreshToken secret w).2.store = w.store ∧
    (w.nextFault = false →
      (w.store.refreshTokens.find? (fun r => r.token == secret) = none →
        (AuthService.ValidateRefreshToken secret w).1 = .error .ErrRefreshTokenNotFound) ∧
      (∀ r, w.store.refreshTokens.find? (fun r => r.token == secret) = some r →
        (r.isRevoked = true ∨ r.expiresAt < w.clock) →
        (AuthService.ValidateRefreshToken secret w).1 = .error .ErrRefreshTokenInvalid) ∧
      (∀ r, w.store.refreshTokens.find? (fun r => r.token == secret) = some r →
        r.isRevoked = false → w.clock ≤ r.expiresAt →
        (AuthService.ValidateRefreshToken secret w).1 = .ok r)) := by
  refine ⟨?_, ?_⟩
  · cases hf : w.nextFault <;>
      cases hfind : w.store.refreshTokens.find? (fun r => r.token == secret) <;>
      simp [AuthService.ValidateRefreshToken, refreshTokenRepositoryImpl.GetByToken, dbCall,
        hf, hfind]
    split <;> simp
  · intro hf
    refine ⟨?_, ?_, ?_⟩
    · intro hnone
      simp [AuthService.ValidateRefreshToken, refreshTokenRepositoryImpl.GetByToken, dbCall,
        hf, hnone]
    · intro r hsome hbad
      rcases hbad with hrev | hexp
      · simp [AuthService.ValidateRefreshToken, refreshTokenRepositoryImpl.GetByToken, dbCall,
          hf, hsome, hrev]
      · simp [AuthService.ValidateRefreshToken, refreshTokenRepositoryImpl.GetByToken, dbCall,
          hf, hsome, hexp]
    · intro r hsome hrev hle
      simp [AuthService.ValidateRefreshToken, refreshTokenRepositoryImpl.GetByToken, dbCall,
        hf, hsome, hrev, hle]

/-- C4, at a concrete store: the lookup of `old` at instant 50 is answered and returns the
stored session. -/
theorem validateRefreshToken_cases_witness :
    (worldAt 50).nextFault = false ∧
    (AuthService.ValidateRefreshToken "old" (worldAt 50)).1 = .ok sessionA :=
  ⟨by decide,
   ((validateRefreshToken_cases "old" (worldAt 50)).2 (by decide)).2.2 sessionA
     (by decide) (by decide) (by decide)⟩

/-! ### Refresh rotation -/

@[simp] theorem AuthHandler.respondError_store {α : Type} (c : Context α) (code : Nat)
    (errorType message : String) (w : World) :
    (AuthHandler.respondError c code errorType message w).2.store = w.store := by
  simp [AuthHandler.respondError, time.Now]

@[simp] theorem AuthHandler.respondError_status {α : Type} (c : Context α) (code : Nat)
    (errorType message : String) (w : World) :
    (AuthHandler.respondError c code errorType message w).1.status = code := by
  simp [AuthHandler.respondError, time.Now]

/-- C1: when the presented refresh secret is unknown, revoked or expired, the rotation
handler answers with an error (status 401, or 400 when the request does not bind), the
response carries no token, and the store is left unchanged. -/
theorem refreshToken_rejects_invalid_secret (jwtService : JWTService)
    (c : Context dto.RefreshTokenRequest) (w : World)
    (h : ∀ req r, c.json = some req →
      w.store.refreshTokens.find? (fun t => t.token == req.RefreshToken) = some r →
      r.isRevoked = true ∨ r.expiresAt < w.clock) :
    ((AuthHandler.RefreshToken jwtService c w).1.status = 400 ∨
      (AuthHandler.RefreshToken jwtService c w).1.status = 401) ∧
    (∃ e, (AuthHandler.RefreshToken jwtService c w).1.payload = .error e) ∧
    (AuthHandler.RefreshToken jwtService c w).2.store = w.store := by
  cases hj : c.json with
  | none =>
    simp [AuthHandler.RefreshToken, ShouldBindJSON.RefreshTokenRequest, hj,
      AuthHandler.respondError, time.Now]
  | some req =>
    by_cases hempty : req.RefreshToken = ""
    · simp [AuthHandler.RefreshToken, ShouldBindJSON.RefreshTokenRequest, hj, hempty,
        AuthHandler.respondError, time.Now]
    · cases hf : w.nextFault
      · cases hfind : w.store.refreshTokens.find? (fun t => t.token == req.RefreshToken) with
        | none =>
          simp [AuthHandler.RefreshToken, ShouldBindJSON.RefreshTokenRequest, hj, hempty,
            AuthService.ValidateRefreshToken, refreshTokenRepositoryImpl.GetByToken, dbCall,
            hf, hfind, AuthHandler.respondError, time.Now]
        | some r =>
          have hbad := h req r hj hfind
          have hinv : (!r.isRevoked && decide (w.clock ≤ r.expiresAt)) = false := by
            rcases hbad with hrev | hexp
            · simp [hrev]
            · simp [hexp]
          simp [AuthHandler.RefreshToken, ShouldBindJSON.RefreshTokenRequest, hj, hempty,
            AuthService.ValidateRefreshToken, refreshTokenRepositoryImpl.GetByToken, dbCall,
            hf, hfind, hinv, AuthHandler.respondError, time.Now]
      · simp [AuthHandler.RefreshToken, ShouldBindJSON.RefreshTokenRequest, hj, hempty,
          AuthService.ValidateRefreshToken, refreshTokenRepositoryImpl.GetByToken, dbCall,
          hf, AuthHandler.respondError, time.Now]

/-- C1, at a concrete store: at instant 200 the session `old` (expires at 100) is expired;
rotation answers 401 and leaves the store unchanged. -/
theorem refreshToken_rejects_invalid_secret_witness :
    (AuthHandler.RefreshToken jwtA ⟨"/auth/refresh", some ⟨"old"⟩⟩ (worldAt 200)).1.status = 401 ∧
    (AuthHandler.RefreshToken jwtA ⟨"/auth/refresh", some ⟨"old"⟩⟩ (worldAt 200)).2.store =
      (worldAt 200).store := by
  have key := refreshToken_rejects_invalid_secret jwtA ⟨"/auth/refresh", some ⟨"old"⟩⟩
    (worldAt 200) (by
      intro req r hj hfind
      cases hj
      have hr : sessionA = r := by
        simpa [worldAt, Store.empty, sessionA] using hfind
      subst hr
      exact Or.inr (by decide))
  exact ⟨by decide, key.2.2⟩

/-! ### Normal form of the world after a call -/

@[simp] theorem World.withStore_faults (w : World) (s : Store) :
    (w.withStore s).faults = w.faults := rfl

@[simp] theorem World.withStore_clock (w : World) (s : Store) :
    (w.withStore s).clock = w.clock := rfl

@[simp] theorem World.withStore_ticks (w : World) (s : Store) :
    (w.withStore s).ticks = w.ticks := rfl

@[simp] theorem World.withStore_uuids (w : World) (s : Store) :
    (w.withStore s).uuids = w.uuids := rfl

@[simp] theorem World.withStore_secrets (w : World) (s : Store) :
    (w.withStore s).secrets = w.secrets := rfl

@[simp] theorem World.withStore_salts (w : World) (s : Store) :
    (w.withStore s).salts = w.salts := rfl

@[simp] theorem World.withStore_store (w : World) (s : Store) : (w.withStore s).store = s := rfl

@[simp] theorem World.withStore_nextFault (w : World) (s : Store) :
    (w.withStore s).nextFault = w.nextFault := rfl

@[simp] theorem World.withStore_nextUUID (w : World) (s : Store) :
    (w.withStore s).nextUUID = w.nextUUID := rfl

@[simp] theorem World.withStore_nextSecret (w : World) (s : Store) :
    (w.withStore s).nextSecret = w.nextSecret := rfl

@[simp] theorem World.withStore_nextSalt (w : World) (s : Store) :
    (w.withStore s).nextSalt = w.nextSalt := rfl

@[simp] theorem World.withStore_afterCall (w : World) (s : Store) :
    (w.withStore s).afterCall = w.afterCall.withStore s := rfl

@[simp] theorem World.withStore_afterTick (w : World) (s : Store) :
    (w.withStore s).afterTick = w.afterTick.withStore s := rfl

@[simp] theorem World.withStore_afterUUID (w : World) (s : Store) :
    (w.withStore s).afterUUID = w.afterUUID.withStore s := rfl

@[simp] theorem World.withStore_afterSecret (w : World) (s : Store) :
    (w.withStore s).afterSecret = w.afterSecret.withStore s := rfl

@[simp] theorem World.withStore_afterSalt (w : World) (s : Store) :
    (w.withStore s).afterSalt = w.afterSalt.withStore s := rfl

@[simp] theorem World.withStore_withStore (w : World) (s t : Store) :
    (w.withStore s).withStore t = w.withStore t := rfl

@[simp] theorem World.withStore_self (w : World) : w.withStore w.store = w := rfl

@[simp] theorem World.withStore_reliable (w : World) (s : Store) :
    (w.withStore s).reliable ↔ w.reliable := Iff.rfl

/-! ### What each statement leaves behind -/

@[simp] theorem userRepositoryImpl_GetByID_snd (id : UUID) (w : World) :
    (userRepositoryImpl.GetByID id w).2 = w.afterCall := by
  unfold userRepositoryImpl.GetByID dbCall
  cases w.nextFault
  · simp
    split <;> rfl
  · simp

@[simp] theorem userRepositoryImpl_GetByEmail_snd (email : String) (w : World) :
    (userRepositoryImpl.GetByEmail email w).2 = w.afterCall := by
  unfold userRepositoryImpl.GetByEmail dbCall
  cases w.nextFault
  · simp
    split <;> rfl
  · simp

@[simp] theorem userRepositoryImpl_ExistsByEmail_snd (email : String) (w : World) :
    (userRepositoryImpl.ExistsByEmail email w).2 = w.afterCall := by
  unfold userRepositoryImpl.ExistsByEmail dbCall
  cases w.nextFault <;> simp

@[simp] theorem userRepositoryImpl_ExistsByUsername_snd (username : String) (w : World) :
    (userRepositoryImpl.ExistsByUsername username w).2 = w.afterCall := by
  unfold userRepositoryImpl.ExistsByUsername dbCall
  cases w.nextFault <;> simp

@[simp] theorem userAuthRepositoryImpl_GetByUserID_snd (userID : UUID) (w : World) :
    (userAuthRepositoryImpl.GetByUserID userID w).2 = w.afterCall := by
  unfold userAuthRepositoryImpl.GetByUserID dbCall
  cases w.nextFault
  · simp
    split <;> rfl
  · simp

@[simp] theorem userRoleRepositoryImpl_GetByUserID_snd (userID : UUID) (w : World) :
    (userRoleRepositoryImpl.GetByUserID userID w).2 = w.afterCall := by
  unfold userRoleRepositoryImpl.GetByUserID dbCall
  cases w.nextFault <;> cases w.nextCut <;> simp

@[simp] theorem refreshTokenRepositoryImpl_GetByToken_snd (token : String) (w : World) :
    (refreshTokenRepositoryImpl.GetByToken token w).2 = w.afterCall := by
  unfold refreshTokenRepositoryImpl.GetByToken dbCall
  cases w.nextFault
  · simp
    split <;> rfl
  · simp

@[simp] theorem refreshTokenRepositoryImpl_GetByUserID_snd (userID : UUID) (w : World) :
    (refreshTokenRepositoryImpl.GetByUserID userID w).2 = w.afterCall := by
  unfold refreshTokenRepositoryImpl.GetByUserID dbCall
  cases w.nextFault <;> cases w.nextCut <;> simp

@[simp] theorem emailVerificationRepositoryImpl_GetByToken_snd (token : String) (w : World) :
    (emailVerificationRepositoryImpl.GetByToken token w).2 = w.afterCall := by
  unfold emailVerificationRepositoryImpl.GetByToken dbCall
  cases w.nextFault
  · simp
    split <;> rfl
  · simp

@[simp] theorem passwordResetRepositoryImpl_GetByToken_snd (token : String) (w : World) :
    (passwordResetRepositoryImpl.GetByToken token w).2 = w.afterCall := by
  unfold passwordResetRepositoryImpl.GetByToken dbCall
  cases w.nextFault
  · simp
    split <;> rfl
  · simp


theorem List.map_ite_of_any_eq_false {α : Type} (l : List α) (p : α → Bool) (f : α → α)
    (h : l.any p = false) : l.map (fun r => if p r then f r else r) = l := by
  induction l with
  | nil => rfl
  | cons a l ih =>
    simp only [List.any_cons, Bool.or_eq_false_iff] at h
    simp [h.1, ih h.2]

@[simp] theorem userRepositoryImpl_Create_snd (user : User) (w : World) :
    (userRepositoryImpl.Create user w).2 = w.afterCall.withStore
      (if w.nextFault then w.store
       else { w.store with users := w.store.users ++ [user] }) := by
  unfold userRepositoryImpl.Create dbCall
  cases w.nextFault <;> rfl

@[simp] theorem userRepositoryImpl_Create_fst (user : User) (w : World) :
    (userRepositoryImpl.Create user w).1 = if w.nextFault then .error .driver else .ok () := by
  unfold userRepositoryImpl.Create dbCall
  cases w.nextFault <;> rfl

@[simp] theorem userAuthRepositoryImpl_Create_snd (userAuth : UserAuth) (w : World) :
    (userAuthRepositoryImpl.Create userAuth w).2 = w.afterCall.withStore
      (if w.nextFault then w.store
       else { w.store with userAuths := w.store.userAuths ++ [userAuth] }) := by
  unfold userAuthRepositoryImpl.Create dbCall
  cases w.nextFault <;> rfl

@[simp] theorem userAuthRepositoryImpl_Create_fst (userAuth : UserAuth) (w : World) :
    (userAuthRepositoryImpl.Create userAuth w).1 = if w.nextFault then .error .driver else .ok () := by
  unfold userAuthRepositoryImpl.Create dbCall
  cases w.nextFault <;> rfl

@[simp] theorem userRoleRepositoryImpl_Create_snd (userRole : UserRole) (w : World) :
    (userRoleRepositoryImpl.Create userRole w).2 = w.afterCall.withStore
      (if w.nextFault then w.store
       else { w.store with userRoles := w.store.userRoles ++ [userRole] }) := by
  unfold userRoleRepositoryImpl.Create dbCall
  cases w.nextFault <;> rfl

@[simp] theorem userRoleRepositoryImpl_Create_fst (userRole : UserRole) (w : World) :
    (userRoleRepositoryImpl.Create userRole w).1 = if w.nextFault then .error .driver else .ok () := by
  unfold userRoleRepositoryImpl.Create dbCall
  cases w.nextFault <;> rfl

@[simp] theorem refreshTokenRepositoryImpl_Create_snd (token : RefreshToken) (w : World) :
    (refreshTokenRepositoryImpl.Create token w).2 = w.afterCall.withStore
      (if w.nextFault then w.store
       else { w.store with refreshTokens := w.store.refreshTokens ++ [token] }) := by
  unfold refreshTokenRepositoryImpl.Create dbCall
  cases w.nextFault <;> rfl

@[simp] theorem refreshTokenRepositoryImpl_Create_fst (token : RefreshToken) (w : World) :
    (refreshTokenRepositoryImpl.Create token w).1 = if w.nextFault then .error .driver else .ok () := by
  unfold refreshTokenRepositoryImpl.Create dbCall
  cases w.nextFault <;> rfl

@[simp] theorem emailVerificationRepositoryImpl_Create_snd (verification : EmailVerification) (w : World) :
    (emailVerificationRepositoryImpl.Create verification w).2 = w.afterCall.withStore
      (if w.nextFault then w.store
       else { w.store with emailVerifications := w.store.emailVerifications ++ [verification] }) := by
  unfold emailVerificationRepositoryImpl.Create dbCall
  cases w.nextFault <;> rfl

@[simp] theorem emailVerificationRepositoryImpl_Create_fst (verification : EmailVerification) (w : World) :
    (emailVerificationRepositoryImpl.Create verification w).1 = if w.nextFault then .error .driver else .ok () := by
  unfold emailVerificationRepositoryImpl.Create dbCall
  cases w.nextFault <;> rfl

@[simp] theorem passwordResetRepositoryImpl_Create_snd (reset : PasswordReset) (w : World) :
    (passwordResetRepositoryImpl.Create reset w).2 = w.afterCall.withStore
      (if w.nextFault then w.store
       else { w.store with passwordResets := w.store.passwordResets ++ [reset] }) := by
  unfold passwordResetRepositoryImpl.Create dbCall
  cases w.nextFault <;> rfl

@[simp] theorem passwordResetRepositoryImpl_Create_fst (reset : PasswordReset) (w : World) :
    (passwordResetRepositoryImpl.Create reset w).1 = if w.nextFault then .error .driver else .ok () := by
  unfold passwordResetRepositoryImpl.Create dbCall
  cases w.nextFault <;> rfl

@[simp] theorem userRepositoryImpl_Update_snd (user : User) (w : World) :
    (userRepositoryImpl.Update user w).2 = w.afterCall.withStore
      (if w.nextFault then w.store
       else { w.store with users := w.store.users.map (fun u =>
                if u.id == user.id then
                  { u with email := user.email, username := user.username,
                              displayName := user.displayName, isVerified := user.isVerified,
                              isActive := user.isActive, updatedAt := user.updatedAt }
                else u) }) := by
  cases hf : w.nextFault
  · cases hany : w.store.users.any (fun u => u.id == user.id)
    · rw [List.map_ite_of_any_eq_false _ _ _ hany]
      simp [userRepositoryImpl.Update, dbCall, hf, hany]
      rfl
    · simp [userRepositoryImpl.Update, dbCall, hf, hany]
      rfl
  · simp [userRepositoryImpl.Update, dbCall, hf]
    rfl

@[simp] theorem userRepositoryImpl_Update_fst (user : User) (w : World) :
    (userRepositoryImpl.Update user w).1 =
      if w.nextFault then .error .driver
      else if w.store.users.any (fun u => u.id == user.id) then .ok ()
      else .error .ErrUserNotFound := by
  cases hf : w.nextFault
  · cases hany : w.store.users.any (fun u => u.id == user.id) <;>
      simp [userRepositoryImpl.Update, dbCall, hf, hany]
  · simp [userRepositoryImpl.Update, dbCall, hf]

@[simp] theorem userAuthRepositoryImpl_Update_snd (userAuth : UserAuth) (w : World) :
    (userAuthRepositoryImpl.Update userAuth w).2 = w.afterCall.withStore
      (if w.nextFault then w.store
       else { w.store with userAuths := w.store.userAuths.map (fun a =>
                if a.userID == userAuth.userID then
                  { a with passwordHash := userAuth.passwordHash,
                              lastLoginAt := userAuth.lastLoginAt,
                              updatedAt := userAuth.updatedAt }
                else a) }) := by
  cases hf : w.nextFault
  · cases hany : w.store.userAuths.any (fun a => a.userID == userAuth.userID)
    · rw [List.map_ite_of_any_eq_false _ _ _ hany]
      simp [userAuthRepositoryImpl.Update, dbCall, hf, hany]
      rfl
    · simp [userAuthRepositoryImpl.Update, dbCall, hf, hany]
      rfl
  · simp [userAuthRepositoryImpl.Update, dbCall, hf]
    rfl

@[simp] theorem userAuthRepositoryImpl_Update_fst (userAuth : UserAuth) (w : World) :
    (userAuthRepositoryImpl.Update userAuth w).1 =
      if w.nextFault then .error .driver
      else if w.store.userAuths.any (fun a => a.userID == userAuth.userID) then .ok ()
      else .error .ErrUserAuthNotFound := by
  cases hf : w.nextFault
  · cases hany : w.store.userAuths.any (fun a => a.userID == userAuth.userID) <;>
      simp [userAuthRepositoryImpl.Update, dbCall, hf, hany]
  · simp [userAuthRepositoryImpl.Update, dbCall, hf]

@[simp] theorem userRoleRepositoryImpl_Update_snd (userRole : UserRole) (w : World) :
    (userRoleRepositoryImpl.Update userRole w).2 = w.afterCall.withStore
      (if w.nextFault then w.store
       else { w.store with userRoles := w.store.userRoles.map (fun r =>
                if r.id == userRole.id then
                  { r with role := userRole.role, isActive := userRole.isActive }
                else r) }) := by
  cases hf : w.nextFault
  · cases hany : w.store.userRoles.any (fun r => r.id == userRole.id)
    · rw [List.map_ite_of_any_eq_false _ _ _ hany]
      simp [userRoleRepositoryImpl.Update, dbCall, hf, hany]
      rfl
    · simp [userRoleRepositoryImpl.Update, dbCall, hf, hany]
      rfl
  · simp [userRoleRepositoryImpl.Update, dbCall, hf]
    rfl

@[simp] theorem userRoleRepositoryImpl_Update_fst (userRole : UserRole) (w : World) :
    (userRoleRepositoryImpl.Update userRole w).1 =
      if w.nextFault then .error .driver
      else if w.store.userRoles.any (fun r => r.id == userRole.id) then .ok ()
      else .error .ErrUserRoleNotFound := by
  cases hf : w.nextFault
  · cases hany : w.store.userRoles.any (fun r => r.id == userRole.id) <;>
      simp [userRoleRepositoryImpl.Update, dbCall, hf, hany]
  · simp [userRoleRepositoryImpl.Update, dbCall, hf]

@[simp] theorem refreshTokenRepositoryImpl_Update_snd (token : RefreshToken) (w : World) :
    (refreshTokenRepositoryImpl.Update token w).2 = w.afterCall.withStore
      (if w.nextFault then w.store
       else { w.store with refreshTokens := w.store.refreshTokens.map (fun r =>
                if r.id == token.id then
                  { r with isRevoked := token.isRevoked }
                else r) }) := by
  cases hf : w.nextFault
  · cases hany : w.store.refreshTokens.any (fun r => r.id == token.id)
    · rw [List.map_ite_of_any_eq_false _ _ _ hany]
      simp [refreshTokenRepositoryImpl.Update, dbCall, hf, hany]
      rfl
    · simp [refreshTokenRepositoryImpl.Update, dbCall, hf, hany]
      rfl
  · simp [refreshTokenRepositoryImpl.Update, dbCall, hf]
    rfl

@[simp] theorem refreshTokenRepositoryImpl_Update_fst (token : RefreshToken) (w : World) :
    (refreshTokenRepositoryImpl.Update token w).1 =
      if w.nextFault then .error .driver
      else if w.store.refreshTokens.any (fun r => r.id == token.id) then .ok ()
      else .error .ErrRefreshTokenNotFound := by
  cases hf : w.nextFault
  · cases hany : w.store.refreshTokens.any (fun r => r.id == token.id) <;>
      simp [refreshTokenRepositoryImpl.Update, dbCall, hf, hany]
  · simp [refreshTokenRepositoryImpl.Update, dbCall, hf]

@[simp] theorem emailVerificationRepositoryImpl_Update_snd (verification : EmailVerification) (w : World) :
    (emailVerificationRepositoryImpl.Update verification w).2 = w.afterCall.withStore
      (if w.nextFault then w.store
       else { w.store with emailVerifications := w.store.emailVerifications.map (fun r =>
                if r.id == verification.id then
                  { r with isUsed := verification.isUsed }
                else r) }) := by
  cases hf : w.nextFault
  · cases hany : w.store.emailVerifications.any (fun r => r.id == verification.id)
    · rw [List.map_ite_of_any_eq_false _ _ _ hany]
      simp [emailVerificationRepositoryImpl.Update, dbCall, hf, hany]
      rfl
    · simp [emailVerificationRepositoryImpl.Update, dbCall, hf, hany]
      rfl
  · simp [emailVerificationRepositoryImpl.Update, dbCall, hf]
    rfl

@[simp] theorem emailVerificationRepositoryImpl_Update_fst (verification : EmailVerification) (w : World) :
    (emailVerificationRepositoryImpl.Update verification w).1 =
      if w.nextFault then .error .driver
      else if w.store.emailVerifications.any (fun r => r.id == verification.id) then .ok ()
      else .error .ErrEmailVerificationNotFound := by
  cases hf : w.nextFault
  · cases hany : w.store.emailVerifications.any (fun r => r.id == verification.id) <;>
      simp [emailVerificationRepositoryImpl.Update, dbCall, hf, hany]
  · simp [emailVerificationRepositoryImpl.Update, dbCall, hf]

@[simp] theorem passwordResetRepositoryImpl_Update_snd (reset : PasswordReset) (w : World) :
    (passwordResetRepositoryImpl.Update reset w).2 = w.afterCall.withStore
      (if w.nextFault then w.store
       else { w.store with passwordResets := w.store.passwordResets.map (fun r =>
                if r.id == reset.id then
                  { r with isUsed := reset.isUsed }
                else r) }) := by
  cases hf : w.nextFault
  · cases hany : w.store.passwordResets.any (fun r => r.id == reset.id)
    · rw [List.map_ite_of_any_eq_false _ _ _ hany]
      simp [passwordResetRepositoryImpl.Update, dbCall, hf, hany]
      rfl
    · simp [passwordResetRepositoryImpl.Update, dbCall, hf, hany]
      rfl
  · simp [passwordResetRepositoryImpl.Update, dbCall, hf]
    rfl

@[simp] theorem passwordResetRepositoryImpl_Update_fst (reset : PasswordReset) (w : World) :
    (passwordResetRepositoryImpl.Update reset w).1 =
      if w.nextFault then .error .driver
      else if w.store.passwordResets.any (fun r => r.id == reset.id) then .ok ()
      else .error .ErrPasswordResetNotFound := by
  cases hf : w.nextFault
  · cases hany : w.store.passwordResets.any (fun r => r.id == reset.id) <;>
      simp [passwordResetRepositoryImpl.Update, dbCall, hf, hany]
  · simp [passwordResetRepositoryImpl.Update, dbCall, hf]


/-! ### Revoking all sessions of a user -/

@[simp] theorem RefreshToken.revokeIfId_id (p : UUID → Bool) (r : RefreshToken) :
    (r.revokeIfId p).id = r.id := by
  unfold RefreshToken.revokeIfId RefreshToken.SetRevoked
  split <;> rfl

@[simp] theorem RefreshToken.revokeIfId_token (p : UUID → Bool) (r : RefreshToken) :
    (r.revokeIfId p).token = r.token := by
  unfold RefreshToken.revokeIfId RefreshToken.SetRevoked
  split <;> rfl

@[simp] theorem RefreshToken.revokeIfId_userID (p : UUID → Bool) (r : RefreshToken) :
    (r.revokeIfId p).userID = r.userID := by
  unfold RefreshToken.revokeIfId RefreshToken.SetRevoked
  split <;> rfl

@[simp] theorem RefreshToken.revokeIfId_expiresAt (p : UUID → Bool) (r : RefreshToken) :
    (r.revokeIfId p).expiresAt = r.expiresAt := by
  unfold RefreshToken.revokeIfId RefreshToken.SetRevoked
  split <;> rfl

@[simp] theorem RefreshToken.revokeIfId_isRevoked (p : UUID → Bool) (r : RefreshToken) :
    (r.revokeIfId p).isRevoked = (p r.id || r.isRevoked) := by
  unfold RefreshToken.revokeIfId RefreshToken.SetRevoked
  cases h : p r.id <;> simp

theorem RefreshToken.revokeIfId_of_false (p : UUID → Bool) (r : RefreshToken)
    (h : p r.id = false) : r.revokeIfId p = r := by
  simp [RefreshToken.revokeIfId, h]

theorem RefreshToken.revokeIfId_of_revoked (p : UUID → Bool) (r : RefreshToken)
    (h : r.isRevoked = true) : r.revokeIfId p = r := by
  unfold RefreshToken.revokeIfId RefreshToken.SetRevoked
  split
  · cases r
    simp_all
  · rfl

theorem RefreshToken.revokeIfId_revokeIfId (p q : UUID → Bool) (r : RefreshToken) :
    (r.revokeIfId p).revokeIfId q = r.revokeIfId (fun i => p i || q i) := by
  unfold RefreshToken.revokeIfId RefreshToken.SetRevoked
  cases hp : p r.id <;> cases hq : q r.id <;> simp [hp, hq]

@[simp] theorem Store.mapRefreshTokens_refreshTokens (s : Store) (f : RefreshToken → RefreshToken) :
    (s.mapRefreshTokens f).refreshTokens = s.refreshTokens.map f := rfl

@[simp] theorem Store.mapRefreshTokens_users (s : Store) (f : RefreshToken → RefreshToken) :
    (s.mapRefreshTokens f).users = s.users := rfl

@[simp] theorem Store.mapRefreshTokens_userAuths (s : Store) (f : RefreshToken → RefreshToken) :
    (s.mapRefreshTokens f).userAuths = s.userAuths := rfl

@[simp] theorem Store.mapRefreshTokens_userRoles (s : Store) (f : RefreshToken → RefreshToken) :
    (s.mapRefreshTokens f).userRoles = s.userRoles := rfl

@[simp] theorem Store.mapRefreshTokens_emailVerifications (s : Store)
    (f : RefreshToken → RefreshToken) :
    (s.mapRefreshTokens f).emailVerifications = s.emailVerifications := rfl

@[simp] theorem Store.mapRefreshTokens_passwordResets (s : Store)
    (f : RefreshToken → RefreshToken) :
    (s.mapRefreshTokens f).passwordResets = s.passwordResets := rfl

theorem Store.mapRefreshTokens_congr (s : Store) (f g : RefreshToken → RefreshToken)
    (h : ∀ r ∈ s.refreshTokens, f r = g r) : s.mapRefreshTokens f = s.mapRefreshTokens g := by
  unfold Store.mapRefreshTokens
  rw [List.map_congr_left h]

theorem Store.mapRefreshTokens_self (s : Store) (f : RefreshToken → RefreshToken)
    (h : ∀ r ∈ s.refreshTokens, f r = r) : s.mapRefreshTokens f = s := by
  have : s.refreshTokens.map f = s.refreshTokens := by
    conv_rhs => rw [← List.map_id s.refreshTokens]
    exact List.map_congr_left h
  unfold Store.mapRefreshTokens
  rw [this]

theorem Store.mapRefreshTokens_mapRefreshTokens (s : Store) (f g : RefreshToken → RefreshToken) :
    (s.mapRefreshTokens f).mapRefreshTokens g = s.mapRefreshTokens (fun r => g (f r)) := by
  simp [Store.mapRefreshTokens, List.map_map, Function.comp_def]

/-- The world left by the update that revokes a token. -/
theorem refreshTokenRepositoryImpl_Update_SetRevoked_snd (t : RefreshToken) (w : World) :
    (refreshTokenRepositoryImpl.Update (t.SetRevoked true) w).2 = w.afterCall.withStore
      (if w.nextFault then w.store
       else w.store.mapRefreshTokens (RefreshToken.revokeIfId (fun i => i == t.id))) := by
  rw [refreshTokenRepositoryImpl_Update_snd]
  rfl

/-- In a reliable world the loop of `RevokeAllUserTokens` revokes exactly the rows whose id
is the id of a listed token that was not yet revoked. -/
theorem AuthService.revokeEach_of_reliable (tokens : List RefreshToken) (w : World)
    (h : w.reliable) :
    AuthService.revokeEach tokens w = w.withStore (w.store.mapRefreshTokens
      (RefreshToken.revokeIfId (fun i => tokens.any (fun t => !t.isRevoked && i == t.id)))) := by
  induction tokens generalizing w with
  | nil =>
    rw [Store.mapRefreshTokens_self]
    · rfl
    · intro r _
      exact RefreshToken.revokeIfId_of_false _ _ rfl
  | cons t ts ih =>
    unfold AuthService.revokeEach
    cases ht : t.isRevoked
    · simp only [Bool.not_false, if_true]
      rw [refreshTokenRepositoryImpl_Update_SetRevoked_snd, w.afterCall_of_reliable h,
        w.nextFault_of_reliable h]
      simp only [Bool.false_eq_true, if_false]
      rw [ih _ ((World.withStore_reliable _ _).mpr h)]
      simp only [World.withStore_withStore, World.withStore_store,
        Store.mapRefreshTokens_mapRefreshTokens, RefreshToken.revokeIfId_revokeIfId]
      simp [ht]
    · simp only [Bool.not_true, Bool.false_eq_true, if_false]
      rw [ih _ h]
      simp [ht]

/-! ### The statements in a world whose next call is answered -/

theorem userRepositoryImpl_GetByID_of_found (id : UUID) (w : World) (x : _)
    (hf : w.nextFault = false) (hx : w.store.users.find? (fun u => u.id == id) = some x) :
    userRepositoryImpl.GetByID id w = (.ok x, w.afterCall) := by
  simp [userRepositoryImpl.GetByID, dbCall, hf, hx]

theorem userRepositoryImpl_GetByID_of_absent (id : UUID) (w : World)
    (hf : w.nextFault = false) (hx : w.store.users.find? (fun u => u.id == id) = none) :
    userRepositoryImpl.GetByID id w = (.error .ErrUserNotFound, w.afterCall) := by
  simp [userRepositoryImpl.GetByID, dbCall, hf, hx]

theorem userRepositoryImpl_GetByID_of_fault (id : UUID) (w : World) (hf : w.nextFault = true) :
    userRepositoryImpl.GetByID id w = (.error .driver, w.afterCall) := by
  simp [userRepositoryImpl.GetByID, dbCall, hf]

theorem userRepositoryImpl_GetByEmail_of_found (email : String) (w : World) (x : _)
    (hf : w.nextFault = false) (hx : w.store.users.find? (fun u => u.email == email) = some x) :
    userRepositoryImpl.GetByEmail email w = (.ok x, w.afterCall) := by
  simp [userRepositoryImpl.GetByEmail, dbCall, hf, hx]

theorem userRepositoryImpl_GetByEmail_of_absent (email : String) (w : World)
    (hf : w.nextFault = false) (hx : w.store.users.find? (fun u => u.email == email) = none) :
    userRepositoryImpl.GetByEmail email w = (.error .ErrUserNotFound, w.afterCall) := by
  simp [userRepositoryImpl.GetByEmail, dbCall, hf, hx]

theorem userRepositoryImpl_GetByEmail_of_fault (email : String) (w : World) (hf : w.nextFault = true) :
    userRepositoryImpl.GetByEmail email w = (.error .driver, w.afterCall) := by
  simp [userRepositoryImpl.GetByEmail, dbCall, hf]

theorem userAuthRepositoryImpl_GetByUserID_of_found (userID : UUID) (w : World) (x : _)
    (hf : w.nextFault = false) (hx : w.store.userAuths.find? (fun a => a.userID == userID) = some x) :
    userAuthRepositoryImpl.GetByUserID userID w = (.ok x, w.afterCall) := by
  simp [userAuthRepositoryImpl.GetByUserID, dbCall, hf, hx]

theorem userAuthRepositoryImpl_GetByUserID_of_absent (userID : UUID) (w : World)
    (hf : w.nextFault = false) (hx : w.store.userAuths.find? (fun a => a.userID == userID) = none) :
    userAuthRepositoryImpl.GetByUserID userID w = (.error .ErrUserAuthNotFound, w.afterCall) := by
  simp [userAuthRepositoryImpl.GetByUserID, dbCall, hf, hx]

theorem userAuthRepositoryImpl_GetByUserID_of_fault (userID : UUID) (w : World) (hf : w.nextFault = true) :
    userAuthRepositoryImpl.GetByUserID userID w = (.error .driver, w.afterCall) := by
  simp [userAuthRepositoryImpl.GetByUserID, dbCall, hf]

theorem refreshTokenRepositoryImpl_GetByToken_of_found (tokenStr : String) (w : World) (x : _)
    (hf : w.nextFault = false) (hx : w.store.refreshTokens.find? (fun r => r.token == tokenStr) = some x) :
    refreshTokenRepositoryImpl.GetByToken tokenStr w = (.ok x, w.afterCall) := by
  simp [refreshTokenRepositoryImpl.GetByToken, dbCall, hf, hx]

theorem refreshTokenRepositoryImpl_GetByToken_of_absent (tokenStr : String) (w : World)
    (hf : w.nextFault = false) (hx : w.store.refreshTokens.find? (fun r => r.token == tokenStr) = none) :
    refreshTokenRepositoryImpl.GetByToken tokenStr w = (.error .ErrRefreshTokenNotFound, w.afterCall) := by
  simp [refreshTokenRepositoryImpl.GetByToken, dbCall, hf, hx]

theorem refreshTokenRepositoryImpl_GetByToken_of_fault (tokenStr : String) (w : World) (hf : w.nextFault = true) :
    refreshTokenRepositoryImpl.GetByToken tokenStr w = (.error .driver, w.afterCall) := by
  simp [refreshTokenRepositoryImpl.GetByToken, dbCall, hf]

theorem emailVerificationRepositoryImpl_GetByToken_of_found (token : String) (w : World) (x : _)
    (hf : w.nextFault = false) (hx : w.store.emailVerifications.find? (fun r => r.token == token) = some x) :
    emailVerificationRepositoryImpl.GetByToken token w = (.ok x, w.afterCall) := by
  simp [emailVerificationRepositoryImpl.GetByToken, dbCall, hf, hx]

theorem emailVerificationRepositoryImpl_GetByToken_of_absent (token : String) (w : World)
    (hf : w.nextFault = false) (hx : w.store.emailVerifications.find? (fun r => r.token == token) = none) :
    emailVerificationRepositoryImpl.GetByToken token w = (.error .ErrEmailVerificationNotFound, w.afterCall) := by
  simp [emailVerificationRepositoryImpl.GetByToken, dbCall, hf, hx]

theorem emailVerificationRepositoryImpl_GetByToken_of_fault (token : String) (w : World) (hf : w.nextFault = true) :
    emailVerificationRepositoryImpl.GetByToken token w = (.error .driver, w.afterCall) := by
  simp [emailVerificationRepositoryImpl.GetByToken, dbCall, hf]

theorem passwordResetRepositoryImpl_GetByToken_of_found (token : String) (w : World) (x : _)
    (hf : w.nextFault = false) (hx : w.store.passwordResets.find? (fun r => r.token == token) = some x) :
    passwordResetRepositoryImpl.GetByToken token w = (.ok x, w.afterCall) := by
  simp [passwordResetRepositoryImpl.GetByToken, dbCall, hf, hx]

theorem passwordResetRepositoryImpl_GetByToken_of_absent (token : String) (w : World)
    (hf : w.nextFault = false) (hx : w.store.passwordResets.find? (fun r => r.token == token) = none) :
    passwordResetRepositoryImpl.GetByToken token w = (.error .ErrPasswordResetNotFound, w.afterCall) := by
  simp [passwordResetRepositoryImpl.GetByToken, dbCall, hf, hx]

theorem passwordResetRepositoryImpl_GetByToken_of_fault (token : String) (w : World) (hf : w.nextFault = true) :
    passwordResetRepositoryImpl.GetByToken token w = (.error .driver, w.afterCall) := by
  simp [passwordResetRepositoryImpl.GetByToken, dbCall, hf]

theorem userRepositoryImpl_ExistsByEmail_of_answered (email : String) (w : World) (hf : w.nextFault = false) :
    userRepositoryImpl.ExistsByEmail email w =
      (.ok (w.store.users.any (fun u => u.email == email)), w.afterCall) := by
  simp [userRepositoryImpl.ExistsByEmail, dbCall, hf]

theorem userRepositoryImpl_ExistsByEmail_of_fault (email : String) (w : World) (hf : w.nextFault = true) :
    userRepositoryImpl.ExistsByEmail email w = (.error .driver, w.afterCall) := by
  simp [userRepositoryImpl.ExistsByEmail, dbCall, hf]

theorem userRepositoryImpl_ExistsByUsername_of_answered (username : String) (w : World) (hf : w.nextFault = false) :
    userRepositoryImpl.ExistsByUsername username w =
      (.ok (w.store.users.any (fun u => u.username == username)), w.afterCall) := by
  simp [userRepositoryImpl.ExistsByUsername, dbCall, hf]

theorem userRepositoryImpl_ExistsByUsername_of_fault (username : String) (w : World) (hf : w.nextFault = true) :
    userRepositoryImpl.ExistsByUsername username w = (.error .driver, w.afterCall) := by
  simp [userRepositoryImpl.ExistsByUsername, dbCall, hf]

theorem userRoleRepositoryImpl_GetByUserID_of_answered (userID : UUID) (w : World) (hf : w.nextFault = false) :
    userRoleRepositoryImpl.GetByUserID userID w =
      (.ok (orderByDesc (fun r => r.grantedAt)
        (w.store.userRoles.filter (fun r => r.userID == userID))), w.afterCall) := by
  simp [userRoleRepositoryImpl.GetByUserID, dbCall, hf]

theorem userRoleRepositoryImpl_GetByUserID_of_fault (userID : UUID) (w : World) (hf : w.nextFault = true)
    (hcut : w.nextCut = none) :
    userRoleRepositoryImpl.GetByUserID userID w = (.error .driver, w.afterCall) := by
  simp [userRoleRepositoryImpl.GetByUserID, dbCall, hf, hcut]

theorem userRoleRepositoryImpl_GetByUserID_of_cut (userID : UUID) (w : World) (n : Nat)
    (hf : w.nextFault = true) (hcut : w.nextCut = some n) :
    userRoleRepositoryImpl.GetByUserID userID w =
      (.ok ((orderByDesc (fun r => r.grantedAt)
        (w.store.userRoles.filter (fun r => r.userID == userID))).take n), w.afterCall) := by
  simp [userRoleRepositoryImpl.GetByUserID, dbCall, hf, hcut]

theorem refreshTokenRepositoryImpl_GetByUserID_of_answered (userID : UUID) (w : World) (hf : w.nextFault = false) :
    refreshTokenRepositoryImpl.GetByUserID userID w =
      (.ok (orderByDesc (fun r => r.createdAt)
        (w.store.refreshTokens.filter (fun r => r.userID == userID))), w.afterCall) := by
  simp [refreshTokenRepositoryImpl.GetByUserID, dbCall, hf]

theorem refreshTokenRepositoryImpl_GetByUserID_of_fault (userID : UUID) (w : World) (hf : w.nextFault = true)
    (hcut : w.nextCut = none) :
    refreshTokenRepositoryImpl.GetByUserID userID w = (.error .driver, w.afterCall) := by
  simp [refreshTokenRepositoryImpl.GetByUserID, dbCall, hf, hcut]

theorem refreshTokenRepositoryImpl_GetByUserID_of_cut (userID : UUID) (w : World) (n : Nat)
    (hf : w.nextFault = true) (hcut : w.nextCut = some n) :
    refreshTokenRepositoryImpl.GetByUserID userID w =
      (.ok ((orderByDesc (fun r => r.createdAt)
        (w.store.refreshTokens.filter (fun r => r.userID == userID))).take n), w.afterCall) := by
  simp [refreshTokenRepositoryImpl.GetByUserID, dbCall, hf, hcut]

theorem mem_orderByDesc {α : Type} (key : α → Time) (rows : List α) (a : α) :
    a ∈ orderByDesc key rows ↔ a ∈ rows :=
  (List.perm_insertionSort _ rows).mem_iff


theorem RefreshToken.SetRevoked_of_revoked (r : RefreshToken) (h : r.isRevoked = true) :
    r.SetRevoked true = r := by
  cases r
  simp_all [RefreshToken.SetRevoked]

/-- In a reliable world whose refresh tokens have pairwise distinct ids,
`RevokeAllUserTokens` returns no error and sets the revoked flag of exactly the tokens of
the user; nothing else in the world changes. -/
theorem AuthService.RevokeAllUserTokens_of_reliable (userID : UUID) (w : World)
    (h : w.reliable) (hid : (w.store.refreshTokens.map (fun r => r.id)).Nodup) :
    AuthService.RevokeAllUserTokens userID w =
      (.ok (), w.withStore (w.store.mapRefreshTokens
        (fun r => if r.userID == userID then r.SetRevoked true else r))) := by
  unfold AuthService.RevokeAllUserTokens
  rw [refreshTokenRepositoryImpl_GetByUserID_of_answered _ _ (w.nextFault_of_reliable h),
    w.afterCall_of_reliable h]
  simp only []
  rw [AuthService.revokeEach_of_reliable _ _ h]
  congr 2
  apply Store.mapRefreshTokens_congr
  intro r hr
  by_cases hu : r.userID = userID
  · simp only [hu, beq_self_eq_true, if_true]
    cases hrev : r.isRevoked
    · have hp : (orderByDesc (fun r => r.createdAt)
          (w.store.refreshTokens.filter (fun r => r.userID == userID))).any
          (fun t => !t.isRevoked && r.id == t.id) = true := by
        rw [List.any_eq_true]
        refine ⟨r, ?_, by simp [hrev]⟩
        rw [mem_orderByDesc]
        simp [hr, hu]
      simp [RefreshToken.revokeIfId, hp]
    · rw [RefreshToken.revokeIfId_of_revoked _ _ hrev, RefreshToken.SetRevoked_of_revoked _ hrev]
  · have hp : (orderByDesc (fun r => r.createdAt)
        (w.store.refreshTokens.filter (fun r => r.userID == userID))).any
        (fun t => !t.isRevoked && r.id == t.id) = false := by
      rw [List.any_eq_false]
      intro t ht
      rw [mem_orderByDesc] at ht
      simp only [List.mem_filter, beq_iff_eq] at ht
      intro hcon
      simp only [Bool.and_eq_true, beq_iff_eq] at hcon
      have : r = t := List.inj_on_of_nodup_map hid hr ht.1 hcon.2
      exact hu (this ▸ ht.2)
    rw [RefreshToken.revokeIfId_of_false _ _ hp]
    simp [hu]

/-- C6 (amended): in a world whose database answers every statement and whose refresh
tokens have pairwise distinct ids, `RevokeAllUserTokens(u)` returns without error, every
refresh token owned by `u` is revoked afterwards, the rows of every other user are
exactly as before, and a row is revoked afterwards exactly when it was revoked before or
belongs to `u`. -/
theorem revokeAllUserTokens_revokes_exactly_user (userID : UUID) (w : World)
    (h : w.reliable) (hid : (w.store.refreshTokens.map (fun r => r.id)).Nodup) :
    (AuthService.RevokeAllUserTokens userID w).1 = .ok () ∧
    (AuthService.RevokeAllUserTokens userID w).2.store.refreshTokens =
      w.store.refreshTokens.map (fun r => if r.userID == userID then r.SetRevoked true else r) ∧
    (∀ r ∈ (AuthService.RevokeAllUserTokens userID w).2.store.refreshTokens,
      r.userID = userID → r.isRevoked = true) ∧
    (AuthService.RevokeAllUserTokens userID w).2.store.refreshTokens.filter
        (fun r => r.userID != userID) =
      w.store.refreshTokens.filter (fun r => r.userID != userID) ∧
    (∀ i, (∃ r ∈ (AuthService.RevokeAllUserTokens userID w).2.store.refreshTokens,
          r.id = i ∧ r.isRevoked = true) ↔
        (∃ r ∈ w.store.refreshTokens, r.id = i ∧ (r.isRevoked = true ∨ r.userID = userID))) := by
  rw [AuthService.RevokeAllUserTokens_of_reliable userID w h hid]
  refine ⟨rfl, rfl, ?_, ?_, ?_⟩
  · intro r hr hu
    simp only [World.withStore_store, Store.mapRefreshTokens_refreshTokens, List.mem_map] at hr
    obtain ⟨r0, _, rfl⟩ := hr
    by_cases h0 : r0.userID = userID
    · simp [h0, RefreshToken.SetRevoked]
    · simp [h0] at hu
  · simp only [World.withStore_store, Store.mapRefreshTokens_refreshTokens]
    generalize w.store.refreshTokens = l
    induction l with
    | nil => rfl
    | cons a l ih =>
      simp only [List.map_cons, List.filter_cons]
      rw [ih]
      by_cases ha : a.userID = userID
      · simp [ha, RefreshToken.SetRevoked]
      · simp [ha]
  · intro i
    simp only [World.withStore_store, Store.mapRefreshTokens_refreshTokens, List.mem_map]
    constructor
    · rintro ⟨r, ⟨r0, hr0, rfl⟩, hi, hrev⟩
      refine ⟨r0, hr0, ?_, ?_⟩
      · by_cases h0 : r0.userID = userID
        · simpa [h0, RefreshToken.SetRevoked] using hi
        · simpa [h0] using hi
      · by_cases h0 : r0.userID = userID
        · exact Or.inr h0
        · left
          simpa [h0] using hrev
    · rintro ⟨r0, hr0, hi, hcase⟩
      refine ⟨_, ⟨r0, hr0, rfl⟩, ?_, ?_⟩
      · by_cases h0 : r0.userID = userID
        · simpa [h0, RefreshToken.SetRevoked] using hi
        · simpa [h0] using hi
      · by_cases h0 : r0.userID = userID
        · simp [h0, RefreshToken.SetRevoked]
        · rcases hcase with hrev | hu
          · simpa [h0] using hrev
          · exact absurd hu h0

/-- C6 (amended), at a concrete store: user 7 holds the session `sessionA`. -/
theorem revokeAllUserTokens_revokes_exactly_user_witness :
    (AuthService.RevokeAllUserTokens 7 (worldAt 50)).1 = .ok () ∧
    (∀ r ∈ (AuthService.RevokeAllUserTokens 7 (worldAt 50)).2.store.refreshTokens,
      r.userID = 7 → r.isRevoked = true) :=
  have key := revokeAllUserTokens_revokes_exactly_user 7 (worldAt 50) (by decide) (by decide)
  ⟨key.1, key.2.2.1⟩

/-- C6 (as stated) fails: when the update of a session fails with a driver error, the
failure is logged and `RevokeAllUserTokens` still returns without error, while the session
of the user stays unrevoked. -/
theorem revokeAllUserTokens_swallows_update_failure :
    (AuthService.RevokeAllUserTokens 7 (faultyWorld [false, true])).1 = .ok () ∧
    (AuthService.RevokeAllUserTokens 7 (faultyWorld [false, true])).2.store.refreshTokens =
      [sessionA] ∧
    sessionA.userID = 7 ∧ sessionA.isRevoked = false := by
  decide

/-! ### Password reset and password change -/

/-- C8 (the code at a failing input): the reset token lookup, the credential lookup and
the password update succeed, then the statement that marks the reset token used fails.
`ResetPassword` returns the driver error at once: the password hash of user 7 is already
replaced, the reset token is still unused, and none of the sessions of user 7 is revoked. -/
theorem resetPassword_skips_revocation_when_marking_fails :
    (AuthService.ResetPassword toyHasher "r" "NewPass1!"
      (accountWorld [false, false, false, true])).1 = .error .driver ∧
    (AuthService.ResetPassword toyHasher "r" "NewPass1!"
      (accountWorld [false, false, false, true])).2.store.userAuths.map (fun a => a.passwordHash)
      = ["bcrypt:NewPass1!"] ∧
    (AuthService.ResetPassword toyHasher "r" "NewPass1!"
      (accountWorld [false, false, false, true])).2.store.refreshTokens = sessions ∧
    (AuthService.ResetPassword toyHasher "r" "NewPass1!"
      (accountWorld [false, false, false, true])).2.store.passwordResets = [resetA] ∧
    sessions.all (fun r => !r.isRevoked) = true := by
  decide

/-- C9: when the credential record of the user is found and the current password does not
verify against its hash, `ChangePassword` fails with `ErrInvalidCurrentPassword` and the
store is unchanged. -/
theorem changePassword_rejects_wrong_current (H : Hasher) (userID : UUID)
    (currentPassword newPassword : String) (w : World) (userAuth : UserAuth)
    (hf : w.nextFault = false)
    (hfound : w.store.userAuths.find? (fun a => a.userID == userID) = some userAuth)
    (hwrong : ComparePassword H userAuth.passwordHash currentPassword = false) :
    (AuthService.ChangePassword H userID currentPassword newPassword w).1 =
      .error .ErrInvalidCurrentPassword ∧
    (AuthService.ChangePassword H userID currentPassword newPassword w).2.store = w.store := by
  unfold AuthService.ChangePassword
  rw [userAuthRepositoryImpl_GetByUserID_of_found userID w userAuth hf hfound]
  simp [hwrong]

/-- C9, at a concrete store: user 7 presents `WrongPass1!` instead of `OldPass1!`. -/
theorem changePassword_rejects_wrong_current_witness :
    (AuthService.ChangePassword toyHasher 7 "WrongPass1!" "NewPass1!" (accountWorld [])).1 =
      .error .ErrInvalidCurrentPassword ∧
    (AuthService.ChangePassword toyHasher 7 "WrongPass1!" "NewPass1!" (accountWorld [])).2.store =
      (accountWorld []).store :=
  changePassword_rejects_wrong_current toyHasher 7 "WrongPass1!" "NewPass1!" (accountWorld [])
    authA (by decide) (by decide) (by decide)

@[simp] theorem World.withStore_of_store_eq (w : World) (s : Store) (h : w.store = s) :
    w.withStore s = w := by
  subst h
  rfl

theorem userRepositoryImpl_Create_of_answered (user : User) (w : World) (hf : w.nextFault = false) :
    userRepositoryImpl.Create user w =
      (.ok (), w.afterCall.withStore { w.store with users := w.store.users ++ [user] }) :=
  Prod.ext (by simp [hf]) (by simp [hf])

theorem userRepositoryImpl_Create_of_fault (user : User) (w : World) (hf : w.nextFault = true) :
    userRepositoryImpl.Create user w = (.error .driver, w.afterCall) :=
  Prod.ext (by simp [hf]) (by simp [hf])

theorem userAuthRepositoryImpl_Create_of_answered (userAuth : UserAuth) (w : World) (hf : w.nextFault = false) :
    userAuthRepositoryImpl.Create userAuth w =
      (.ok (), w.afterCall.withStore { w.store with userAuths := w.store.userAuths ++ [userAuth] }) :=
  Prod.ext (by simp [hf]) (by simp [hf])

theorem userAuthRepositoryImpl_Create_of_fault (userAuth : UserAuth) (w : World) (hf : w.nextFault = true) :
    userAuthRepositoryImpl.Create userAuth w = (.error .driver, w.afterCall) :=
  Prod.ext (by simp [hf]) (by simp [hf])

theorem userRoleRepositoryImpl_Create_of_answered (userRole : UserRole) (w : World) (hf : w.nextFault = false) :
    userRoleRepositoryImpl.Create userRole w =
      (.ok (), w.afterCall.withStore { w.store with userRoles := w.store.userRoles ++ [userRole] }) :=
  Prod.ext (by simp [hf]) (by simp [hf])

theorem userRoleRepositoryImpl_Create_of_fault (userRole : UserRole) (w : World) (hf : w.nextFault = true) :
    userRoleRepositoryImpl.Create userRole w = (.error .driver, w.afterCall) :=
  Prod.ext (by simp [hf]) (by simp [hf])

theorem refreshTokenRepositoryImpl_Create_of_answered (token : RefreshToken) (w : World) (hf : w.nextFault = false) :
    refreshTokenRepositoryImpl.Create token w =
      (.ok (), w.afterCall.withStore { w.store with refreshTokens := w.store.refreshTokens ++ [token] }) :=
  Prod.ext (by simp [hf]) (by simp [hf])

theorem refreshTokenRepositoryImpl_Create_of_fault (token : RefreshToken) (w : World) (hf : w.nextFault = true) :
    refreshTokenRepositoryImpl.Create token w = (.error .driver, w.afterCall) :=
  Prod.ext (by simp [hf]) (by simp [hf])

theorem emailVerificationRepositoryImpl_Create_of_answered (verification : EmailVerification) (w : World) (hf : w.nextFault = false) :
    emailVerificationRepositoryImpl.Create verification w =
      (.ok (), w.afterCall.withStore { w.store with emailVerifications := w.store.emailVerifications ++ [verification] }) :=
  Prod.ext (by simp [hf]) (by simp [hf])

theorem emailVerificationRepositoryImpl_Create_of_fault (verification : EmailVerification) (w : World) (hf : w.nextFault = true) :
    emailVerificationRepositoryImpl.Create verification w = (.error .driver, w.afterCall) :=
  Prod.ext (by simp [hf]) (by simp [hf])

theorem passwordResetRepositoryImpl_Create_of_answered (reset : PasswordReset) (w : World) (hf : w.nextFault = false) :
    passwordResetRepositoryImpl.Create reset w =
      (.ok (), w.afterCall.withStore { w.store with passwordResets := w.store.passwordResets ++ [reset] }) :=
  Prod.ext (by simp [hf]) (by simp [hf])

theorem passwordResetRepositoryImpl_Create_of_fault (reset : PasswordReset) (w : World) (hf : w.nextFault = true) :
    passwordResetRepositoryImpl.Create reset w = (.error .driver, w.afterCall) :=
  Prod.ext (by simp [hf]) (by simp [hf])

theorem userRepositoryImpl_Update_of_present (user : User) (w : World) (hf : w.nextFault = false)
    (hany : w.store.users.any (fun u => u.id == user.id) = true) :
    userRepositoryImpl.Update user w = (.ok (), (userRepositoryImpl.Update user w).2) :=
  Prod.ext (by simp [hf, hany]) rfl

theorem userRepositoryImpl_Update_of_fault (user : User) (w : World) (hf : w.nextFault = true) :
    userRepositoryImpl.Update user w = (.error .driver, w.afterCall) :=
  Prod.ext (by simp [hf]) (by simp [hf])

theorem userAuthRepositoryImpl_Update_of_present (userAuth : UserAuth) (w : World) (hf : w.nextFault = false)
    (hany : w.store.userAuths.any (fun a => a.userID == userAuth.userID) = true) :
    userAuthRepositoryImpl.Update userAuth w = (.ok (), (userAuthRepositoryImpl.Update userAuth w).2) :=
  Prod.ext (by simp [hf, hany]) rfl

theorem userAuthRepositoryImpl_Update_of_fault (userAuth : UserAuth) (w : World) (hf : w.nextFault = true) :
    userAuthRepositoryImpl.Update userAuth w = (.error .driver, w.afterCall) :=
  Prod.ext (by simp [hf]) (by simp [hf])

theorem userRoleRepositoryImpl_Update_of_present (userRole : UserRole) (w : World) (hf : w.nextFault = false)
    (hany : w.store.userRoles.any (fun r => r.id == userRole.id) = true) :
    userRoleRepositoryImpl.Update userRole w = (.ok (), (userRoleRepositoryImpl.Update userRole w).2) :=
  Prod.ext (by simp [hf, hany]) rfl

theorem userRoleRepositoryImpl_Update_of_fault (userRole : UserRole) (w : World) (hf : w.nextFault = true) :
    userRoleRepositoryImpl.Update userRole w = (.error .driver, w.afterCall) :=
  Prod.ext (by simp [hf]) (by simp [hf])

theorem refreshTokenRepositoryImpl_Update_of_present (token : RefreshToken) (w : World) (hf : w.nextFault = false)
    (hany : w.store.refreshTokens.any (fun r => r.id == token.id) = true) :
    refreshTokenRepositoryImpl.Update token w = (.ok (), (refreshTokenRepositoryImpl.Update token w).2) :=
  Prod.ext (by simp [hf, hany]) rfl

theorem refreshTokenRepositoryImpl_Update_of_fault (token : RefreshToken) (w : World) (hf : w.nextFault = true) :
    refreshTokenRepositoryImpl.Update token w = (.error .driver, w.afterCall) :=
  Prod.ext (by simp [hf]) (by simp [hf])

theorem emailVerificationRepositoryImpl_Update_of_present (verification : EmailVerification) (w : World) (hf : w.nextFault = false)
    (hany : w.store.emailVerifications.any (fun r => r.id == verification.id) = true) :
    emailVerificationRepositoryImpl.Update verification w = (.ok (), (emailVerificationRepositoryImpl.Update verification w).2) :=
  Prod.ext (by simp [hf, hany]) rfl

theorem emailVerificationRepositoryImpl_Update_of_fault (verification : EmailVerification) (w : World) (hf : w.nextFault = true) :
    emailVerificationRepositoryImpl.Update verification w = (.error .driver, w.afterCall) :=
  Prod.ext (by simp [hf]) (by simp [hf])

theorem passwordResetRepositoryImpl_Update_of_present (reset : PasswordReset) (w : World) (hf : w.nextFault = false)
    (hany : w.store.passwordResets.any (fun r => r.id == reset.id) = true) :
    passwordResetRepositoryImpl.Update reset w = (.ok (), (passwordResetRepositoryImpl.Update reset w).2) :=
  Prod.ext (by simp [hf, hany]) rfl

theorem passwordResetRepositoryImpl_Update_of_fault (reset : PasswordReset) (w : World) (hf : w.nextFault = true) :
    passwordResetRepositoryImpl.Update reset w = (.error .driver, w.afterCall) :=
  Prod.ext (by simp [hf]) (by simp [hf])

theorem List.any_of_find?_eq_some {α : Type} (l : List α) (p : α → Bool) (a : α)
    (h : l.find? p = some a) : l.any p = true :=
  List.any_eq_true.mpr ⟨a, List.mem_of_find?_eq_some h, List.find?_some h⟩


/-- A successful `ChangePassword` in a reliable world: the credential record was found,
the new password was hashed, every credential row of the user carries the new hash and
every session of the user is revoked. -/
theorem AuthService.ChangePassword_ok (H : Hasher) (userID : UUID)
    (currentPassword newPassword : String) (w : World) (h : w.reliable)
    (hid : (w.store.refreshTokens.map (fun r => r.id)).Nodup)
    (hok : (AuthService.ChangePassword H userID currentPassword newPassword w).1 = .ok ()) :
    ∃ userAuth hashed,
      w.store.userAuths.find? (fun a => a.userID == userID) = some userAuth ∧
      H.GenerateFromPassword w.nextSalt newPassword = .ok hashed ∧
      (AuthService.ChangePassword H userID currentPassword newPassword w).2.store.refreshTokens =
        w.store.refreshTokens.map
          (fun r => if r.userID == userID then r.SetRevoked true else r) ∧
      (AuthService.ChangePassword H userID currentPassword newPassword w).2.store.userAuths =
        w.store.userAuths.map (fun a => if a.userID == userID then
          { a with passwordHash := hashed, lastLoginAt := userAuth.lastLoginAt,
                   updatedAt := w.clock } else a) := by
  have hf := w.nextFault_of_reliable h
  have hc := w.afterCall_of_reliable h
  unfold AuthService.ChangePassword at hok ⊢
  cases hfind : w.store.userAuths.find? (fun a => a.userID == userID) with
  | none =>
    rw [userAuthRepositoryImpl_GetByUserID_of_absent userID w hf hfind] at hok
    simp at hok
  | some userAuth =>
    have hu : userAuth.userID = userID := by simpa using List.find?_some hfind
    rw [userAuthRepositoryImpl_GetByUserID_of_found userID w userAuth hf hfind, hc] at hok ⊢
    cases hcmp : ComparePassword H userAuth.passwordHash currentPassword with
    | false => simp [hcmp] at hok
    | true =>
      cases hhash : H.GenerateFromPassword w.nextSalt newPassword with
      | error e => simp [hcmp, HashPassword, hhash] at hok
      | ok hashed =>
        refine ⟨userAuth, hashed, rfl, rfl, ?_, ?_⟩
        · simp only [hcmp, HashPassword, hhash, UserAuth.SetPasswordHash, time.Now,
            Bool.not_true, Bool.false_eq_true, if_false]
          rw [userAuthRepositoryImpl_Update_of_present _ _ (by simp [hf])
            (by simpa [hu] using List.any_of_find?_eq_some _ _ _ hfind)]
          simp only []
          rw [AuthService.RevokeAllUserTokens_of_reliable _ _ (by simp [h])
            (by simpa [hf] using hid)]
          simp [hf]
        · simp only [hcmp, HashPassword, hhash, UserAuth.SetPasswordHash, time.Now,
            Bool.not_true, Bool.false_eq_true, if_false]
          rw [userAuthRepositoryImpl_Update_of_present _ _ (by simp [hf])
            (by simpa [hu] using List.any_of_find?_eq_some _ _ _ hfind)]
          simp only []
          rw [AuthService.RevokeAllUserTokens_of_reliable _ _ (by simp [h])
            (by simpa [hf] using hid)]
          simp [hf, hu]

@[simp] theorem PasswordReset_IsValid_fst (pr : PasswordReset) (w : World) :
    (pr.IsValid w).1 = (!pr.isUsed && decide (w.clock ≤ pr.expiresAt)) := by
  cases h : pr.isUsed <;>
    simp [PasswordReset.IsValid, PasswordReset.IsExpired, time.Now, h, decide_lt_eq_not_decide_le]

@[simp] theorem PasswordReset_IsValid_snd (pr : PasswordReset) (w : World) :
    (pr.IsValid w).2 = if pr.isUsed then w else w.afterTick := by
  cases h : pr.isUsed <;> simp [PasswordReset.IsValid, PasswordReset.IsExpired, time.Now, h]

@[simp] theorem EmailVerification_IsValid_fst (ev : EmailVerification) (w : World) :
    (ev.IsValid w).1 = (!ev.isUsed && decide (w.clock ≤ ev.expiresAt)) := by
  cases h : ev.isUsed <;>
    simp [EmailVerification.IsValid, EmailVerification.IsExpired, time.Now, h,
      decide_lt_eq_not_decide_le]

@[simp] theorem EmailVerification_IsValid_snd (ev : EmailVerification) (w : World) :
    (ev.IsValid w).2 = if ev.isUsed then w else w.afterTick := by
  cases h : ev.isUsed <;>
    simp [EmailVerification.IsValid, EmailVerification.IsExpired, time.Now, h]

@[simp] theorem RefreshToken_IsValid_snd (rt : RefreshToken) (w : World) :
    (rt.IsValid w).2 = if rt.isRevoked then w else w.afterTick := by
  cases h : rt.isRevoked <;> simp [RefreshToken.IsValid, RefreshToken.IsExpired, time.Now, h]

/-- A successful `ResetPassword` in a reliable world: the reset token was found unused and
not expired, the credential record of its user was found, the new password was hashed,
every credential row of the user carries the new hash, the token is marked used and every
session of the user is revoked. -/
theorem AuthService.ResetPassword_ok (H : Hasher) (token newPassword : String) (w : World)
    (h : w.reliable) (hid : (w.store.refreshTokens.map (fun r => r.id)).Nodup)
    (hok : (AuthService.ResetPassword H token newPassword w).1 = .ok ()) :
    ∃ reset userAuth hashed,
      w.store.passwordResets.find? (fun r => r.token == token) = some reset ∧
      reset.isUsed = false ∧ w.clock ≤ reset.expiresAt ∧
      w.store.userAuths.find? (fun a => a.userID == reset.userID) = some userAuth ∧
      H.GenerateFromPassword w.nextSalt newPassword = .ok hashed ∧
      (AuthService.ResetPassword H token newPassword w).2.store.refreshTokens =
        w.store.refreshTokens.map
          (fun r => if r.userID == reset.userID then r.SetRevoked true else r) ∧
      (AuthService.ResetPassword H token newPassword w).2.store.userAuths =
        w.store.userAuths.map (fun a => if a.userID == reset.userID then
          { a with passwordHash := hashed, lastLoginAt := userAuth.lastLoginAt,
                   updatedAt := w.afterTick.clock } else a) ∧
      (AuthService.ResetPassword H token newPassword w).2.store.passwordResets =
        w.store.passwordResets.map (fun r => if r.id == reset.id then
          { r with isUsed := true } else r) := by
  have hf := w.nextFault_of_reliable h
  have hc := w.afterCall_of_reliable h
  unfold AuthService.ResetPassword at hok ⊢
  cases hfind : w.store.passwordResets.find? (fun r => r.token == token) with
  | none =>
    rw [passwordResetRepositoryImpl_GetByToken_of_absent token w hf hfind] at hok
    simp at hok
  | some reset =>
    rw [passwordResetRepositoryImpl_GetByToken_of_found token w reset hf hfind, hc] at hok ⊢
    cases hused : reset.isUsed with
    | true => simp [hused] at hok
    | false =>
      by_cases hle : w.clock ≤ reset.expiresAt
      swap
      · simp [hused, hle] at hok
      cases hhash : H.GenerateFromPassword w.nextSalt newPassword with
      | error e => simp [hused, hle, HashPassword, hhash] at hok
      | ok hashed =>
        cases hauth : w.store.userAuths.find? (fun a => a.userID == reset.userID) with
        | none =>
          simp only [PasswordReset_IsValid_fst, PasswordReset_IsValid_snd, hused, hle,
            HashPassword, World.afterTick_nextSalt, hhash, decide_True, Bool.not_false,
            Bool.and_self, Bool.not_true, Bool.false_eq_true, if_false] at hok
          rw [userAuthRepositoryImpl_GetByUserID_of_absent _ _
            (by simp [World.nextFault_of_reliable, h]) (by simpa using hauth)] at hok
          simp at hok
        | some userAuth =>
          have hu : userAuth.userID = reset.userID := by simpa using List.find?_some hauth
          refine ⟨reset, userAuth, hashed, rfl, hused, hle, hauth, rfl, ?_⟩
          simp only [PasswordReset_IsValid_fst, PasswordReset_IsValid_snd, hused, hle,
            HashPassword, World.afterTick_nextSalt, hhash, decide_True, Bool.not_false,
            Bool.and_self, Bool.not_true, Bool.false_eq_true, if_false]
          rw [userAuthRepositoryImpl_GetByUserID_of_found _ _ userAuth
            (by simp [World.nextFault_of_reliable, h]) (by simpa using hauth),
            World.afterCall_of_reliable _ (by simp [h])]
          simp only [UserAuth.SetPasswordHash, time.Now]
          rw [userAuthRepositoryImpl_Update_of_present _ _
            (by simp [World.nextFault_of_reliable, h])
            (by simpa [hu] using List.any_of_find?_eq_some _ _ _ hauth)]
          simp only []
          rw [passwordResetRepositoryImpl_Update_of_present _ _
            (by simp [World.nextFault_of_reliable, World.afterCall_of_reliable, h])
            (by
              have : (w.store.passwordResets.any fun r => r.id == reset.id) = true :=
                List.any_eq_true.mpr ⟨reset, List.mem_of_find?_eq_some hfind, by simp⟩
              simpa [World.nextFault_of_reliable, World.afterCall_of_reliable, h,
                PasswordReset.SetUsed] using this)]
          simp only []
          rw [AuthService.RevokeAllUserTokens_of_reliable _ _
            (by simp [World.nextFault_of_reliable, World.afterCall_of_reliable, h])
            (by simpa [World.nextFault_of_reliable, World.afterCall_of_reliable, h] using hid)]
          simp [World.nextFault_of_reliable, World.afterCall_of_reliable, h, hu,
            PasswordReset.SetUsed]

theorem find?_userAuths_after_rehash (l : List UserAuth) (userID : UUID) (userAuth : UserAuth)
    (hashed : String) (lastLogin : Option Time) (now : Time)
    (hfind : l.find? (fun a => a.userID == userID) = some userAuth) :
    (l.map (fun a => if a.userID == userID then
        { a with passwordHash := hashed, lastLoginAt := lastLogin, updatedAt := now }
      else a)).find? (fun a => a.userID == userID) =
      some { userAuth with passwordHash := hashed, lastLoginAt := lastLogin, updatedAt := now } := by
  have hu : userAuth.userID = userID := by simpa using List.find?_some hfind
  rw [List.find?_map]
  have hcomp : ((fun a : UserAuth => a.userID == userID) ∘ fun a => if a.userID == userID then
        { a with passwordHash := hashed, lastLoginAt := lastLogin, updatedAt := now }
      else a) = fun a => a.userID == userID := by
    funext a
    by_cases ha : a.userID = userID <;> simp [ha]
  rw [hcomp, hfind]
  simp [hu]

theorem revoked_of_mem_map_revoke (l : List RefreshToken) (userID : UUID) (r : RefreshToken)
    (hr : r ∈ l.map (fun r => if r.userID == userID then r.SetRevoked true else r))
    (hu : r.userID = userID) : r.isRevoked = true := by
  simp only [List.mem_map] at hr
  obtain ⟨r0, _, rfl⟩ := hr
  by_cases h0 : r0.userID = userID
  · simp [h0, RefreshToken.SetRevoked]
  · simp [h0] at hu

/-- C7 (amended): in a world whose database answers every statement (so that no revoke
update fails) and whose refresh tokens have pairwise distinct ids, with a hasher whose
digests verify the password they were made from: after a successful `ResetPassword` with a
token of user `u`, and after a successful `ChangePassword(u, current, new)`, every refresh
session of `u` is revoked, however many there were, and the stored password hash of `u`
verifies the new password. -/
theorem password_reset_and_change_revoke_all_sessions (H : Hasher) (w : World)
    (hH : ∀ salt p hashed, H.GenerateFromPassword salt p = .ok hashed →
      H.CompareHashAndPassword hashed p = true)
    (h : w.reliable) (hid : (w.store.refreshTokens.map (fun r => r.id)).Nodup) :
    (∀ token newPassword,
      (AuthService.ResetPassword H token newPassword w).1 = .ok () →
      ∃ reset, w.store.passwordResets.find? (fun r => r.token == token) = some reset ∧
        (∀ r ∈ (AuthService.ResetPassword H token newPassword w).2.store.refreshTokens,
          r.userID = reset.userID → r.isRevoked = true) ∧
        (∃ a, (AuthService.ResetPassword H token newPassword w).2.store.userAuths.find?
            (fun a => a.userID == reset.userID) = some a ∧
          ComparePassword H a.passwordHash newPassword = true)) ∧
    (∀ userID currentPassword newPassword,
      (AuthService.ChangePassword H userID currentPassword newPassword w).1 = .ok () →
        (∀ r ∈ (AuthService.ChangePassword H userID currentPassword newPassword
            w).2.store.refreshTokens, r.userID = userID → r.isRevoked = true) ∧
        (∃ a, (AuthService.ChangePassword H userID currentPassword newPassword
            w).2.store.userAuths.find? (fun a => a.userID == userID) = some a ∧
          ComparePassword H a.passwordHash newPassword = true)) := by
  refine ⟨?_, ?_⟩
  · intro token newPassword hok
    obtain ⟨reset, userAuth, hashed, hfind, _, _, hauth, hhash, hrt, hua, _⟩ :=
      AuthService.ResetPassword_ok H token newPassword w h hid hok
    refine ⟨reset, hfind, ?_, ?_⟩
    · intro r hr hu
      rw [hrt] at hr
      exact revoked_of_mem_map_revoke _ _ r hr hu
    · rw [hua, find?_userAuths_after_rehash _ _ _ _ _ _ hauth]
      exact ⟨_, rfl, hH _ _ _ hhash⟩
  · intro userID currentPassword newPassword hok
    obtain ⟨userAuth, hashed, hauth, hhash, hrt, hua⟩ :=
      AuthService.ChangePassword_ok H userID currentPassword newPassword w h hid hok
    refine ⟨?_, ?_⟩
    · intro r hr hu
      rw [hrt] at hr
      exact revoked_of_mem_map_revoke _ _ r hr hu
    · rw [hua, find?_userAuths_after_rehash _ _ _ _ _ _ hauth]
      exact ⟨_, rfl, hH _ _ _ hhash⟩

/-- C7 (amended), at a concrete store: user 7 holds five sessions; after the password
change every session of user 7 is revoked. -/
theorem password_reset_and_change_revoke_all_sessions_witness :
    (AuthService.ChangePassword toyHasher 7 "OldPass1!" "NewPass1!" (accountWorld [])).1 = .ok () ∧
    (∀ r ∈ (AuthService.ChangePassword toyHasher 7 "OldPass1!" "NewPass1!"
        (accountWorld [])).2.store.refreshTokens, r.userID = 7 → r.isRevoked = true) ∧
    (sessions.filter (fun r => r.userID == 7)).length = 5 :=
  ⟨by decide,
   ((password_reset_and_change_revoke_all_sessions toyHasher (accountWorld [])
      (by
        intro salt p hashed hp
        cases hp
        simp [toyHasher])
      (by decide) (by decide)).2 7 "OldPass1!" "NewPass1!" (by decide)).1,
   by decide⟩

/-- C7 (as stated) fails: the update that revokes the newest of the five sessions fails
with a driver error, which is only logged; `ChangePassword` and `ResetPassword` both
return without error and the session `s6` of user 7 is still not revoked. -/
theorem password_change_success_leaves_session :
    (AuthService.ChangePassword toyHasher 7 "OldPass1!" "NewPass1!"
      (accountWorld [false, false, false, true])).1 = .ok () ∧
    ((AuthService.ChangePassword toyHasher 7 "OldPass1!" "NewPass1!"
      (accountWorld [false, false, false, true])).2.store.refreshTokens.filter
        (fun r => r.userID == 7 && !r.isRevoked)).map (fun r => r.token) = ["s6"] ∧
    (AuthService.ResetPassword toyHasher "r" "NewPass1!"
      (accountWorld [false, false, false, false, false, true])).1 = .ok () ∧
    ((AuthService.ResetPassword toyHasher "r" "NewPass1!"
      (accountWorld [false, false, false, false, false, true])).2.store.refreshTokens.filter
        (fun r => r.userID == 7 && !r.isRevoked)).map (fun r => r.token) = ["s6"] := by
  decide

/-! ### The reads of different oracles commute -/

@[simp] theorem World.afterTick_afterCall (w : World) :
    w.afterTick.afterCall = w.afterCall.afterTick := rfl

@[simp] theorem World.afterUUID_afterCall (w : World) :
    w.afterUUID.afterCall = w.afterCall.afterUUID := rfl

@[simp] theorem World.afterUUID_afterTick (w : World) :
    w.afterUUID.afterTick = w.afterTick.afterUUID := rfl

@[simp] theorem World.afterSecret_afterCall (w : World) :
    w.afterSecret.afterCall = w.afterCall.afterSecret := rfl

@[simp] theorem World.afterSecret_afterTick (w : World) :
    w.afterSecret.afterTick = w.afterTick.afterSecret := rfl

@[simp] theorem World.afterSecret_afterUUID (w : World) :
    w.afterSecret.afterUUID = w.afterUUID.afterSecret := rfl

@[simp] theorem World.afterSalt_afterCall (w : World) :
    w.afterSalt.afterCall = w.afterCall.afterSalt := rfl

@[simp] theorem World.afterSalt_afterTick (w : World) :
    w.afterSalt.afterTick = w.afterTick.afterSalt := rfl

@[simp] theorem World.afterSalt_afterUUID (w : World) :
    w.afterSalt.afterUUID = w.afterUUID.afterSalt := rfl

@[simp] theorem World.afterSalt_afterSecret (w : World) :
    w.afterSalt.afterSecret = w.afterSecret.afterSalt := rfl

/-! ### Rotation in a reliable world -/

theorem GetExpirationTime_refresh (w : World) :
    GetExpirationTime "refresh" w = (w.clock + TokenExpirationTimes.RefreshToken, w.afterTick) := by
  simp [GetExpirationTime, time.Now]

theorem GetExpirationTime_password_reset (w : World) :
    GetExpirationTime "password_reset" w =
      (w.clock + TokenExpirationTimes.PasswordReset, w.afterTick) := by
  simp [GetExpirationTime, time.Now]

theorem GetExpirationTime_email_verification (w : World) :
    GetExpirationTime "email_verification" w =
      (w.clock + TokenExpirationTimes.EmailVerification, w.afterTick) := by
  simp [GetExpirationTime, time.Now]

/-- The outcome of `ValidateRefreshToken` when the lookup is answered with a row. -/
theorem AuthService.ValidateRefreshToken_of_found (secret : String) (w : World)
    (r : RefreshToken) (hf : w.nextFault = false)
    (hfind : w.store.refreshTokens.find? (fun t => t.token == secret) = some r) :
    AuthService.ValidateRefreshToken secret w =
      (if (!r.isRevoked && decide (w.clock ≤ r.expiresAt)) then .ok r
        else .error .ErrRefreshTokenInvalid,
       if r.isRevoked then w.afterCall else w.afterCall.afterTick) := by
  unfold AuthService.ValidateRefreshToken
  rw [refreshTokenRepositoryImpl_GetByToken_of_found secret w r hf hfind]
  cases hr : r.isRevoked
  · by_cases hle : w.clock ≤ r.expiresAt <;> simp [hr, hle]
  · simp [hr]

/-- The outcome of `CreateRefreshToken` in a reliable world. -/
theorem AuthService.CreateRefreshToken_of_reliable (userID : UUID) (w : World)
    (h : w.reliable) :
    AuthService.CreateRefreshToken userID w =
      (.ok (AuthService.newSession userID w),
       w.afterSecret.afterTick.afterUUID.afterTick.withStore
         { w.store with refreshTokens :=
             w.store.refreshTokens ++ [AuthService.newSession userID w] }) := by
  unfold AuthService.CreateRefreshToken
  simp only [GenerateSecureToken, GetExpirationTime_refresh, NewRefreshToken, uuid.New, time.Now]
  rw [refreshTokenRepositoryImpl_Create_of_answered _ _
    (by simp [World.nextFault_of_reliable, h])]
  simp [World.afterCall_of_reliable, h, AuthService.newSession]

/-- The outcome of `RevokeRefreshToken` in a reliable world when the lookup finds a row. -/
theorem AuthService.RevokeRefreshToken_of_reliable (secret : String) (w : World)
    (r : RefreshToken) (h : w.reliable)
    (hfind : w.store.refreshTokens.find? (fun t => t.token == secret) = some r) :
    (AuthService.RevokeRefreshToken secret w).2 =
      w.withStore (w.store.mapRefreshTokens (RefreshToken.revokeIfId (fun i => i == r.id))) := by
  unfold AuthService.RevokeRefreshToken
  rw [refreshTokenRepositoryImpl_GetByToken_of_found secret w r (w.nextFault_of_reliable h) hfind,
    w.afterCall_of_reliable h]
  simp only []
  rw [refreshTokenRepositoryImpl_Update_SetRevoked_snd, w.afterCall_of_reliable h,
    w.nextFault_of_reliable h]
  simp

/-- A rotation that answers with tokens, in a reliable world: the presented secret was
found valid, the new secret is the next value of the random source, and the refresh
tokens afterwards are the old rows and the new session, with the presented row revoked. -/
theorem AuthHandler.RefreshToken_ok (jwtService : JWTService)
    (c : Context dto.RefreshTokenRequest) (w : World) (t : dto.TokenResponse)
    (h : w.reliable)
    (hok : (AuthHandler.RefreshToken jwtService c w).1.payload = .tokens t) :
    ∃ req r0,
      c.json = some req ∧
      w.store.refreshTokens.find? (fun x => x.token == req.RefreshToken) = some r0 ∧
      r0.isRevoked = false ∧ w.clock ≤ r0.expiresAt ∧
      t.RefreshToken = w.nextSecret ∧
      (AuthHandler.RefreshToken jwtService c w).2.store.refreshTokens =
        (w.store.refreshTokens ++
          [AuthService.newSession r0.userID w.afterTick.afterTick]).map
          (RefreshToken.revokeIfId (fun i => i == r0.id)) := by
  have hf := w.nextFault_of_reliable h
  have hc := w.afterCall_of_reliable h
  unfold AuthHandler.RefreshToken at hok ⊢
  cases hj : c.json with
  | none =>
    simp [ShouldBindJSON.RefreshTokenRequest, hj, AuthHandler.respondError, time.Now] at hok
  | some req =>
    by_cases hempty : req.RefreshToken = ""
    · simp [ShouldBindJSON.RefreshTokenRequest, hj, hempty, AuthHandler.respondError,
        time.Now] at hok
    · simp only [ShouldBindJSON.RefreshTokenRequest, hj, hempty, if_false] at hok ⊢
      cases hfind : w.store.refreshTokens.find? (fun x => x.token == req.RefreshToken) with
      | none =>
        simp [AuthService.ValidateRefreshToken,
          refreshTokenRepositoryImpl_GetByToken_of_absent _ w hf hfind,
          AuthHandler.respondError, time.Now] at hok
      | some r0 =>
        rw [AuthService.ValidateRefreshToken_of_found _ w r0 hf hfind, hc] at hok ⊢
        cases hrev : r0.isRevoked with
        | true => simp [hrev, AuthHandler.respondError, time.Now] at hok
        | false =>
          by_cases hle : w.clock ≤ r0.expiresAt
          swap
          · simp [hrev, hle, AuthHandler.respondError, time.Now] at hok
          simp only [hrev, hle, decide_True, Bool.not_false, Bool.and_self, if_true,
            Bool.false_eq_true, if_false, AuthService.GetUserByID] at hok ⊢
          cases huser : w.store.users.find? (fun u => u.id == r0.userID) with
          | none =>
            rw [userRepositoryImpl_GetByID_of_absent _ _
              (by simp [World.nextFault_of_reliable, h]) (by simpa using huser)] at hok
            simp [AuthHandler.respondError, time.Now] at hok
          | some user =>
            have hu : user.id = r0.userID := by simpa using List.find?_some huser
            rw [userRepositoryImpl_GetByID_of_found _ _ user
              (by simp [World.nextFault_of_reliable, h]) (by simpa using huser),
              World.afterCall_of_reliable _ (by simp [h])] at hok ⊢
            simp only [AuthService.GetUserRoles] at hok ⊢
            rw [userRoleRepositoryImpl_GetByUserID_of_answered _ _
              (by simp [World.nextFault_of_reliable, h]),
              World.afterCall_of_reliable _ (by simp [h])] at hok ⊢
            simp only [JWTService.GenerateAccessToken, time.Now] at hok ⊢
            rw [AuthService.CreateRefreshToken_of_reliable _ _ (by simp [h])] at hok ⊢
            simp only [] at hok ⊢
            refine ⟨req, r0, rfl, hfind, hrev, hle, ?_, ?_⟩
            · simp only [Response.mk.injEq, Payload.tokens.injEq] at hok
              rw [← hok]
              simp [AuthService.newSession]
            · rw [AuthService.RevokeRefreshToken_of_reliable _ _ r0 (by simp [h])
                (by simp [List.find?_append, hfind])]
              simp [hu]

theorem find?_token_map_revokeIfId (l : List RefreshToken) (p : UUID → Bool) (secret : String) :
    (l.map (RefreshToken.revokeIfId p)).find? (fun x => x.token == secret) =
      (l.find? (fun x => x.token == secret)).map (RefreshToken.revokeIfId p) := by
  rw [List.find?_map]
  have hcomp : ((fun x : RefreshToken => x.token == secret) ∘ RefreshToken.revokeIfId p) =
      fun x => x.token == secret := by
    funext x
    simp
  rw [hcomp]

/-- C2 (amended): in a world whose database answers every statement (so that the
revocation of the old token does not fail), when the generated secret and id are fresh
and rotation returns a new refresh token, then in every later state of the same store
`ValidateRefreshToken(old)` fails with `ErrRefreshTokenInvalid`, and
`ValidateRefreshToken(new)` succeeds as long as the clock has not passed the seven days
of the new token. -/
theorem rotation_revokes_old_and_issues_new (jwtService : JWTService)
    (c : Context dto.RefreshTokenRequest) (w : World) (t : dto.TokenResponse)
    (h : w.reliable)
    (hsecret : ∀ r ∈ w.store.refreshTokens, r.token ≠ w.nextSecret)
    (hid : ∀ r ∈ w.store.refreshTokens, r.id ≠ w.nextUUID)
    (hok : (AuthHandler.RefreshToken jwtService c w).1.payload = .tokens t) :
    ∃ req, c.json = some req ∧ t.RefreshToken = w.nextSecret ∧
      ∀ w2 : World, w2.store = (AuthHandler.RefreshToken jwtService c w).2.store →
        w2.nextFault = false →
        (AuthService.ValidateRefreshToken req.RefreshToken w2).1 =
          .error .ErrRefreshTokenInvalid ∧
        (w2.clock ≤ w.clock + TokenExpirationTimes.RefreshToken →
          ∃ r, (AuthService.ValidateRefreshToken t.RefreshToken w2).1 = .ok r ∧
            r.token = t.RefreshToken ∧ r.isRevoked = false) := by
  obtain ⟨req, r0, hj, hfind, hrev, hle, hnew, hrt⟩ :=
    AuthHandler.RefreshToken_ok jwtService c w t h hok
  refine ⟨req, hj, hnew, ?_⟩
  intro w2 hstore hf2
  have hmem : r0 ∈ w.store.refreshTokens := List.mem_of_find?_eq_some hfind
  have hrt2 : w2.store.refreshTokens = (w.store.refreshTokens ++
      [AuthService.newSession r0.userID w.afterTick.afterTick]).map
      (RefreshToken.revokeIfId (fun i => i == r0.id)) := by
    rw [hstore, hrt]
  constructor
  · have hfind2 : w2.store.refreshTokens.find? (fun x => x.token == req.RefreshToken) =
        some (r0.revokeIfId (fun i => i == r0.id)) := by
      rw [hrt2, find?_token_map_revokeIfId, List.find?_append, hfind]
      rfl
    rw [AuthService.ValidateRefreshToken_of_found _ w2 _ hf2 hfind2]
    simp
  · intro hclock
    have hnone : w.store.refreshTokens.find? (fun x => x.token == t.RefreshToken) = none := by
      rw [List.find?_eq_none]
      intro x hx
      simpa [hnew] using hsecret x hx
    have hns : (AuthService.newSession r0.userID w.afterTick.afterTick).revokeIfId
        (fun i => i == r0.id) = AuthService.newSession r0.userID w.afterTick.afterTick := by
      apply RefreshToken.revokeIfId_of_false
      have := hid r0 hmem
      simpa [AuthService.newSession] using fun heq => this heq.symm
    have hfind2 : w2.store.refreshTokens.find? (fun x => x.token == t.RefreshToken) =
        some (AuthService.newSession r0.userID w.afterTick.afterTick) := by
      have hsingle : [AuthService.newSession r0.userID w.afterTick.afterTick].find?
          (fun x => x.token == t.RefreshToken) =
          some (AuthService.newSession r0.userID w.afterTick.afterTick) := by
        simp [AuthService.newSession, hnew]
      rw [hrt2, find?_token_map_revokeIfId, List.find?_append, hnone, Option.none_or, hsingle,
        Option.map_some', hns]
    refine ⟨AuthService.newSession r0.userID w.afterTick.afterTick, ?_, ?_, ?_⟩
    · rw [AuthService.ValidateRefreshToken_of_found _ w2 _ hf2 hfind2]
      have h1 := w.clock_le_afterTick
      have h2 := w.afterTick.clock_le_afterTick
      have hexp : w2.clock ≤ (AuthService.newSession r0.userID w.afterTick.afterTick).expiresAt := by
        show w2.clock ≤ w.afterTick.afterTick.clock + TokenExpirationTimes.RefreshToken
        linarith
      have hcond : (!(AuthService.newSession r0.userID w.afterTick.afterTick).isRevoked &&
          decide (w2.clock ≤ (AuthService.newSession r0.userID w.afterTick.afterTick).expiresAt))
          = true := by
        rw [decide_eq_true hexp]
        rfl
      simp only [hcond, if_true]
    · simp [AuthService.newSession, hnew]
    · simp [AuthService.newSession]

/-- C2 (amended), at a concrete store: the rotation of `old` at instant 50 returns the
secret `new`; afterwards `old` is rejected and `new` is accepted. -/
theorem rotation_revokes_old_and_issues_new_witness :
    (AuthHandler.RefreshToken jwtA rotateOld (worldAt 50)).1.payload = .tokens rotatedTokens ∧
    (AuthService.ValidateRefreshToken "old"
      (AuthHandler.RefreshToken jwtA rotateOld (worldAt 50)).2).1 =
        .error .ErrRefreshTokenInvalid ∧
    (∃ r, (AuthService.ValidateRefreshToken "new"
      (AuthHandler.RefreshToken jwtA rotateOld (worldAt 50)).2).1 = .ok r) := by
  have hok : (AuthHandler.RefreshToken jwtA rotateOld (worldAt 50)).1.payload =
      .tokens rotatedTokens := by decide
  obtain ⟨req, hreq, _, hlater⟩ := rotation_revokes_old_and_issues_new jwtA rotateOld
    (worldAt 50) rotatedTokens (by decide) (by decide) (by decide) hok
  cases hreq
  have key := hlater (AuthHandler.RefreshToken jwtA rotateOld (worldAt 50)).2 rfl (by decide)
  obtain ⟨r, hr, _⟩ := key.2 (by decide)
  exact ⟨hok, key.1, r, hr⟩

/-- C2 (as stated) fails: the lookup that starts the revocation of the old token fails with
a driver error, which the handler only logs. Rotation still answers 200 with the new
secret `new`, and afterwards both `old` and `new` validate. -/
theorem rotation_leaves_both_tokens_valid :
    (AuthHandler.RefreshToken jwtA rotateOld
      (faultyWorld [false, false, false, false, true])).1.status = 200 ∧
    (AuthHandler.RefreshToken jwtA rotateOld
      (faultyWorld [false, false, false, false, true])).1.payload = .tokens rotatedTokens ∧
    (AuthService.ValidateRefreshToken "old" (AuthHandler.RefreshToken jwtA rotateOld
      (faultyWorld [false, false, false, false, true])).2).1 = .ok sessionA ∧
    (AuthService.ValidateRefreshToken "new" (AuthHandler.RefreshToken jwtA rotateOld
      (faultyWorld [false, false, false, false, true])).2).1.toBool = true := by
  decide

/-! ### Revocation is permanent -/

theorem SessionsPersist.refl (l : List RefreshToken) : SessionsPersist l l := by
  refine ⟨fun _ => false, [], ?_⟩
  have : l.map (RefreshToken.revokeIfId fun _ => false) = l := by
    conv_rhs => rw [← List.map_id l]
    exact List.map_congr_left (fun r _ => RefreshToken.revokeIfId_of_false _ r rfl)
  rw [this, List.append_nil]

theorem SessionsPersist.of_eq {l l' : List RefreshToken} (h : l' = l) : SessionsPersist l l' := by
  rw [h]
  exact SessionsPersist.refl l

theorem SessionsPersist.trans {l1 l2 l3 : List RefreshToken} (h12 : SessionsPersist l1 l2)
    (h23 : SessionsPersist l2 l3) : SessionsPersist l1 l3 := by
  obtain ⟨p, e, rfl⟩ := h12
  obtain ⟨q, e', rfl⟩ := h23
  refine ⟨fun i => p i || q i, e.map (RefreshToken.revokeIfId q) ++ e', ?_⟩
  simp [List.map_append, List.map_map, Function.comp_def, RefreshToken.revokeIfId_revokeIfId]

theorem SessionsPersist.of_eq_left {l1 l2 l3 : List RefreshToken} (h : l2 = l1)
    (h23 : SessionsPersist l2 l3) : SessionsPersist l1 l3 := by
  rw [← h]
  exact h23

theorem SessionsPersist.append (l extra : List RefreshToken) : SessionsPersist l (l ++ extra) := by
  obtain ⟨p, e, he⟩ := SessionsPersist.refl l
  refine ⟨p, e ++ extra, ?_⟩
  rw [← List.append_assoc, ← he]

theorem SessionsPersist.revoke (l : List RefreshToken) (p : UUID → Bool) :
    SessionsPersist l (l.map (RefreshToken.revokeIfId p)) :=
  ⟨p, [], by rw [List.append_nil]⟩

/-- A revoked row is still there afterwards. -/
theorem SessionsPersist.mem_of_revoked {l l' : List RefreshToken} (h : SessionsPersist l l')
    (r : RefreshToken) (hr : r ∈ l) (hrev : r.isRevoked = true) : r ∈ l' := by
  obtain ⟨p, e, rfl⟩ := h
  rw [List.mem_append, List.mem_map]
  exact Or.inl ⟨r, hr, RefreshToken.revokeIfId_of_revoked p r hrev⟩

/-- When the first row with a secret is revoked, the first row with that secret afterwards
is the same row. -/
theorem SessionsPersist.find?_of_revoked {l l' : List RefreshToken} (h : SessionsPersist l l')
    (secret : String) (r : RefreshToken)
    (hfind : l.find? (fun x => x.token == secret) = some r) (hrev : r.isRevoked = true) :
    l'.find? (fun x => x.token == secret) = some r := by
  obtain ⟨p, e, rfl⟩ := h
  rw [List.find?_append, find?_token_map_revokeIfId, hfind, Option.map_some',
    RefreshToken.revokeIfId_of_revoked p r hrev]
  rfl

theorem persists_update_setRevoked (t : RefreshToken) (w : World) :
    SessionsPersist w.store.refreshTokens
      (refreshTokenRepositoryImpl.Update (t.SetRevoked true) w).2.store.refreshTokens := by
  rw [refreshTokenRepositoryImpl_Update_SetRevoked_snd]
  cases w.nextFault
  · exact SessionsPersist.revoke _ _
  · exact SessionsPersist.refl _

theorem AuthService.revokeEach_persists (tokens : List RefreshToken) (w : World) :
    SessionsPersist w.store.refreshTokens
      (AuthService.revokeEach tokens w).store.refreshTokens := by
  induction tokens generalizing w with
  | nil => exact SessionsPersist.refl _
  | cons t ts ih =>
    unfold AuthService.revokeEach
    cases ht : t.isRevoked
    · exact (persists_update_setRevoked t w).trans (ih _)
    · exact ih w

theorem AuthService.RevokeAllUserTokens_persists (userID : UUID) (w : World) :
    SessionsPersist w.store.refreshTokens
      (AuthService.RevokeAllUserTokens userID w).2.store.refreshTokens := by
  unfold AuthService.RevokeAllUserTokens
  cases hf : w.nextFault
  · rw [refreshTokenRepositoryImpl_GetByUserID_of_answered _ _ hf]
    exact SessionsPersist.of_eq_left (by simp) (AuthService.revokeEach_persists _ _)
  · cases hcut : w.nextCut with
    | none =>
      rw [refreshTokenRepositoryImpl_GetByUserID_of_fault _ _ hf hcut]
      exact SessionsPersist.of_eq (by simp)
    | some n =>
      rw [refreshTokenRepositoryImpl_GetByUserID_of_cut _ _ n hf hcut]
      exact SessionsPersist.of_eq_left (by simp) (AuthService.revokeEach_persists _ _)

theorem AuthService.RevokeRefreshToken_persists (token : String) (w : World) :
    SessionsPersist w.store.refreshTokens
      (AuthService.RevokeRefreshToken token w).2.store.refreshTokens := by
  unfold AuthService.RevokeRefreshToken
  split
  · rename_i heq
    simp only [Prod.ext_iff] at heq
    obtain ⟨_, rfl⟩ := heq
    exact SessionsPersist.of_eq (by simp)
  · rename_i heq
    simp only [Prod.ext_iff] at heq
    obtain ⟨_, rfl⟩ := heq
    exact SessionsPersist.of_eq_left (by simp) (persists_update_setRevoked _ _)

theorem AuthService.CreateRefreshToken_persists (userID : UUID) (w : World) :
    SessionsPersist w.store.refreshTokens
      (AuthService.CreateRefreshToken userID w).2.store.refreshTokens := by
  unfold AuthService.CreateRefreshToken
  simp only [GenerateSecureToken, GetExpirationTime_refresh, NewRefreshToken, uuid.New, time.Now]
  split
  · rename_i heq
    simp only [Prod.ext_iff] at heq
    obtain ⟨_, rfl⟩ := heq
    cases hf : w.nextFault
    · simp [hf]
      exact SessionsPersist.append _ _
    · simp [hf]
      exact SessionsPersist.refl _
  · rename_i heq
    simp only [Prod.ext_iff] at heq
    obtain ⟨_, rfl⟩ := heq
    cases hf : w.nextFault
    · simp [hf]
      exact SessionsPersist.append _ _
    · simp [hf]
      exact SessionsPersist.refl _

theorem AuthService.GetUserByID_sessions (userID : UUID) (w : World) :
    (AuthService.GetUserByID userID w).2.store.refreshTokens = w.store.refreshTokens := by
  simp [AuthService.GetUserByID]

theorem AuthService.GetUserRoles_sessions (userID : UUID) (w : World) :
    (AuthService.GetUserRoles userID w).2.store.refreshTokens = w.store.refreshTokens := by
  simp [AuthService.GetUserRoles]

theorem AuthService.RegisterUser_sessions (H : Hasher)
    (email username displayName password : String) (w : World) :
    (AuthService.RegisterUser H email username displayName password w).2.store.refreshTokens =
      w.store.refreshTokens := by
  unfold AuthService.RegisterUser
  repeat' split
  all_goals
    simp only [Prod.ext_iff] at *
    (try casesm* _ ∧ _)
    subst_vars
    simp [NewUser, NewUserAuth, NewUserRole, uuid.New, time.Now, HashPassword,
      AuthService.createEmailVerification, GenerateSecureToken,
      GetExpirationTime_email_verification, NewEmailVerification, apply_ite Store.refreshTokens]

theorem AuthService.AuthenticateUser_sessions (H : Hasher) (email password : String)
    (w : World) :
    (AuthService.AuthenticateUser H email password w).2.store.refreshTokens =
      w.store.refreshTokens := by
  unfold AuthService.AuthenticateUser
  repeat' split
  all_goals
    simp only [Prod.ext_iff] at *
    (try casesm* _ ∧ _)
    subst_vars
    simp [UserAuth.SetLastLoginAt, time.Now, apply_ite Store.refreshTokens]

theorem AuthService.ValidateRefreshToken_sessions (token : String) (w : World) :
    (AuthService.ValidateRefreshToken token w).2.store.refreshTokens = w.store.refreshTokens := by
  unfold AuthService.ValidateRefreshToken
  repeat' split
  all_goals
    simp only [Prod.ext_iff] at *
    (try casesm* _ ∧ _)
    subst_vars
    simp [apply_ite World.store]

theorem AuthService.VerifyEmail_sessions (token : String) (w : World) :
    (AuthService.VerifyEmail token w).2.store.refreshTokens = w.store.refreshTokens := by
  unfold AuthService.VerifyEmail
  repeat' split
  all_goals
    simp only [Prod.ext_iff] at *
    (try casesm* _ ∧ _)
    subst_vars
    simp [User.SetVerified, EmailVerification.SetUsed, time.Now, apply_ite World.store,
      apply_ite Store.refreshTokens]

theorem AuthService.InitiatePasswordReset_sessions (email : String) (w : World) :
    (AuthService.InitiatePasswordReset email w).2.store.refreshTokens =
      w.store.refreshTokens := by
  unfold AuthService.InitiatePasswordReset
  repeat' split
  all_goals
    simp only [Prod.ext_iff] at *
    (try casesm* _ ∧ _)
    subst_vars
    simp [AuthService.createPasswordReset, GenerateSecureToken,
      GetExpirationTime_password_reset, NewPasswordReset, uuid.New, time.Now,
      apply_ite Store.refreshTokens]

theorem AuthService.HasRole_sessions (userID : UUID) (role : UserRoleType) (w : World) :
    (AuthService.HasRole userID role w).2.store.refreshTokens = w.store.refreshTokens := by
  unfold AuthService.HasRole
  repeat' split
  all_goals
    simp only [Prod.ext_iff] at *
    (try casesm* _ ∧ _)
    subst_vars
    simp

theorem AuthService.HasPermission_sessions (userID : UUID) (requiredRole : UserRoleType)
    (w : World) :
    (AuthService.HasPermission userID requiredRole w).2.store.refreshTokens =
      w.store.refreshTokens := by
  unfold AuthService.HasPermission
  repeat' split
  all_goals
    simp only [Prod.ext_iff] at *
    (try casesm* _ ∧ _)
    subst_vars
    simp

theorem AuthService.AssignRole_sessions (userID : UUID) (role : UserRoleType) (w : World) :
    (AuthService.AssignRole userID role w).2.store.refreshTokens = w.store.refreshTokens := by
  unfold AuthService.AssignRole
  repeat' split
  all_goals simp only [Prod.ext_iff] at *
  all_goals (try casesm* _ ∧ _)
  all_goals subst_vars
  all_goals
    simp [AuthService.HasRole_sessions, NewUserRole, uuid.New, time.Now,
      apply_ite Store.refreshTokens]

theorem AuthService.RevokeRole_sessions (userID : UUID) (role : UserRoleType) (w : World) :
    (AuthService.RevokeRole userID role w).2.store.refreshTokens = w.store.refreshTokens := by
  unfold AuthService.RevokeRole
  repeat' split
  all_goals
    simp only [Prod.ext_iff] at *
    (try casesm* _ ∧ _)
    subst_vars
    simp [UserRole.SetActive, apply_ite Store.refreshTokens]

theorem AuthService.ChangePassword_persists (H : Hasher) (userID : UUID)
    (currentPassword newPassword : String) (w : World) :
    SessionsPersist w.store.refreshTokens
      (AuthService.ChangePassword H userID currentPassword newPassword w).2.store.refreshTokens := by
  unfold AuthService.ChangePassword
  repeat' split
  all_goals
    simp only [Prod.ext_iff] at *
    (try casesm* _ ∧ _)
    subst_vars
    first
    | refine SessionsPersist.of_eq_left ?_ (AuthService.RevokeAllUserTokens_persists _ _)
    | refine SessionsPersist.of_eq ?_
    all_goals
      simp [UserAuth.SetPasswordHash, time.Now, HashPassword, apply_ite Store.refreshTokens]

theorem AuthService.ResetPassword_persists (H : Hasher) (token newPassword : String)
    (w : World) :
    SessionsPersist w.store.refreshTokens
      (AuthService.ResetPassword H token newPassword w).2.store.refreshTokens := by
  unfold AuthService.ResetPassword
  repeat' split
  all_goals
    simp only [Prod.ext_iff] at *
    (try casesm* _ ∧ _)
    subst_vars
    first
    | refine SessionsPersist.of_eq_left ?_ (AuthService.RevokeAllUserTokens_persists _ _)
    | refine SessionsPersist.of_eq ?_
    all_goals
      simp [UserAuth.SetPasswordHash, PasswordReset.SetUsed, time.Now, HashPassword,
        apply_ite World.store, apply_ite Store.refreshTokens]

theorem AuthService.run_persists (H : Hasher) (op : AuthService.Op) (w : World) :
    SessionsPersist w.store.refreshTokens (AuthService.run H op w).store.refreshTokens := by
  cases op with
  | GetUserByID userID => exact .of_eq (AuthService.GetUserByID_sessions userID w)
  | RegisterUser e u d p => exact .of_eq (AuthService.RegisterUser_sessions H e u d p w)
  | AuthenticateUser e p => exact .of_eq (AuthService.AuthenticateUser_sessions H e p w)
  | CreateRefreshToken userID => exact AuthService.CreateRefreshToken_persists userID w
  | ValidateRefreshToken token => exact .of_eq (AuthService.ValidateRefreshToken_sessions token w)
  | RevokeRefreshToken token => exact AuthService.RevokeRefreshToken_persists token w
  | RevokeAllUserTokens userID => exact AuthService.RevokeAllUserTokens_persists userID w
  | VerifyEmail token => exact .of_eq (AuthService.VerifyEmail_sessions token w)
  | InitiatePasswordReset email => exact .of_eq (AuthService.InitiatePasswordReset_sessions email w)
  | ResetPassword token p => exact AuthService.ResetPassword_persists H token p w
  | ChangePassword userID c n => exact AuthService.ChangePassword_persists H userID c n w
  | GetUserRoles userID => exact .of_eq (AuthService.GetUserRoles_sessions userID w)
  | HasRole userID role => exact .of_eq (AuthService.HasRole_sessions userID role w)
  | HasPermission userID role => exact .of_eq (AuthService.HasPermission_sessions userID role w)
  | AssignRole userID role => exact .of_eq (AuthService.AssignRole_sessions userID role w)
  | RevokeRole userID role => exact .of_eq (AuthService.RevokeRole_sessions userID role w)

theorem AuthService.runAll_persists (H : Hasher) (ops : List AuthService.Op) (w : World) :
    SessionsPersist w.store.refreshTokens (AuthService.runAll H ops w).store.refreshTokens := by
  induction ops generalizing w with
  | nil => exact SessionsPersist.refl _
  | cons op ops ih => exact (AuthService.run_persists H op w).trans (ih _)

theorem AuthService.ValidateRefreshToken_of_revoked (secret : String) (w : World)
    (r : RefreshToken) (hfind : w.store.refreshTokens.find? (fun t => t.token == secret) = some r)
    (hrev : r.isRevoked = true) (x : RefreshToken) :
    (AuthService.ValidateRefreshToken secret w).1 ≠ .ok x := by
  cases hf : w.nextFault
  · rw [AuthService.ValidateRefreshToken_of_found secret w r hf hfind]
    simp [hrev]
  · unfold AuthService.ValidateRefreshToken
    rw [refreshTokenRepositoryImpl_GetByToken_of_fault secret w hf]
    simp

/-- C5: revocation is permanent. A refresh token that is revoked is still in the store
and still revoked after every operation of the service, hence after every sequence of
operations; and when it is the token its secret selects, `ValidateRefreshToken` on that
secret fails in every later state. -/
theorem revocation_is_permanent (H : Hasher) (w : World) (r : RefreshToken)
    (hr : r ∈ w.store.refreshTokens) (hrev : r.isRevoked = true) :
    (∀ op : AuthService.Op, r ∈ (AuthService.run H op w).store.refreshTokens) ∧
    (∀ ops : List AuthService.Op, r ∈ (AuthService.runAll H ops w).store.refreshTokens) ∧
    (∀ (ops : List AuthService.Op) (secret : String),
      w.store.refreshTokens.find? (fun t => t.token == secret) = some r →
      ∀ x, (AuthService.ValidateRefreshToken secret (AuthService.runAll H ops w)).1 ≠ .ok x) := by
  refine ⟨?_, ?_, ?_⟩
  · intro op
    exact (AuthService.run_persists H op w).mem_of_revoked r hr hrev
  · intro ops
    exact (AuthService.runAll_persists H ops w).mem_of_revoked r hr hrev
  · intro ops secret hfind x
    exact AuthService.ValidateRefreshToken_of_revoked secret _ r
      ((AuthService.runAll_persists H ops w).find?_of_revoked secret r hfind hrev) hrev x

/-- C5, at a concrete store: the revoked session `old` is still revoked after a new
session is created and the password of its user is changed. -/
theorem revocation_is_permanent_witness :
    sessionRevoked ∈ (AuthService.runAll toyHasher
      [.CreateRefreshToken 7, .ChangePassword 7 "OldPass1!" "NewPass1!"]
      revokedWorld).store.refreshTokens ∧
    sessionRevoked.isRevoked = true :=
  ⟨(revocation_is_permanent toyHasher revokedWorld sessionRevoked (by decide) (by decide)).2.1 _,
   by decide⟩

/-! ### Password reset, then authentication -/

/-- In a reliable world `RevokeAllUserTokens` returns no error and changes only flags of
refresh tokens. -/
theorem AuthService.RevokeAllUserTokens_of_answered (userID : UUID) (w : World)
    (h : w.reliable) :
    ∃ p, AuthService.RevokeAllUserTokens userID w =
      (.ok (), w.withStore (w.store.mapRefreshTokens (RefreshToken.revokeIfId p))) := by
  unfold AuthService.RevokeAllUserTokens
  rw [refreshTokenRepositoryImpl_GetByUserID_of_answered _ _ (w.nextFault_of_reliable h),
    w.afterCall_of_reliable h]
  simp only []
  rw [AuthService.revokeEach_of_reliable _ _ h]
  exact ⟨_, rfl⟩

/-- The reset token `InitiatePasswordReset` issues in the world `w` for a user. -/
theorem AuthService.InitiatePasswordReset_of_active (email : String) (w : World) (user : User)
    (h : w.reliable) (huser : w.store.users.find? (fun u => u.email == email) = some user)
    (hactive : user.isActive = true) :
    AuthService.InitiatePasswordReset email w =
      (.ok (), w.afterTick.afterTick.afterUUID.afterSecret.withStore
        { w.store with passwordResets := w.store.passwordResets ++
            [{ id := w.nextUUID, userID := user.id, token := w.nextSecret,
               expiresAt := w.clock + TokenExpirationTimes.PasswordReset, isUsed := false,
               createdAt := w.afterTick.clock }] }) := by
  unfold AuthService.InitiatePasswordReset
  rw [userRepositoryImpl_GetByEmail_of_found email w user (w.nextFault_of_reliable h) huser,
    w.afterCall_of_reliable h]
  simp only [hactive, Bool.not_true, Bool.false_eq_true, if_false,
    AuthService.createPasswordReset, GenerateSecureToken, GetExpirationTime_password_reset,
    NewPasswordReset, uuid.New, time.Now]
  rw [passwordResetRepositoryImpl_Create_of_answered _ _
    (by simp [World.nextFault_of_reliable, h])]
  simp [World.afterCall_of_reliable, h]

/-- A `ResetPassword` with a valid token in a reliable world succeeds; it leaves the users
unchanged and stores the new hash in the credential rows of the user of the token. -/
theorem AuthService.ResetPassword_of_valid (H : Hasher) (token newPassword : String)
    (w : World) (reset : PasswordReset) (userAuth : UserAuth) (hashed : String)
    (h : w.reliable)
    (hfind : w.store.passwordResets.find? (fun r => r.token == token) = some reset)
    (hused : reset.isUsed = false) (hle : w.clock ≤ reset.expiresAt)
    (hauth : w.store.userAuths.find? (fun a => a.userID == reset.userID) = some userAuth)
    (hhash : H.GenerateFromPassword w.nextSalt newPassword = .ok hashed) :
    (AuthService.ResetPassword H token newPassword w).1 = .ok () ∧
    (AuthService.ResetPassword H token newPassword w).2.store.users = w.store.users ∧
    (AuthService.ResetPassword H token newPassword w).2.store.userAuths =
      w.store.userAuths.map (fun a => if a.userID == reset.userID then
        { a with passwordHash := hashed, lastLoginAt := userAuth.lastLoginAt,
                 updatedAt := w.afterTick.clock } else a) := by
  have hf := w.nextFault_of_reliable h
  have hc := w.afterCall_of_reliable h
  have hu : userAuth.userID = reset.userID := by simpa using List.find?_some hauth
  unfold AuthService.ResetPassword
  rw [passwordResetRepositoryImpl_GetByToken_of_found token w reset hf hfind, hc]
  simp only [PasswordReset_IsValid_fst, PasswordReset_IsValid_snd, hused, hle,
    HashPassword, World.afterTick_nextSalt, hhash, decide_True, Bool.not_false,
    Bool.and_self, Bool.not_true, Bool.false_eq_true, if_false]
  rw [userAuthRepositoryImpl_GetByUserID_of_found _ _ userAuth
    (by simp [World.nextFault_of_reliable, h]) (by simpa using hauth),
    World.afterCall_of_reliable _ (by simp [h])]
  simp only [UserAuth.SetPasswordHash, time.Now]
  rw [userAuthRepositoryImpl_Update_of_present _ _
    (by simp [World.nextFault_of_reliable, h])
    (by simpa [hu] using List.any_of_find?_eq_some _ _ _ hauth)]
  simp only []
  rw [passwordResetRepositoryImpl_Update_of_present _ _
    (by simp [World.nextFault_of_reliable, World.afterCall_of_reliable, h])
    (by
      have : (w.store.passwordResets.any fun r => r.id == reset.id) = true :=
        List.any_eq_true.mpr ⟨reset, List.mem_of_find?_eq_some hfind, by simp⟩
      simpa [World.nextFault_of_reliable, World.afterCall_of_reliable, h,
        PasswordReset.SetUsed] using this)]
  simp only []
  obtain ⟨p, hp⟩ := AuthService.RevokeAllUserTokens_of_answered reset.userID
    (passwordResetRepositoryImpl.Update (reset.SetUsed true)
      (userAuthRepositoryImpl.Update
        { userAuth with passwordHash := hashed, updatedAt := w.afterTick.afterSalt.clock }
        w.afterTick.afterSalt.afterTick).2).2
    (by simp [World.nextFault_of_reliable, World.afterCall_of_reliable, h])
  rw [hp]
  simp [World.nextFault_of_reliable, World.afterCall_of_reliable, h, hu]

/-- The outcome of `AuthenticateUser` in a reliable world for an active user with a
credential record. -/
theorem AuthService.AuthenticateUser_of_active (H : Hasher) (email password : String)
    (w : World) (user : User) (userAuth : UserAuth) (h : w.reliable)
    (huser : w.store.users.find? (fun u => u.email == email) = some user)
    (hactive : user.isActive = true)
    (hauth : w.store.userAuths.find? (fun a => a.userID == user.id) = some userAuth) :
    (AuthService.AuthenticateUser H email password w).1 =
      if ComparePassword H userAuth.passwordHash password then .ok user
      else .error .ErrInvalidCredentials := by
  unfold AuthService.AuthenticateUser
  rw [userRepositoryImpl_GetByEmail_of_found email w user (w.nextFault_of_reliable h) huser,
    w.afterCall_of_reliable h]
  simp only [hactive, Bool.not_true, Bool.false_eq_true, if_false]
  rw [userAuthRepositoryImpl_GetByUserID_of_found _ w userAuth (w.nextFault_of_reliable h) hauth]
  cases hcmp : ComparePassword H userAuth.passwordHash password <;> simp [hcmp]

/-- C10: for a registered active user with email `e` and password `p`, a hasher that never
fails and whose digests verify exactly the password they were made from, a new password
`q` different from `p`, and a reliable database: `AuthenticateUser(e, p)` succeeds before
the reset; `InitiatePasswordReset(e)` succeeds and issues an unused reset token of the user
(its secret is the next value of the random source, assumed fresh); in every later state
of that store within the hour `ResetPassword(t, q)` succeeds; and in every later state of
the resulting store `AuthenticateUser(e, p)` fails with `ErrInvalidCredentials` while
`AuthenticateUser(e, q)` returns the user. -/
theorem reset_password_then_authenticate (H : Hasher) (w : World) (e p q : String)
    (user : User) (userAuth : UserAuth)
    (hHash : ∀ salt x, ∃ hashed, H.GenerateFromPassword salt x = .ok hashed)
    (hVerify : ∀ salt x hashed y, H.GenerateFromPassword salt x = .ok hashed →
      (H.CompareHashAndPassword hashed y = true ↔ x = y))
    (h : w.reliable)
    (huser : w.store.users.find? (fun u => u.email == e) = some user)
    (hactive : user.isActive = true)
    (hauth : w.store.userAuths.find? (fun a => a.userID == user.id) = some userAuth)
    (hpw : ComparePassword H userAuth.passwordHash p = true)
    (hpq : q ≠ p)
    (hfresh : ∀ r ∈ w.store.passwordResets, r.token ≠ w.nextSecret) :
    (AuthService.AuthenticateUser H e p w).1 = .ok user ∧
    (AuthService.InitiatePasswordReset e w).1 = .ok () ∧
    (∃ reset ∈ (AuthService.InitiatePasswordReset e w).2.store.passwordResets,
      reset.token = w.nextSecret ∧ reset.userID = user.id ∧ reset.isUsed = false ∧
      reset.expiresAt = w.clock + TokenExpirationTimes.PasswordReset) ∧
    ∀ w1 : World, w1.store = (AuthService.InitiatePasswordReset e w).2.store → w1.reliable →
      w1.clock ≤ w.clock + TokenExpirationTimes.PasswordReset →
      (AuthService.ResetPassword H w.nextSecret q w1).1 = .ok () ∧
      ∀ w2 : World, w2.store = (AuthService.ResetPassword H w.nextSecret q w1).2.store →
        w2.reliable →
        (AuthService.AuthenticateUser H e p w2).1 = .error .ErrInvalidCredentials ∧
        (AuthService.AuthenticateUser H e q w2).1 = .ok user := by
  have hinit := AuthService.InitiatePasswordReset_of_active e w user h huser hactive
  refine ⟨?_, ?_, ?_, ?_⟩
  · rw [AuthService.AuthenticateUser_of_active H e p w user userAuth h huser hactive hauth, hpw]
    rfl
  · rw [hinit]
  · rw [hinit]
    refine ⟨{ id := w.nextUUID, userID := user.id, token := w.nextSecret,
              expiresAt := w.clock + TokenExpirationTimes.PasswordReset, isUsed := false,
              createdAt := w.afterTick.clock }, ?_, rfl, rfl, rfl, rfl⟩
    simp
  · intro w1 hstore hrel hclock
    rw [hinit] at hstore
    have hnone : w.store.passwordResets.find? (fun r => r.token == w.nextSecret) = none := by
      rw [List.find?_eq_none]
      intro x hx
      simpa using hfresh x hx
    have hfind : w1.store.passwordResets.find? (fun r => r.token == w.nextSecret) =
        some { id := w.nextUUID, userID := user.id, token := w.nextSecret,
               expiresAt := w.clock + TokenExpirationTimes.PasswordReset, isUsed := false,
               createdAt := w.afterTick.clock } := by
      rw [hstore]
      simp [List.find?_append, hnone]
    have hauth1 : w1.store.userAuths.find? (fun a => a.userID == user.id) = some userAuth := by
      rw [hstore]
      simpa using hauth
    obtain ⟨hashed, hhash⟩ := hHash w1.nextSalt q
    obtain ⟨hok, husers, hauths⟩ := AuthService.ResetPassword_of_valid H w.nextSecret q w1 _
      userAuth hashed hrel hfind rfl hclock hauth1 hhash
    refine ⟨hok, ?_⟩
    intro w2 hstore2 hrel2
    have huser2 : w2.store.users.find? (fun u => u.email == e) = some user := by
      rw [hstore2, husers, hstore]
      simpa using huser
    have hauth2 := find?_userAuths_after_rehash w1.store.userAuths user.id userAuth hashed
      userAuth.lastLoginAt w1.afterTick.clock hauth1
    rw [← hauths, ← hstore2] at hauth2
    constructor
    · rw [AuthService.AuthenticateUser_of_active H e p w2 user _ hrel2 huser2 hactive hauth2]
      have hno : ComparePassword H hashed p = false := by
        cases hc : ComparePassword H hashed p
        · rfl
        · exact absurd ((hVerify _ _ _ _ hhash).mp hc) hpq
      simp [hno]
    · rw [AuthService.AuthenticateUser_of_active H e q w2 user _ hrel2 huser2 hactive hauth2]
      have hyes : ComparePassword H hashed q = true := (hVerify _ _ _ _ hhash).mpr rfl
      simp [hyes]

theorem String.append_right_cancel_iff (a x y : String) : a ++ x = a ++ y ↔ x = y := by
  constructor
  · intro hxy
    have hdata := congrArg String.data hxy
    simp only [String.data_append] at hdata
    exact String.ext (List.append_cancel_left hdata)
  · intro hxy
    rw [hxy]

/-- C10, the concrete scenario: `alice@x.com` registers with `OldPass1!`, a reset token is
issued, `ResetPassword(token, NewPass1!)` succeeds, and afterwards the old password is
rejected with `ErrInvalidCredentials` while `NewPass1!` authenticates. -/
theorem reset_password_then_authenticate_witness :
    (AuthService.InitiatePasswordReset "alice@x.com" registeredWorld).1 = .ok () ∧
    (AuthService.ResetPassword toyHasher "reset-secret" "NewPass1!"
      (AuthService.InitiatePasswordReset "alice@x.com" registeredWorld).2).1 = .ok () ∧
    (AuthService.AuthenticateUser toyHasher "alice@x.com" "OldPass1!"
      (AuthService.ResetPassword toyHasher "reset-secret" "NewPass1!"
        (AuthService.InitiatePasswordReset "alice@x.com" registeredWorld).2).2).1 =
      .error .ErrInvalidCredentials ∧
    (AuthService.AuthenticateUser toyHasher "alice@x.com" "NewPass1!"
      (AuthService.ResetPassword toyHasher "reset-secret" "NewPass1!"
        (AuthService.InitiatePasswordReset "alice@x.com" registeredWorld).2).2).1 =
      .ok alice := by
  have key := reset_password_then_authenticate toyHasher registeredWorld "alice@x.com"
    "OldPass1!" "NewPass1!" alice aliceAuth
    (fun _ x => ⟨"bcrypt:" ++ x, rfl⟩)
    (by
      intro salt x hashed y hx
      cases hx
      simp [toyHasher, String.append_right_cancel_iff])
    (by decide) (by decide) (by decide) (by decide) (by decide) (by decide) (by decide)
  have step := key.2.2.2 (AuthService.InitiatePasswordReset "alice@x.com" registeredWorld).2 rfl
    (by decide) (by decide)
  have fin := step.2 (AuthService.ResetPassword toyHasher "reset-secret" "NewPass1!"
    (AuthService.InitiatePasswordReset "alice@x.com" registeredWorld).2).2 rfl (by decide)
  exact ⟨key.2.1, step.1, fin.1, fin.2⟩

/-! ### Which statement fails -/

theorem World.faultAt_zero (w : World) : w.faultAt 0 = w.nextFault := rfl

theorem World.faultAt_succ (w : World) (n : Nat) : w.faultAt (n + 1) = w.afterCall.faultAt n := by
  unfold World.faultAt World.afterCall
  cases w.faults <;> simp

@[simp] theorem World.afterTick_faultAt (w : World) (n : Nat) :
    w.afterTick.faultAt n = w.faultAt n := rfl

@[simp] theorem World.afterUUID_faultAt (w : World) (n : Nat) :
    w.afterUUID.faultAt n = w.faultAt n := rfl

@[simp] theorem World.afterSecret_faultAt (w : World) (n : Nat) :
    w.afterSecret.faultAt n = w.faultAt n := rfl

@[simp] theorem World.afterSalt_faultAt (w : World) (n : Nat) :
    w.afterSalt.faultAt n = w.faultAt n := rfl

@[simp] theorem World.withStore_faultAt (w : World) (s : Store) (n : Nat) :
    (w.withStore s).faultAt n = w.faultAt n := rfl

theorem World.faultAt_one (w : World) : w.faultAt 1 = w.afterCall.nextFault :=
  w.faultAt_succ 0

theorem World.faultAt_two (w : World) : w.faultAt 2 = w.afterCall.afterCall.nextFault := by
  rw [w.faultAt_succ 1, World.faultAt_one]

theorem World.faultAt_three (w : World) :
    w.faultAt 3 = w.afterCall.afterCall.afterCall.nextFault := by
  rw [w.faultAt_succ 2, World.faultAt_two]

theorem World.faultAt_four (w : World) :
    w.faultAt 4 = w.afterCall.afterCall.afterCall.afterCall.nextFault := by
  rw [w.faultAt_succ 3, World.faultAt_three]

theorem World.faultAt_five (w : World) :
    w.faultAt 5 = w.afterCall.afterCall.afterCall.afterCall.afterCall.nextFault := by
  rw [w.faultAt_succ 4, World.faultAt_four]

/-! ### When a statement returns a value -/
@[simp] theorem userRepositoryImpl_GetByID_fst_eq_ok (id : UUID) (w : World) (x : User) :
    (userRepositoryImpl.GetByID id w).1 = .ok x ↔
      w.nextFault = false ∧ w.store.users.find? (fun u => u.id == id) = some x := by
  cases hf : w.nextFault
  · cases hx : w.store.users.find? (fun u => u.id == id) <;>
      simp [userRepositoryImpl.GetByID, dbCall, hf, hx]
  · simp [userRepositoryImpl.GetByID, dbCall, hf]

@[simp] theorem userRepositoryImpl_GetByEmail_fst_eq_ok (email : String) (w : World) (x : User) :
    (userRepositoryImpl.GetByEmail email w).1 = .ok x ↔
      w.nextFault = false ∧ w.store.users.find? (fun u => u.email == email) = some x := by
  cases hf : w.nextFault
  · cases hx : w.store.users.find? (fun u => u.email == email) <;>
      simp [userRepositoryImpl.GetByEmail, dbCall, hf, hx]
  · simp [userRepositoryImpl.GetByEmail, dbCall, hf]

@[simp] theorem userAuthRepositoryImpl_GetByUserID_fst_eq_ok (userID : UUID) (w : World) (x : UserAuth) :
    (userAuthRepositoryImpl.GetByUserID userID w).1 = .ok x ↔
      w.nextFault = false ∧ w.store.userAuths.find? (fun a => a.userID == userID) = some x := by
  cases hf : w.nextFault
  · cases hx : w.store.userAuths.find? (fun a => a.userID == userID) <;>
      simp [userAuthRepositoryImpl.GetByUserID, dbCall, hf, hx]
  · simp [userAuthRepositoryImpl.GetByUserID, dbCall, hf]

@[simp] theorem refreshTokenRepositoryImpl_GetByToken_fst_eq_ok (tokenStr : String) (w : World) (x : RefreshToken) :
    (refreshTokenRepositoryImpl.GetByToken tokenStr w).1 = .ok x ↔
      w.nextFault = false ∧ w.store.refreshTokens.find? (fun r => r.token == tokenStr) = some x := by
  cases hf : w.nextFault
  · cases hx : w.store.refreshTokens.find? (fun r => r.token == tokenStr) <;>
      simp [refreshTokenRepositoryImpl.GetByToken, dbCall, hf, hx]
  · simp [refreshTokenRepositoryImpl.GetByToken, dbCall, hf]

@[simp] theorem emailVerificationRepositoryImpl_GetByToken_fst_eq_ok (token : String) (w : World) (x : EmailVerification) :
    (emailVerificationRepositoryImpl.GetByToken token w).1 = .ok x ↔
      w.nextFault = false ∧ w.store.emailVerifications.find? (fun r => r.token == token) = some x := by
  cases hf : w.nextFault
  · cases hx : w.store.emailVerifications.find? (fun r => r.token == token) <;>
      simp [emailVerificationRepositoryImpl.GetByToken, dbCall, hf, hx]
  · simp [emailVerificationRepositoryImpl.GetByToken, dbCall, hf]

@[simp] theorem passwordResetRepositoryImpl_GetByToken_fst_eq_ok (token : String) (w : World) (x : PasswordReset) :
    (passwordResetRepositoryImpl.GetByToken token w).1 = .ok x ↔
      w.nextFault = false ∧ w.store.passwordResets.find? (fun r => r.token == token) = some x := by
  cases hf : w.nextFault
  · cases hx : w.store.passwordResets.find? (fun r => r.token == token) <;>
      simp [passwordResetRepositoryImpl.GetByToken, dbCall, hf, hx]
  · simp [passwordResetRepositoryImpl.GetByToken, dbCall, hf]

@[simp] theorem userRepositoryImpl_ExistsByEmail_fst_eq_ok (email : String) (w : World) (x : Bool) :
    (userRepositoryImpl.ExistsByEmail email w).1 = .ok x ↔
      w.nextFault = false ∧
        w.store.users.any (fun u => u.email == email) = x := by
  cases hf : w.nextFault <;> simp [userRepositoryImpl.ExistsByEmail, dbCall, hf]

@[simp] theorem userRepositoryImpl_ExistsByUsername_fst_eq_ok (username : String) (w : World) (x : Bool) :
    (userRepositoryImpl.ExistsByUsername username w).1 = .ok x ↔
      w.nextFault = false ∧
        w.store.users.any (fun u => u.username == username) = x := by
  cases hf : w.nextFault <;> simp [userRepositoryImpl.ExistsByUsername, dbCall, hf]

theorem userRoleRepositoryImpl_GetByUserID_fst_eq_ok (userID : UUID) (w : World) (x : List UserRole) :
    (userRoleRepositoryImpl.GetByUserID userID w).1 = .ok x ↔
      (w.nextFault = false ∧
        orderByDesc (fun r => r.grantedAt)
          (w.store.userRoles.filter (fun r => r.userID == userID)) = x) ∨
      (w.nextFault = true ∧ ∃ n, w.nextCut = some n ∧
        (orderByDesc (fun r => r.grantedAt)
          (w.store.userRoles.filter (fun r => r.userID == userID))).take n = x) := by
  cases hf : w.nextFault <;> cases hcut : w.nextCut <;>
    simp [userRoleRepositoryImpl.GetByUserID, dbCall, hf, hcut]

theorem refreshTokenRepositoryImpl_GetByUserID_fst_eq_ok (userID : UUID) (w : World) (x : List RefreshToken) :
    (refreshTokenRepositoryImpl.GetByUserID userID w).1 = .ok x ↔
      (w.nextFault = false ∧
        orderByDesc (fun r => r.createdAt)
          (w.store.refreshTokens.filter (fun r => r.userID == userID)) = x) ∨
      (w.nextFault = true ∧ ∃ n, w.nextCut = some n ∧
        (orderByDesc (fun r => r.createdAt)
          (w.store.refreshTokens.filter (fun r => r.userID == userID))).take n = x) := by
  cases hf : w.nextFault <;> cases hcut : w.nextCut <;>
    simp [refreshTokenRepositoryImpl.GetByUserID, dbCall, hf, hcut]


/-! ### Outcomes of `VerifyEmail` under any fault schedule -/

@[simp] theorem World.afterCall_afterTick_clock (w : World) :
    w.afterCall.afterTick.clock = w.afterTick.clock := rfl

/-- Every outcome of `VerifyEmail`, whatever statements fail: either an error with the
store untouched, or the token was found valid, its user unverified, the user row was
updated, and the call succeeds exactly when the statement marking the token is
answered; only then is the token marked. -/
theorem AuthService.VerifyEmail_outcome (token : String) (w : World) :
    ((AuthService.VerifyEmail token w).2.store = w.store ∧
      ∃ err, (AuthService.VerifyEmail token w).1 = .error err) ∨
    ∃ v u, w.store.emailVerifications.find? (fun r => r.token == token) = some v ∧
      v.isUsed = false ∧ w.clock ≤ v.expiresAt ∧
      w.store.users.find? (fun x => x.id == v.userID) = some u ∧ u.isVerified = false ∧
      w.faultAt 0 = false ∧ w.faultAt 1 = false ∧ w.faultAt 2 = false ∧
      (AuthService.VerifyEmail token w).1 =
        (if w.faultAt 3 then .error .driver else .ok ()) ∧
      (AuthService.VerifyEmail token w).2.store.users =
        w.store.users.map (fun x => if x.id == u.id then
          { x with email := u.email, username := u.username, displayName := u.displayName,
                   isVerified := true, isActive := u.isActive,
                   updatedAt := w.afterTick.clock } else x) ∧
      (AuthService.VerifyEmail token w).2.store.emailVerifications =
        (if w.faultAt 3 then w.store.emailVerifications
         else w.store.emailVerifications.map (fun r => if r.id == v.id then
          { r with isUsed := true } else r)) := by
  unfold AuthService.VerifyEmail
  cases hf0 : w.nextFault with
  | true =>
    left
    rw [emailVerificationRepositoryImpl_GetByToken_of_fault token w hf0]
    simp
  | false =>
  cases hfind : w.store.emailVerifications.find? (fun r => r.token == token) with
  | none =>
    left
    rw [emailVerificationRepositoryImpl_GetByToken_of_absent token w hf0 hfind]
    simp
  | some v =>
  rw [emailVerificationRepositoryImpl_GetByToken_of_found token w v hf0 hfind]
  cases hused : v.isUsed with
  | true => left; simp [hused]
  | false =>
  by_cases hle : w.clock ≤ v.expiresAt
  swap
  · left; simp [hused, hle]
  simp only [EmailVerification_IsValid_fst, EmailVerification_IsValid_snd, hused, hle,
    World.afterCall_clock, decide_True, Bool.not_false, Bool.and_self, Bool.not_true, Bool.false_eq_true, if_false]
  cases hf1 : w.afterCall.nextFault with
  | true =>
    left
    rw [userRepositoryImpl_GetByID_of_fault _ _ (by simpa using hf1)]
    simp
  | false =>
  cases hu : w.store.users.find? (fun x => x.id == v.userID) with
  | none =>
    left
    rw [userRepositoryImpl_GetByID_of_absent _ _ (by simpa using hf1) (by simpa using hu)]
    simp
  | some u =>
  rw [userRepositoryImpl_GetByID_of_found _ _ u (by simpa using hf1) (by simpa using hu)]
  cases hver : u.isVerified with
  | true => left; simp [hver]
  | false =>
  simp only [hver, Bool.false_eq_true, if_false, User.SetVerified, time.Now]
  cases hf2 : w.afterCall.afterCall.nextFault with
  | true =>
    left
    rw [userRepositoryImpl_Update_of_fault _ _ (by simpa using hf2)]
    simp
  | false =>
  have huid : u.id = v.userID := by simpa using List.find?_some hu
  rw [userRepositoryImpl_Update_of_present _ _ (by simpa using hf2)
    (by simpa [huid] using List.any_of_find?_eq_some _ _ _ hu)]
  right
  refine ⟨v, u, rfl, hused, hle, hu, hver, hf0, ?_, ?_, ?_⟩
  · rw [World.faultAt_one]; exact hf1
  · rw [World.faultAt_two]; exact hf2
  have hany : (w.store.emailVerifications.any fun r => r.id == v.id) = true :=
    List.any_eq_true.mpr ⟨v, List.mem_of_find?_eq_some hfind, by simp⟩
  have hany2 : ∃ x ∈ w.store.emailVerifications, x.id = v.id := by simpa using hany
  cases hf3 : w.afterCall.afterCall.afterCall.nextFault <;>
    simp [World.faultAt_three, hf2, hf3, EmailVerification.SetUsed, hany2]

/-! ### Outcomes of `RevokeAllUserTokens` and `ResetPassword` under any fault schedule -/

/-- Whatever updates fail, the loop of `RevokeAllUserTokens` only sets revoked flags. -/
theorem AuthService.revokeEach_store (tokens : List RefreshToken) (w : World) :
    ∃ p, (AuthService.revokeEach tokens w).store =
      w.store.mapRefreshTokens (RefreshToken.revokeIfId p) := by
  induction tokens generalizing w with
  | nil =>
    refine ⟨fun _ => false, ?_⟩
    rw [Store.mapRefreshTokens_self]
    · rfl
    · intro r _
      exact RefreshToken.revokeIfId_of_false _ _ rfl
  | cons t ts ih =>
    unfold AuthService.revokeEach
    cases ht : t.isRevoked
    · simp only [Bool.not_false, if_true]
      obtain ⟨p, hp⟩ := ih (refreshTokenRepositoryImpl.Update (t.SetRevoked true) w).2
      rw [hp, refreshTokenRepositoryImpl_Update_SetRevoked_snd]
      cases hf : w.nextFault
      · refine ⟨fun i => i == t.id || p i, ?_⟩
        simp [Store.mapRefreshTokens_mapRefreshTokens, RefreshToken.revokeIfId_revokeIfId]
      · exact ⟨p, by simp⟩
    · simp only [Bool.not_true, Bool.false_eq_true, if_false]
      exact ih w

/-- Whatever statements fail, `RevokeAllUserTokens` only sets revoked flags; it returns no
error or the driver error of its query, and no error when the query is answered. -/
theorem AuthService.RevokeAllUserTokens_outcome (userID : UUID) (w : World) :
    ((AuthService.RevokeAllUserTokens userID w).1 = .ok () ∨
      (AuthService.RevokeAllUserTokens userID w).1 = .error .driver) ∧
    (w.nextFault = false → (AuthService.RevokeAllUserTokens userID w).1 = .ok ()) ∧
    ∃ p, (AuthService.RevokeAllUserTokens userID w).2.store =
      w.store.mapRefreshTokens (RefreshToken.revokeIfId p) := by
  unfold AuthService.RevokeAllUserTokens
  cases hf : w.nextFault
  · rw [refreshTokenRepositoryImpl_GetByUserID_of_answered _ _ hf]
    obtain ⟨p, hp⟩ := AuthService.revokeEach_store
      (orderByDesc (fun t => t.createdAt)
        (w.store.refreshTokens.filter (fun t => t.userID == userID))) w.afterCall
    exact ⟨Or.inl rfl, fun _ => rfl, p, by simpa using hp⟩
  · cases hcut : w.nextCut with
    | none =>
      rw [refreshTokenRepositoryImpl_GetByUserID_of_fault _ _ hf hcut]
      refine ⟨Or.inr rfl, (fun h => by cases h), fun _ => false, ?_⟩
      rw [Store.mapRefreshTokens_self]
      · rfl
      · intro r _
        exact RefreshToken.revokeIfId_of_false _ _ rfl
    | some n =>
      rw [refreshTokenRepositoryImpl_GetByUserID_of_cut _ _ n hf hcut]
      obtain ⟨p, hp⟩ := AuthService.revokeEach_store
        ((orderByDesc (fun t => t.createdAt)
          (w.store.refreshTokens.filter (fun t => t.userID == userID))).take n) w.afterCall
      exact ⟨Or.inl rfl, (fun h => by cases h), p, by simpa using hp⟩

@[simp] theorem RefreshToken.revokeIfId_const_false :
    RefreshToken.revokeIfId (fun _ => false) = fun r => r := by
  funext r
  exact RefreshToken.revokeIfId_of_false _ _ rfl

/-- Every outcome of `ResetPassword`, whatever statements fail: either an error with the
store untouched, or the token was found valid, the new hash was stored, and the token is
marked exactly when the marking statement is answered; the sessions are touched only
after the token is marked, and only by setting revoked flags. -/
theorem AuthService.ResetPassword_outcome (H : Hasher) (token newPassword : String)
    (w : World) :
    ((AuthService.ResetPassword H token newPassword w).2.store = w.store ∧
      ∃ err, (AuthService.ResetPassword H token newPassword w).1 = .error err) ∨
    ∃ reset userAuth hashed,
      w.store.passwordResets.find? (fun r => r.token == token) = some reset ∧
      reset.isUsed = false ∧ w.clock ≤ reset.expiresAt ∧
      w.store.userAuths.find? (fun a => a.userID == reset.userID) = some userAuth ∧
      H.GenerateFromPassword w.nextSalt newPassword = .ok hashed ∧
      w.faultAt 0 = false ∧ w.faultAt 1 = false ∧ w.faultAt 2 = false ∧
      ((w.faultAt 3 = true →
          (AuthService.ResetPassword H token newPassword w).1 = .error .driver) ∧
        (w.faultAt 3 = false → w.faultAt 4 = false →
          (AuthService.ResetPassword H token newPassword w).1 = .ok ())) ∧
      (AuthService.ResetPassword H token newPassword w).2.store.userAuths =
        w.store.userAuths.map (fun a => if a.userID == reset.userID then
          { a with passwordHash := hashed, lastLoginAt := userAuth.lastLoginAt,
                   updatedAt := w.afterTick.clock } else a) ∧
      (AuthService.ResetPassword H token newPassword w).2.store.passwordResets =
        (if w.faultAt 3 then w.store.passwordResets
         else w.store.passwordResets.map (fun r => if r.id == reset.id then
          { r with isUsed := true } else r)) ∧
      ∃ p : UUID → Bool, (AuthService.ResetPassword H token newPassword w).2.store.refreshTokens =
        w.store.refreshTokens.map
          (RefreshToken.revokeIfId (fun i => !w.faultAt 3 && p i)) := by
  unfold AuthService.ResetPassword
  cases hf0 : w.nextFault with
  | true =>
    left
    rw [passwordResetRepositoryImpl_GetByToken_of_fault token w hf0]
    simp
  | false =>
  cases hfind : w.store.passwordResets.find? (fun r => r.token == token) with
  | none =>
    left
    rw [passwordResetRepositoryImpl_GetByToken_of_absent token w hf0 hfind]
    simp
  | some reset =>
  rw [passwordResetRepositoryImpl_GetByToken_of_found token w reset hf0 hfind]
  cases hused : reset.isUsed with
  | true => left; simp [hused]
  | false =>
  by_cases hle : w.clock ≤ reset.expiresAt
  swap
  · left; simp [hused, hle]
  simp only [PasswordReset_IsValid_fst, PasswordReset_IsValid_snd, hused, hle,
    World.afterCall_clock, decide_True, Bool.not_false, Bool.and_self, Bool.not_true,
    Bool.false_eq_true, if_false, HashPassword, World.afterTick_nextSalt,
    World.afterCall_nextSalt]
  cases hhash : H.GenerateFromPassword w.nextSalt newPassword with
  | error e => left; simp
  | ok hashed =>
  simp only []
  cases hf1 : w.afterCall.nextFault with
  | true =>
    left
    rw [userAuthRepositoryImpl_GetByUserID_of_fault _ _ (by simpa using hf1)]
    simp
  | false =>
  cases hauth : w.store.userAuths.find? (fun a => a.userID == reset.userID) with
  | none =>
    left
    rw [userAuthRepositoryImpl_GetByUserID_of_absent _ _ (by simpa using hf1)
      (by simpa using hauth)]
    simp
  | some userAuth =>
  rw [userAuthRepositoryImpl_GetByUserID_of_found _ _ userAuth (by simpa using hf1)
    (by simpa using hauth)]
  simp only [UserAuth.SetPasswordHash, time.Now]
  cases hf2 : w.afterCall.afterCall.nextFault with
  | true =>
    left
    rw [userAuthRepositoryImpl_Update_of_fault _ _ (by simpa using hf2)]
    simp
  | false =>
  have hu : userAuth.userID = reset.userID := by simpa using List.find?_some hauth
  rw [userAuthRepositoryImpl_Update_of_present _ _ (by simpa using hf2)
    (by simpa [hu] using List.any_of_find?_eq_some _ _ _ hauth)]
  right
  refine ⟨reset, userAuth, hashed, rfl, hused, hle, hauth, rfl, hf0, ?_, ?_, ?_⟩
  · rw [World.faultAt_one]; exact hf1
  · rw [World.faultAt_two]; exact hf2
  have hany : ∃ x ∈ w.store.passwordResets, x.id = reset.id :=
    ⟨reset, List.mem_of_find?_eq_some hfind, rfl⟩
  simp only []
  cases hf3 : w.afterCall.afterCall.afterCall.nextFault with
  | true =>
    rw [passwordResetRepositoryImpl_Update_of_fault _ _ (by simpa using hf3)]
    refine ⟨?_, ?_, ?_, fun _ => false, ?_⟩ <;>
      simp [World.faultAt_three, hf2, hf3, hu, RefreshToken.revokeIfId]
  | false =>
    rw [passwordResetRepositoryImpl_Update_of_present _ _ (by simpa using hf3)
      (by simpa [PasswordReset.SetUsed, hf2] using hany)]
    simp only []
    obtain ⟨-, hans, p, hp⟩ := AuthService.RevokeAllUserTokens_outcome reset.userID
      (passwordResetRepositoryImpl.Update (reset.SetUsed true)
        (userAuthRepositoryImpl.Update
          { id := userAuth.id, userID := userAuth.userID, passwordHash := hashed,
            lastLoginAt := userAuth.lastLoginAt, createdAt := userAuth.createdAt,
            updatedAt := w.afterCall.afterTick.afterSalt.afterCall.clock }
          w.afterCall.afterTick.afterSalt.afterCall.afterTick).2).2
    refine ⟨⟨fun h => ?_, fun _ h4 => ?_⟩, ?_, ?_, p, ?_⟩
    · simp [World.faultAt_three, hf2, hf3] at h
    · rw [hans (by simpa [World.faultAt_four, hf2, hf3] using h4)]
    · rw [hp]
      simp [World.faultAt_three, hf2, hf3, hu]
    · rw [hp]
      simp [World.faultAt_three, hf2, hf3, hu, PasswordReset.SetUsed]
    · rw [hp]
      simp [World.faultAt_three, hf2, hf3, hu]

/-! ### One-time tokens -/

theorem find?_map_of_preserving {α : Type} (l : List α) (p : α → Bool) (f : α → α)
    (hp : ∀ x, p (f x) = p x) : (l.map f).find? p = (l.find? p).map f := by
  induction l with
  | nil => rfl
  | cons a l ih =>
    simp only [List.map_cons, List.find?_cons, hp]
    cases p a
    · simpa using ih
    · rfl

/-- A reset token that is stored as used: `ResetPassword` changes nothing and fails, with
`ErrPasswordResetInvalid` when the lookup is answered. -/
theorem AuthService.ResetPassword_of_used (H : Hasher) (token newPassword : String)
    (w : World) (reset : PasswordReset)
    (hfind : w.store.passwordResets.find? (fun r => r.token == token) = some reset)
    (hused : reset.isUsed = true) :
    (AuthService.ResetPassword H token newPassword w).2.store = w.store ∧
    (∃ err, (AuthService.ResetPassword H token newPassword w).1 = .error err) ∧
    (w.nextFault = false →
      (AuthService.ResetPassword H token newPassword w).1 = .error .ErrPasswordResetInvalid) := by
  unfold AuthService.ResetPassword
  cases hf : w.nextFault
  · rw [passwordResetRepositoryImpl_GetByToken_of_found token w reset hf hfind]
    simp [hused]
  · rw [passwordResetRepositoryImpl_GetByToken_of_fault token w hf]
    simp

/-- A verification token that is stored as used: `VerifyEmail` changes nothing and fails,
with `ErrEmailVerificationInvalid` when the lookup is answered. -/
theorem AuthService.VerifyEmail_of_used (token : String) (w : World) (v : EmailVerification)
    (hfind : w.store.emailVerifications.find? (fun r => r.token == token) = some v)
    (hused : v.isUsed = true) :
    (AuthService.VerifyEmail token w).2.store = w.store ∧
    (∃ err, (AuthService.VerifyEmail token w).1 = .error err) ∧
    (w.nextFault = false →
      (AuthService.VerifyEmail token w).1 = .error .ErrEmailVerificationInvalid) := by
  unfold AuthService.VerifyEmail
  cases hf : w.nextFault
  · rw [emailVerificationRepositoryImpl_GetByToken_of_found token w v hf hfind]
    simp [hused]
  · rw [emailVerificationRepositoryImpl_GetByToken_of_fault token w hf]
    simp

/-- After a successful `ResetPassword` the row the secret selects is marked used. -/
theorem AuthService.ResetPassword_ok_marks (H : Hasher) (token newPassword : String)
    (w : World) (hok : (AuthService.ResetPassword H token newPassword w).1 = .ok ()) :
    ∃ reset, (AuthService.ResetPassword H token newPassword w).2.store.passwordResets.find?
      (fun r => r.token == token) = some reset ∧ reset.isUsed = true := by
  rcases AuthService.ResetPassword_outcome H token newPassword w with
    ⟨-, err, herr⟩ | ⟨reset, -, -, hfind, -, -, -, -, -, -, -, hres, -, hmark, -⟩
  · rw [herr] at hok
    cases hok
  · cases hf3 : w.faultAt 3
    · rw [hmark, hf3]
      simp only [Bool.false_eq_true, if_false]
      rw [find?_map_of_preserving _ _ _ (by intro x; split <;> rfl), hfind]
      exact ⟨_, rfl, by simp⟩
    · rw [hres.1 hf3] at hok
      cases hok

/-- After a successful `VerifyEmail` the row the secret selects is marked used. -/
theorem AuthService.VerifyEmail_ok_marks (token : String) (w : World)
    (hok : (AuthService.VerifyEmail token w).1 = .ok ()) :
    ∃ v, (AuthService.VerifyEmail token w).2.store.emailVerifications.find?
      (fun r => r.token == token) = some v ∧ v.isUsed = true := by
  rcases AuthService.VerifyEmail_outcome token w with
    ⟨-, err, herr⟩ | ⟨v, -, hfind, -, -, -, -, -, -, -, hres, -, hmark⟩
  · rw [herr] at hok
    cases hok
  · cases hf3 : w.faultAt 3
    · rw [hmark, hf3]
      simp only [Bool.false_eq_true, if_false]
      rw [find?_map_of_preserving _ _ _ (by intro x; split <;> rfl), hfind]
      exact ⟨_, rfl, by simp⟩
    · rw [hres, hf3] at hok
      simp at hok

/-- C11: one-time tokens are single-use. After `ResetPassword` with a token succeeded, a
repeated `ResetPassword` with the same token (any new password, from any world that holds
the resulting store) changes nothing in the store and fails, with
`ErrPasswordResetInvalid` whenever its lookup is answered by the database; likewise after
`VerifyEmail` with a token succeeded, a repeated `VerifyEmail` with the same token changes
nothing and fails, with `ErrEmailVerificationInvalid`. -/
theorem one_time_token_is_single_use (H : Hasher) (token p q : String) (w : World) :
    ((AuthService.ResetPassword H token p w).1 = .ok () →
      ∀ w2 : World, w2.store = (AuthService.ResetPassword H token p w).2.store →
        (AuthService.ResetPassword H token q w2).2.store = w2.store ∧
        (∃ err, (AuthService.ResetPassword H token q w2).1 = .error err) ∧
        (w2.nextFault = false →
          (AuthService.ResetPassword H token q w2).1 = .error .ErrPasswordResetInvalid)) ∧
    ((AuthService.VerifyEmail token w).1 = .ok () →
      ∀ w2 : World, w2.store = (AuthService.VerifyEmail token w).2.store →
        (AuthService.VerifyEmail token w2).2.store = w2.store ∧
        (∃ err, (AuthService.VerifyEmail token w2).1 = .error err) ∧
        (w2.nextFault = false →
          (AuthService.VerifyEmail token w2).1 = .error .ErrEmailVerificationInvalid)) := by
  constructor
  · intro hok w2 hw2
    obtain ⟨reset, hfind, hused⟩ := AuthService.ResetPassword_ok_marks H token p w hok
    exact AuthService.ResetPassword_of_used H token q w2 reset (by rw [hw2]; exact hfind) hused
  · intro hok w2 hw2
    obtain ⟨v, hfind, hused⟩ := AuthService.VerifyEmail_ok_marks token w hok
    exact AuthService.VerifyEmail_of_used token w2 v (by rw [hw2]; exact hfind) hused

/-- C11, at a concrete store: user 7 resets the password with the token `r` and verifies
the email address with the token `v`; the immediate repetition of either call fails with
the invalid-token error and leaves the store as the first call left it. -/
theorem one_time_token_is_single_use_witness :
    (AuthService.ResetPassword toyHasher "r" "NewPass1!" (tokenWorld [])).1 = .ok () ∧
    (AuthService.ResetPassword toyHasher "r" "Other1!"
      (AuthService.ResetPassword toyHasher "r" "NewPass1!" (tokenWorld [])).2).1 =
        .error .ErrPasswordResetInvalid ∧
    (AuthService.ResetPassword toyHasher "r" "Other1!"
      (AuthService.ResetPassword toyHasher "r" "NewPass1!" (tokenWorld [])).2).2.store =
        (AuthService.ResetPassword toyHasher "r" "NewPass1!" (tokenWorld [])).2.store ∧
    (AuthService.VerifyEmail "v" (tokenWorld [])).1 = .ok () ∧
    (AuthService.VerifyEmail "v" (AuthService.VerifyEmail "v" (tokenWorld [])).2).1 =
        .error .ErrEmailVerificationInvalid ∧
    (AuthService.VerifyEmail "v" (AuthService.VerifyEmail "v" (tokenWorld [])).2).2.store =
        (AuthService.VerifyEmail "v" (tokenWorld [])).2.store := by
  have hr := (one_time_token_is_single_use toyHasher "r" "NewPass1!" "Other1!"
    (tokenWorld [])).1 (by decide) _ rfl
  have hv := (one_time_token_is_single_use toyHasher "v" "NewPass1!" "Other1!"
    (tokenWorld [])).2 (by decide) _ rfl
  exact ⟨by decide, hr.2.2 (by decide), hr.1, by decide, hv.2.2 (by decide), hv.1⟩

/-! ### Marking a token used and the side effect -/

/-- C12 (as stated) fails: the token lookup, the user lookup and the update of the user
succeed, then the statement that marks the verification token used fails. `VerifyEmail`
returns the driver error: user 7 is stored as verified, while the token is still unused;
and after the corresponding failure in `ResetPassword` the new password hash is stored
while the reset token is still unused. -/
theorem side_effect_persisted_but_token_unused :
    (tokenWorld [false, false, false, true]).store.users.map (fun u => u.isVerified) =
      [false] ∧
    (tokenWorld [false, false, false, true]).store.userAuths.map (fun a => a.passwordHash) =
      ["bcrypt:OldPass1!"] ∧
    (AuthService.VerifyEmail "v" (tokenWorld [false, false, false, true])).1 =
      .error .driver ∧
    (AuthService.VerifyEmail "v" (tokenWorld [false, false, false, true])).2.store.users.map
        (fun u => u.isVerified) = [true] ∧
    (AuthService.VerifyEmail "v"
      (tokenWorld [false, false, false, true])).2.store.emailVerifications =
      [verificationA] ∧
    verificationA.isUsed = false ∧
    (AuthService.ResetPassword toyHasher "r" "NewPass1!"
      (tokenWorld [false, false, false, true])).1 = .error .driver ∧
    (AuthService.ResetPassword toyHasher "r" "NewPass1!"
      (tokenWorld [false, false, false, true])).2.store.userAuths.map
        (fun a => a.passwordHash) = ["bcrypt:NewPass1!"] ∧
    (AuthService.ResetPassword toyHasher "r" "NewPass1!"
      (tokenWorld [false, false, false, true])).2.store.passwordResets = [resetA] ∧
    resetA.isUsed = false := by
  decide

/-- C12 (amended): every call of `VerifyEmail` and of `ResetPassword` ends in one of
three ways. Either it returns an error and the store is unchanged (no side effect, token
as before); or the side effect is persisted (every row of the user is verified,
respectively carries the new hash), the call returns a driver error and the token table
is unchanged, which happens when the statement that marks the token fails; or the side
effect is persisted and the token the secret selects is marked used. So a token is
marked only with its side effect persisted, and a failed side effect leaves the token
unused with an error returned; a persisted side effect does not imply a marked token. -/
theorem token_marked_only_with_side_effect (H : Hasher) (token newPassword : String)
    (w : World) :
    (((AuthService.VerifyEmail token w).2.store = w.store ∧
        ∃ err, (AuthService.VerifyEmail token w).1 = .error err) ∨
      ∃ v, w.store.emailVerifications.find? (fun r => r.token == token) = some v ∧
        v.isUsed = false ∧
        (∀ x ∈ (AuthService.VerifyEmail token w).2.store.users,
          x.id = v.userID → x.isVerified = true) ∧
        (((AuthService.VerifyEmail token w).1 = .error .driver ∧
          (AuthService.VerifyEmail token w).2.store.emailVerifications =
            w.store.emailVerifications) ∨
         ((AuthService.VerifyEmail token w).1 = .ok () ∧
          (AuthService.VerifyEmail token w).2.store.emailVerifications.find?
            (fun r => r.token == token) = some { v with isUsed := true }))) ∧
    (((AuthService.ResetPassword H token newPassword w).2.store = w.store ∧
        ∃ err, (AuthService.ResetPassword H token newPassword w).1 = .error err) ∨
      ∃ reset hashed, w.store.passwordResets.find? (fun r => r.token == token) = some reset ∧
        reset.isUsed = false ∧
        H.GenerateFromPassword w.nextSalt newPassword = .ok hashed ∧
        (∀ a ∈ (AuthService.ResetPassword H token newPassword w).2.store.userAuths,
          a.userID = reset.userID → a.passwordHash = hashed) ∧
        (((AuthService.ResetPassword H token newPassword w).1 = .error .driver ∧
          (AuthService.ResetPassword H token newPassword w).2.store.passwordResets =
            w.store.passwordResets) ∨
         (AuthService.ResetPassword H token newPassword w).2.store.passwordResets.find?
            (fun r => r.token == token) = some { reset with isUsed := true })) := by
  constructor
  · rcases AuthService.VerifyEmail_outcome token w with
      h | ⟨v, u, hfind, hused, -, hu, -, -, -, -, hres, husers, hmark⟩
    · exact Or.inl h
    · have huid : u.id = v.userID := by simpa using List.find?_some hu
      refine Or.inr ⟨v, hfind, hused, ?_, ?_⟩
      · rw [husers]
        intro x hx hxid
        obtain ⟨y, -, rfl⟩ := List.mem_map.mp hx
        by_cases hy : y.id = u.id
        · simp [hy]
        · simp [hy] at hxid
          exact absurd (hxid.trans huid.symm) hy
      · cases hf3 : w.faultAt 3
        · right
          rw [hres, hmark, hf3]
          simp only [Bool.false_eq_true, if_false]
          rw [find?_map_of_preserving _ _ _ (by intro x; split <;> rfl), hfind]
          simp
        · left
          rw [hres, hmark, hf3]
          simp
  · rcases AuthService.ResetPassword_outcome H token newPassword w with
      h | ⟨reset, userAuth, hashed, hfind, hused, -, -, hhash, -, -, -, hres, hauths, hmark, -⟩
    · exact Or.inl h
    · refine Or.inr ⟨reset, hashed, hfind, hused, hhash, ?_, ?_⟩
      · rw [hauths]
        intro a ha haid
        obtain ⟨y, -, rfl⟩ := List.mem_map.mp ha
        by_cases hy : y.userID = reset.userID
        · simp [hy]
        · simp [hy] at haid
      · cases hf3 : w.faultAt 3
        · right
          rw [hmark, hf3]
          simp only [Bool.false_eq_true, if_false]
          rw [find?_map_of_preserving _ _ _ (by intro x; split <;> rfl), hfind]
          simp
        · left
          rw [hres.1 hf3, hmark, hf3]
          simp

/-! ### Verification of an already verified user -/

/-- C13: for a verification token that is stored unused and not expired and whose user is
already verified, `VerifyEmail` fails and leaves the whole store unchanged (the token
stays unused, the user record is as before), whatever statements fail; when the two
lookups are answered by the database the error is `ErrEmailAlreadyVerified`. -/
theorem verifyEmail_already_verified_keeps_token (token : String) (w : World)
    (v : EmailVerification) (u : User)
    (hfind : w.store.emailVerifications.find? (fun r => r.token == token) = some v)
    (hused : v.isUsed = false) (hle : w.clock ≤ v.expiresAt)
    (hu : w.store.users.find? (fun x => x.id == v.userID) = some u)
    (hver : u.isVerified = true) :
    (AuthService.VerifyEmail token w).2.store = w.store ∧
    (∃ err, (AuthService.VerifyEmail token w).1 = .error err) ∧
    (w.faultAt 0 = false → w.faultAt 1 = false →
      (AuthService.VerifyEmail token w).1 = .error .ErrEmailAlreadyVerified) ∧
    (AuthService.VerifyEmail token w).2.store.emailVerifications.find?
      (fun r => r.token == token) = some v ∧
    (AuthService.VerifyEmail token w).2.store.users.find?
      (fun x => x.id == v.userID) = some u := by
  have hstore : (AuthService.VerifyEmail token w).2.store = w.store ∧
      ∃ err, (AuthService.VerifyEmail token w).1 = .error err := by
    rcases AuthService.VerifyEmail_outcome token w with
      h | ⟨v2, u2, hfind2, -, -, hu2, hver2, -⟩
    · exact h
    · rw [hfind] at hfind2
      cases hfind2
      rw [hu] at hu2
      cases hu2
      rw [hver] at hver2
      cases hver2
  refine ⟨hstore.1, hstore.2, ?_, by rw [hstore.1]; exact hfind, by rw [hstore.1]; exact hu⟩
  intro hf0 hf1
  rw [World.faultAt_one] at hf1
  unfold AuthService.VerifyEmail
  rw [emailVerificationRepositoryImpl_GetByToken_of_found token w v hf0 hfind]
  simp only [EmailVerification_IsValid_fst, EmailVerification_IsValid_snd, hused, hle,
    World.afterCall_clock, decide_True, Bool.not_false, Bool.and_self, Bool.not_true,
    Bool.false_eq_true, if_false]
  rw [userRepositoryImpl_GetByID_of_found _ _ u (by simpa using hf1) (by simpa using hu)]
  simp [hver]

/-- C13, at a concrete store: user 7 is verified and presents the unused token `v`. -/
theorem verifyEmail_already_verified_keeps_token_witness :
    (AuthService.VerifyEmail "v" (verifiedWorld [])).1 = .error .ErrEmailAlreadyVerified ∧
    (AuthService.VerifyEmail "v" (verifiedWorld [])).2.store = (verifiedWorld []).store ∧
    (AuthService.VerifyEmail "v" (verifiedWorld [])).2.store.emailVerifications.find?
      (fun r => r.token == "v") = some verificationA ∧
    verificationA.isUsed = false := by
  have key := verifyEmail_already_verified_keeps_token "v" (verifiedWorld []) verificationA
    userVerified (by decide) (by decide) (by decide) (by decide) (by decide)
  exact ⟨key.2.2.1 (by decide) (by decide), key.1, key.2.2.2.1, by decide⟩

/-! ### Password-reset initiation does not reveal accounts -/

/-- C14: when no user has the email, or the user with the email is inactive,
`InitiatePasswordReset` returns success and leaves the store unchanged (no reset token is
issued), whatever statements fail. The result does not tell whether the email exists: the
service returns the same success for every email whenever the statement that stores a
token does not fail, and the HTTP handler sends a response that depends on the request
and the clock only, for a request that binds always status 200 with the same message. -/
theorem initiatePasswordReset_hides_existence (isEmail : String → Bool) (email : String)
    (w : World) :
    ((∀ u, w.store.users.find? (fun x => x.email == email) = some u → u.isActive = false) →
      (AuthService.InitiatePasswordReset email w).1 = .ok () ∧
      (AuthService.InitiatePasswordReset email w).2.store = w.store) ∧
    (w.faultAt 1 = false → (AuthService.InitiatePasswordReset email w).1 = .ok ()) ∧
    (∀ (c : Context dto.InitiatePasswordResetRequest) (w2 : World), w2.clock = w.clock →
      (AuthHandler.InitiatePasswordReset isEmail c w2).1 =
        (AuthHandler.InitiatePasswordReset isEmail c w).1) ∧
    (∀ (c : Context dto.InitiatePasswordResetRequest) (req : dto.InitiatePasswordResetRequest),
      ShouldBindJSON.InitiatePasswordResetRequest isEmail c = .ok req →
      (AuthHandler.InitiatePasswordReset isEmail c w).1 =
        { status := 200,
          payload := .message "If the email exists, a password reset link has been sent" }) := by
  refine ⟨?_, ?_, ?_, ?_⟩
  · intro h
    unfold AuthService.InitiatePasswordReset
    cases hf : w.nextFault
    · cases hfind : w.store.users.find? (fun x => x.email == email) with
      | none =>
        rw [userRepositoryImpl_GetByEmail_of_absent email w hf hfind]
        simp
      | some u =>
        rw [userRepositoryImpl_GetByEmail_of_found email w u hf hfind]
        simp [h u hfind]
    · rw [userRepositoryImpl_GetByEmail_of_fault email w hf]
      simp
  · intro hf1
    rw [World.faultAt_one] at hf1
    unfold AuthService.InitiatePasswordReset
    cases hf : w.nextFault
    · cases hfind : w.store.users.find? (fun x => x.email == email) with
      | none =>
        rw [userRepositoryImpl_GetByEmail_of_absent email w hf hfind]
      | some u =>
        rw [userRepositoryImpl_GetByEmail_of_found email w u hf hfind]
        cases hact : u.isActive
        · simp [hact]
        · simp only [AuthService.createPasswordReset, GenerateSecureToken,
            GetExpirationTime_password_reset, NewPasswordReset, uuid.New, time.Now]
          rw [passwordResetRepositoryImpl_Create_of_answered _ _ (by simpa using hf1)]
          simp [hact]
    · rw [userRepositoryImpl_GetByEmail_of_fault email w hf]
  · intro c w2 hclock
    unfold AuthHandler.InitiatePasswordReset
    cases ShouldBindJSON.InitiatePasswordResetRequest isEmail c with
    | error msg => simp [AuthHandler.respondError, time.Now, hclock]
    | ok req => rfl
  · intro c req hbind
    unfold AuthHandler.InitiatePasswordReset
    rw [hbind]

/-- C14, at a concrete store: nobody has the address `nobody@x.com` and user 8 is
inactive; both requests succeed without a reset token, and the handler answers them as
it answers the request for the active user 7. -/
theorem initiatePasswordReset_hides_existence_witness :
    (AuthService.InitiatePasswordReset "nobody@x.com" (loginWorld [])).1 = .ok () ∧
    (AuthService.InitiatePasswordReset "nobody@x.com" (loginWorld [])).2.store =
      (loginWorld []).store ∧
    (AuthService.InitiatePasswordReset "bob@x.com" (loginWorld [])).1 = .ok () ∧
    (AuthService.InitiatePasswordReset "bob@x.com" (loginWorld [])).2.store =
      (loginWorld []).store ∧
    (AuthService.InitiatePasswordReset "alice@x.com" (loginWorld [])).1 = .ok () ∧
    (AuthHandler.InitiatePasswordReset (fun _ => true) (resetRequest "nobody@x.com")
      (loginWorld [])).1 =
      (AuthHandler.InitiatePasswordReset (fun _ => true) (resetRequest "alice@x.com")
        (loginWorld [])).1 := by
  have h1 := (initiatePasswordReset_hides_existence (fun _ => true) "nobody@x.com"
    (loginWorld [])).1 (by decide)
  have h2 := (initiatePasswordReset_hides_existence (fun _ => true) "bob@x.com"
    (loginWorld [])).1 (by decide)
  have h3 := (initiatePasswordReset_hides_existence (fun _ => true) "alice@x.com"
    (loginWorld [])).2.1 (by decide)
  exact ⟨h1.1, h1.2, h2.1, h2.2, h3, by decide⟩

/-! ### Lifetimes of issued tokens -/

/-- C15: at the issue time `now` (the clock reading of `GetExpirationTime`), when the
insert statement is answered by the database: `CreateRefreshToken` returns and stores a
session with expires-at `now + 7 days` and revoked flag false, `createEmailVerification`
stores a token with expires-at `now + 24 hours` and used flag false, and
`createPasswordReset` stores a token with expires-at `now + 1 hour` and used flag false;
each is the one row appended to its table. -/
theorem issued_tokens_expire_after_ttl (userID : UUID) (w : World)
    (hf : w.nextFault = false) :
    (∃ t : RefreshToken, (AuthService.CreateRefreshToken userID w).1 = .ok t ∧
      t.userID = userID ∧ t.expiresAt = w.clock + 7 * 24 * time.Hour ∧
      t.isRevoked = false ∧
      (AuthService.CreateRefreshToken userID w).2.store.refreshTokens =
        w.store.refreshTokens ++ [t]) ∧
    (∃ v : EmailVerification, (AuthService.createEmailVerification userID w).1 = .ok () ∧
      v.userID = userID ∧ v.expiresAt = w.clock + 24 * time.Hour ∧ v.isUsed = false ∧
      (AuthService.createEmailVerification userID w).2.store.emailVerifications =
        w.store.emailVerifications ++ [v]) ∧
    (∃ r : PasswordReset, (AuthService.createPasswordReset userID w).1 = .ok () ∧
      r.userID = userID ∧ r.expiresAt = w.clock + 1 * time.Hour ∧ r.isUsed = false ∧
      (AuthService.createPasswordReset userID w).2.store.passwordResets =
        w.store.passwordResets ++ [r]) := by
  refine ⟨?_, ?_, ?_⟩
  · unfold AuthService.CreateRefreshToken
    simp only [GenerateSecureToken, GetExpirationTime_refresh, NewRefreshToken, uuid.New,
      time.Now]
    rw [refreshTokenRepositoryImpl_Create_of_answered _ _ (by simpa using hf)]
    exact ⟨_, rfl, rfl, rfl, rfl, by simp⟩
  · unfold AuthService.createEmailVerification
    simp only [GenerateSecureToken, GetExpirationTime_email_verification,
      NewEmailVerification, uuid.New, time.Now]
    rw [emailVerificationRepositoryImpl_Create_of_answered _ _ (by simpa using hf)]
    exact ⟨{ id := w.nextUUID, userID := userID, token := w.nextSecret,
             expiresAt := w.clock + 24 * time.Hour, isUsed := false,
             createdAt := w.afterTick.clock }, rfl, rfl, rfl, rfl,
      by simp [TokenExpirationTimes.EmailVerification]⟩
  · unfold AuthService.createPasswordReset
    simp only [GenerateSecureToken, GetExpirationTime_password_reset, NewPasswordReset,
      uuid.New, time.Now]
    rw [passwordResetRepositoryImpl_Create_of_answered _ _ (by simpa using hf)]
    exact ⟨{ id := w.nextUUID, userID := userID, token := w.nextSecret,
             expiresAt := w.clock + 1 * time.Hour, isUsed := false,
             createdAt := w.afterTick.clock }, rfl, rfl, rfl, rfl,
      by simp [TokenExpirationTimes.PasswordReset]⟩

/-- C15, at a concrete store: the three tokens issued for user 7 at instant 50, in
nanoseconds. -/
theorem issued_tokens_expire_after_ttl_witness :
    (∃ t : RefreshToken, (AuthService.CreateRefreshToken 7 (tokenWorld [])).1 = .ok t ∧
      t.expiresAt = 50 + 604800000000000 ∧ t.isRevoked = false) ∧
    (∃ v : EmailVerification,
      (AuthService.createEmailVerification 7 (tokenWorld [])).2.store.emailVerifications =
        [verificationA, v] ∧
      v.expiresAt = 50 + 86400000000000 ∧ v.isUsed = false) ∧
    (∃ r : PasswordReset,
      (AuthService.createPasswordReset 7 (tokenWorld [])).2.store.passwordResets =
        [resetA, r] ∧
      r.expiresAt = 50 + 3600000000000 ∧ r.isUsed = false) := by
  obtain ⟨⟨t, ht, -, hte, htr, -⟩, ⟨v, -, -, hve, hvu, hvs⟩, ⟨r, -, -, hre, hru, hrs⟩⟩ :=
    issued_tokens_expire_after_ttl 7 (tokenWorld []) (by decide)
  exact ⟨⟨t, ht, hte, htr⟩, ⟨v, hvs, hve, hvu⟩, ⟨r, hrs, hre, hru⟩⟩

/-! ### Outcomes of `RegisterUser` under any fault schedule -/

/-- Every outcome of `RegisterUser`. Either the two existence checks, the three inserts of
the user, the credential record and the role grant are answered, the email and the username
are free and the password is hashed: then the new user is returned, the three rows are
appended, and the verification token is appended exactly when its insert is answered. Or
one of these conditions fails and an error is returned. -/
theorem AuthService.RegisterUser_outcome (H : Hasher)
    (email username displayName password : String) (w : World) :
    (w.faultAt 0 = false ∧ w.faultAt 1 = false ∧ w.faultAt 2 = false ∧
      w.faultAt 3 = false ∧ w.faultAt 4 = false ∧
      w.store.users.any (fun u => u.email == email) = false ∧
      w.store.users.any (fun u => u.username == username) = false ∧
      ∃ hashed user, H.GenerateFromPassword w.nextSalt password = .ok hashed ∧
        (AuthService.RegisterUser H email username displayName password w).1 = .ok user ∧
        user.id = w.nextUUID ∧ user.email = email ∧ user.username = username ∧
        user.displayName = displayName ∧ user.isVerified = false ∧ user.isActive = true ∧
        (AuthService.RegisterUser H email username displayName password w).2.store.users =
          w.store.users ++ [user] ∧
        (∃ auth : UserAuth, auth.userID = user.id ∧ auth.passwordHash = hashed ∧
          (AuthService.RegisterUser H email username displayName password w).2.store.userAuths =
            w.store.userAuths ++ [auth]) ∧
        (∃ role : UserRole, role.userID = user.id ∧ role.role = RoleUser ∧
          role.isActive = true ∧
          (AuthService.RegisterUser H email username displayName password w).2.store.userRoles =
            w.store.userRoles ++ [role]) ∧
        (∃ v : EmailVerification, v.userID = user.id ∧ v.isUsed = false ∧
          (AuthService.RegisterUser H email username displayName password
              w).2.store.emailVerifications =
            if w.faultAt 5 then w.store.emailVerifications
            else w.store.emailVerifications ++ [v])) ∨
    ((w.faultAt 0 = true ∨ w.faultAt 1 = true ∨ w.faultAt 2 = true ∨ w.faultAt 3 = true ∨
        w.faultAt 4 = true ∨ w.store.users.any (fun u => u.email == email) = true ∨
        w.store.users.any (fun u => u.username == username) = true ∨
        ∃ e, H.GenerateFromPassword w.nextSalt password = .error e) ∧
      ∃ err, (AuthService.RegisterUser H email username displayName password w).1 =
        .error err) := by
  unfold AuthService.RegisterUser
  cases hf0 : w.nextFault with
  | true =>
    right
    rw [userRepositoryImpl_ExistsByEmail_of_fault email w hf0]
    exact ⟨Or.inl hf0, _, rfl⟩
  | false =>
  rw [userRepositoryImpl_ExistsByEmail_of_answered email w hf0]
  cases hE : w.store.users.any (fun u => u.email == email) with
  | true => right; exact ⟨by simp, _, rfl⟩
  | false =>
  simp only []
  cases hf1 : w.afterCall.nextFault with
  | true =>
    right
    rw [userRepositoryImpl_ExistsByUsername_of_fault username _ hf1]
    exact ⟨Or.inr (Or.inl (by rw [World.faultAt_one]; exact hf1)), _, rfl⟩
  | false =>
  rw [userRepositoryImpl_ExistsByUsername_of_answered username _ hf1]
  simp only [World.afterCall_store]
  cases hU : w.store.users.any (fun u => u.username == username) with
  | true => right; exact ⟨by simp, _, rfl⟩
  | false =>
  simp only [NewUser, uuid.New, time.Now]
  cases hf2 : w.afterCall.afterCall.nextFault with
  | true =>
    right
    rw [userRepositoryImpl_Create_of_fault _ _ (by simpa using hf2)]
    exact ⟨Or.inr (Or.inr (Or.inl (by rw [World.faultAt_two]; exact hf2))), _, rfl⟩
  | false =>
  rw [userRepositoryImpl_Create_of_answered _ _ (by simpa using hf2)]
  simp only [HashPassword, World.afterCall_nextSalt, World.afterTick_nextSalt,
    World.afterUUID_nextSalt, World.withStore_nextSalt]
  cases hhash : H.GenerateFromPassword w.nextSalt password with
  | error e => right; exact ⟨by simp, _, rfl⟩
  | ok hashed =>
  simp only [NewUserAuth, uuid.New, time.Now]
  cases hf3 : w.afterCall.afterCall.afterCall.nextFault with
  | true =>
    right
    rw [userAuthRepositoryImpl_Create_of_fault _ _ (by simpa using hf3)]
    exact ⟨Or.inr (Or.inr (Or.inr (Or.inl (by rw [World.faultAt_three]; exact hf3)))), _, rfl⟩
  | false =>
  rw [userAuthRepositoryImpl_Create_of_answered _ _ (by simpa using hf3)]
  simp only [NewUserRole, uuid.New, time.Now]
  cases hf4 : w.afterCall.afterCall.afterCall.afterCall.nextFault with
  | true =>
    right
    rw [userRoleRepositoryImpl_Create_of_fault _ _ (by simpa using hf4)]
    exact ⟨Or.inr (Or.inr (Or.inr (Or.inr (Or.inl (by rw [World.faultAt_four]; exact hf4))))),
      _, rfl⟩
  | false =>
  rw [userRoleRepositoryImpl_Create_of_answered _ _ (by simpa using hf4)]
  left
  refine ⟨hf0, by rw [World.faultAt_one]; exact hf1, by rw [World.faultAt_two]; exact hf2,
    by rw [World.faultAt_three]; exact hf3, by rw [World.faultAt_four]; exact hf4,
    trivial, trivial, hashed, _, rfl, rfl, ?_⟩
  simp only [AuthService.createEmailVerification, GenerateSecureToken,
    GetExpirationTime_email_verification, NewEmailVerification, uuid.New, time.Now]
  cases hf5 : w.afterCall.afterCall.afterCall.afterCall.afterCall.nextFault
  · simp [World.faultAt_five, hf5, RoleUser]
    refine ⟨_, ?_, ?_, ?_, rfl⟩ <;> rfl
  · simp [World.faultAt_five, hf5, RoleUser]
    refine ⟨⟨_, ?_, ?_, ?_, rfl⟩,
      ⟨{ id := 0, userID := w.nextUUID, token := "", expiresAt := 0, isUsed := false,
         createdAt := 0 }, rfl, rfl⟩⟩ <;> rfl

/-! ### Registration -/

/-- C16: when a user with the email exists, `RegisterUser` fails and the store is
unchanged, and the error is `ErrUserEmailExists` when the existence check is answered by
the database; when no user has the email and a user with the username exists, it fails
and the store is unchanged, with `ErrUserUsernameExists` when both existence checks are
answered. Nothing is created in either case, whatever statements fail. -/
theorem registerUser_rejects_taken_email_or_username (H : Hasher)
    (email username displayName password : String) (w : World) :
    ((∃ u ∈ w.store.users, u.email = email) →
      (AuthService.RegisterUser H email username displayName password w).2.store = w.store ∧
      (∃ err, (AuthService.RegisterUser H email username displayName password w).1 =
        .error err) ∧
      (w.faultAt 0 = false →
        (AuthService.RegisterUser H email username displayName password w).1 =
          .error .ErrUserEmailExists)) ∧
    ((∀ u ∈ w.store.users, u.email ≠ email) → (∃ u ∈ w.store.users, u.username = username) →
      (AuthService.RegisterUser H email username displayName password w).2.store = w.store ∧
      (∃ err, (AuthService.RegisterUser H email username displayName password w).1 =
        .error err) ∧
      (w.faultAt 0 = false → w.faultAt 1 = false →
        (AuthService.RegisterUser H email username displayName password w).1 =
          .error .ErrUserUsernameExists)) := by
  constructor
  · intro hex
    have hE : w.store.users.any (fun u => u.email == email) = true := by simpa using hex
    unfold AuthService.RegisterUser
    cases hf0 : w.nextFault
    · rw [userRepositoryImpl_ExistsByEmail_of_answered email w hf0, hE]
      simp
    · rw [userRepositoryImpl_ExistsByEmail_of_fault email w hf0]
      simp [World.faultAt_zero, hf0]
  · intro hno hex
    have hE : w.store.users.any (fun u => u.email == email) = false := by
      simpa using hno
    have hU : w.store.users.any (fun u => u.username == username) = true := by
      simpa using hex
    unfold AuthService.RegisterUser
    cases hf0 : w.nextFault
    · rw [userRepositoryImpl_ExistsByEmail_of_answered email w hf0, hE]
      simp only []
      cases hf1 : w.afterCall.nextFault
      · rw [userRepositoryImpl_ExistsByUsername_of_answered username _ hf1]
        simp only [World.afterCall_store, hU]
        simp
      · rw [userRepositoryImpl_ExistsByUsername_of_fault username _ hf1]
        simp [World.faultAt_one, hf1]
    · rw [userRepositoryImpl_ExistsByEmail_of_fault email w hf0]
      simp [World.faultAt_zero, hf0]

/-- C16, at a concrete store: the address of user 7 is taken, and so is the name `bob`
of user 8. -/
theorem registerUser_rejects_taken_email_or_username_witness :
    (AuthService.RegisterUser toyHasher "alice@x.com" "carol" "Carol" "Passw0rd!"
      (loginWorld [])).1 = .error .ErrUserEmailExists ∧
    (AuthService.RegisterUser toyHasher "alice@x.com" "carol" "Carol" "Passw0rd!"
      (loginWorld [])).2.store = (loginWorld []).store ∧
    (AuthService.RegisterUser toyHasher "carol@x.com" "bob" "Carol" "Passw0rd!"
      (loginWorld [])).1 = .error .ErrUserUsernameExists ∧
    (AuthService.RegisterUser toyHasher "carol@x.com" "bob" "Carol" "Passw0rd!"
      (loginWorld [])).2.store = (loginWorld []).store := by
  have h1 := (registerUser_rejects_taken_email_or_username toyHasher "alice@x.com" "carol"
    "Carol" "Passw0rd!" (loginWorld [])).1 (by decide)
  have h2 := (registerUser_rejects_taken_email_or_username toyHasher "carol@x.com" "bob"
    "Carol" "Passw0rd!" (loginWorld [])).2 (by decide) (by decide)
  exact ⟨h1.2.2 (by decide), h1.1, h2.2.2 (by decide) (by decide), h2.1⟩

/-- C17 (as stated) fails: the insert of the verification token fails with a driver
error, the failure is only logged and `RegisterUser` still returns the new user, while no
verification token exists afterwards. -/
theorem registerUser_succeeds_without_verification_token :
    (AuthService.RegisterUser toyHasher "alice@x.com" "alice" "Alice" "OldPass1!"
      (signupWorld [false, false, false, false, false, true])).1 = .ok alice ∧
    (AuthService.RegisterUser toyHasher "alice@x.com" "alice" "Alice" "OldPass1!"
      (signupWorld [false, false, false, false, false, true])).2.store.emailVerifications =
      [] := by
  decide

theorem List.filter_append_singleton_of_none {α : Type} (l : List α) (p : α → Bool) (a : α)
    (hl : ∀ x ∈ l, p x = false) (ha : p a = true) : (l ++ [a]).filter p = [a] := by
  rw [List.filter_append, List.filter_eq_nil_iff.mpr (by simpa using hl)]
  simp [List.filter_cons, ha]

/-- C17 (amended): for a hasher whose digests verify the password they were made from and
a generated user id that no stored credential record or role grant refers to, whenever
`RegisterUser` succeeds: exactly one user with the email exists afterwards, the returned
one, unverified and active; exactly one credential record exists for it and its hash
verifies the password; exactly one role grant exists for it, active and of the role
`user`; and, when the insert of the verification token is answered by the database, a
verification token for it exists with used = false. -/
theorem registerUser_creates_account (H : Hasher)
    (email username displayName password : String) (w : World) (user : User)
    (hsound : ∀ salt p h, H.GenerateFromPassword salt p = .ok h →
      H.CompareHashAndPassword h p = true)
    (hfreshA : ∀ a ∈ w.store.userAuths, a.userID ≠ w.nextUUID)
    (hfreshR : ∀ r ∈ w.store.userRoles, r.userID ≠ w.nextUUID)
    (hok : (AuthService.RegisterUser H email username displayName password w).1 = .ok user) :
    (AuthService.RegisterUser H email username displayName password w).2.store.users.filter
      (fun u => u.email == email) = [user] ∧
    user.isVerified = false ∧ user.isActive = true ∧
    (∃ auth : UserAuth,
      (AuthService.RegisterUser H email username displayName password w).2.store.userAuths.filter
        (fun a => a.userID == user.id) = [auth] ∧
      ComparePassword H auth.passwordHash password = true) ∧
    (∃ role : UserRole,
      (AuthService.RegisterUser H email username displayName password w).2.store.userRoles.filter
        (fun r => r.userID == user.id) = [role] ∧
      role.role = RoleUser ∧ role.isActive = true) ∧
    (w.faultAt 5 = false →
      ∃ v ∈ (AuthService.RegisterUser H email username displayName password
          w).2.store.emailVerifications,
        v.userID = user.id ∧ v.isUsed = false) := by
  rcases AuthService.RegisterUser_outcome H email username displayName password w with
    ⟨-, -, -, -, -, hE, -, hashed, user2, hhash, hres, hid, hemail, -, -, hver, hact, husers,
      ⟨auth, hauid, hahash, hauths⟩, ⟨role, hrid, hrole, hractive, hroles⟩,
      ⟨v, hvid, hvused, hvs⟩⟩ | ⟨-, err, herr⟩
  · rw [hres] at hok
    cases hok
    refine ⟨?_, hver, hact, ⟨auth, ?_, ?_⟩, ⟨role, ?_, hrole, hractive⟩, ?_⟩
    · rw [husers]
      exact List.filter_append_singleton_of_none _ _ _
        (by simpa using hE) (by simp [hemail])
    · rw [hauths]
      exact List.filter_append_singleton_of_none _ _ _
        (by simpa [hid] using hfreshA) (by simp [hauid])
    · rw [hahash]
      exact hsound _ _ _ hhash
    · rw [hroles]
      exact List.filter_append_singleton_of_none _ _ _
        (by simpa [hid] using hfreshR) (by simp [hrid])
    · intro hf5
      rw [hvs, hf5]
      exact ⟨v, by simp, hvid, hvused⟩
  · rw [herr] at hok
    cases hok

/-- C17, at a concrete store: `alice@x.com` registers in the empty database. -/
theorem registerUser_creates_account_witness :
    (AuthService.RegisterUser toyHasher "alice@x.com" "alice" "Alice" "OldPass1!"
      emptyWorld).1 = .ok alice ∧
    (AuthService.RegisterUser toyHasher "alice@x.com" "alice" "Alice" "OldPass1!"
      emptyWorld).2.store.users.filter (fun u => u.email == "alice@x.com") = [alice] ∧
    (∃ v ∈ (AuthService.RegisterUser toyHasher "alice@x.com" "alice" "Alice" "OldPass1!"
        emptyWorld).2.store.emailVerifications,
      v.userID = alice.id ∧ v.isUsed = false) := by
  have key := registerUser_creates_account toyHasher "alice@x.com" "alice" "Alice" "OldPass1!"
    emptyWorld alice
    (by
      intro salt p h hp
      cases hp
      simp [toyHasher])
    (by decide) (by decide) (by decide)
  exact ⟨by decide, key.1, key.2.2.2.2.2 (by decide)⟩

/-! ### Authentication -/

/-- C18: `AuthenticateUser` fails with `ErrUserNotFound` when no user has the email
(whatever statements fail); when the user lookup is answered and the user is deactivated
it fails with `ErrUserInactive`, whatever the password; when both lookups are answered,
the user is active and has a credential record, it fails with `ErrInvalidCredentials` if
the password does not verify against the stored hash and returns the user if it does,
whether or not the write of the last login time fails. -/
theorem authenticateUser_cases (H : Hasher) (email password : String) (w : World) :
    (w.store.users.find? (fun u => u.email == email) = none →
      (AuthService.AuthenticateUser H email password w).1 = .error .ErrUserNotFound) ∧
    (∀ user, w.store.users.find? (fun u => u.email == email) = some user →
      user.isActive = false → w.faultAt 0 = false →
      (AuthService.AuthenticateUser H email password w).1 = .error .ErrUserInactive) ∧
    (∀ user userAuth, w.store.users.find? (fun u => u.email == email) = some user →
      user.isActive = true →
      w.store.userAuths.find? (fun a => a.userID == user.id) = some userAuth →
      w.faultAt 0 = false → w.faultAt 1 = false →
      (ComparePassword H userAuth.passwordHash password = false →
        (AuthService.AuthenticateUser H email password w).1 = .error .ErrInvalidCredentials) ∧
      (ComparePassword H userAuth.passwordHash password = true →
        (AuthService.AuthenticateUser H email password w).1 = .ok user)) := by
  refine ⟨?_, ?_, ?_⟩
  · intro hnone
    unfold AuthService.AuthenticateUser
    cases hf0 : w.nextFault
    · rw [userRepositoryImpl_GetByEmail_of_absent email w hf0 hnone]
    · rw [userRepositoryImpl_GetByEmail_of_fault email w hf0]
  · intro user huser hinactive hf0
    unfold AuthService.AuthenticateUser
    rw [userRepositoryImpl_GetByEmail_of_found email w user hf0 huser]
    simp [hinactive]
  · intro user userAuth huser hactive hauth hf0 hf1
    rw [World.faultAt_one] at hf1
    unfold AuthService.AuthenticateUser
    rw [userRepositoryImpl_GetByEmail_of_found email w user hf0 huser]
    simp only [hactive, Bool.not_true, Bool.false_eq_true, if_false]
    rw [userAuthRepositoryImpl_GetByUserID_of_found _ _ userAuth hf1 (by simpa using hauth)]
    constructor <;> intro hcmp <;> simp [hcmp]

/-- C18, at a concrete store: an unknown address, the deactivated user 8 with the right
password, the active user 7 with a wrong password and with the right one. -/
theorem authenticateUser_cases_witness :
    (AuthService.AuthenticateUser toyHasher "nobody@x.com" "OldPass1!" (loginWorld [])).1 =
      .error .ErrUserNotFound ∧
    (AuthService.AuthenticateUser toyHasher "bob@x.com" "BobPass1!" (loginWorld [])).1 =
      .error .ErrUserInactive ∧
    (AuthService.AuthenticateUser toyHasher "alice@x.com" "WrongPass1!" (loginWorld [])).1 =
      .error .ErrInvalidCredentials ∧
    (AuthService.AuthenticateUser toyHasher "alice@x.com" "OldPass1!" (loginWorld [])).1 =
      .ok userA := by
  have h1 := (authenticateUser_cases toyHasher "nobody@x.com" "OldPass1!" (loginWorld [])).1
    (by decide)
  have h2 := (authenticateUser_cases toyHasher "bob@x.com" "BobPass1!" (loginWorld [])).2.1
    userB (by decide) (by decide) (by decide)
  have h3 := ((authenticateUser_cases toyHasher "alice@x.com" "WrongPass1!"
    (loginWorld [])).2.2 userA authA (by decide) (by decide) (by decide) (by decide)
    (by decide)).1 (by decide)
  have h4 := ((authenticateUser_cases toyHasher "alice@x.com" "OldPass1!"
    (loginWorld [])).2.2 userA authA (by decide) (by decide) (by decide) (by decide)
    (by decide)).2 (by decide)
  exact ⟨h1, h2, h3, h4⟩

/-! ### The loop of `RevokeAllUserTokens` goes on after a failed update -/

theorem World.afterCall_faults (w : World) : w.afterCall.faults = w.faults.drop 1 := by
  unfold World.afterCall
  cases w.faults <;> rfl

/-- The loop makes one round trip for every listed session that is not yet revoked,
whether the updates fail or not. -/
theorem AuthService.revokeEach_faults (tokens : List RefreshToken) (w : World) :
    (AuthService.revokeEach tokens w).faults =
      w.faults.drop (tokens.filter (fun t => !t.isRevoked)).length := by
  induction tokens generalizing w with
  | nil => rfl
  | cons t ts ih =>
    unfold AuthService.revokeEach
    cases ht : t.isRevoked
    · simp only [Bool.not_false, if_true]
      rw [ih, refreshTokenRepositoryImpl_Update_SetRevoked_snd]
      simp [ht, World.afterCall_faults, List.drop_drop, Nat.add_comm]
    · simp only [Bool.not_true, Bool.false_eq_true, if_false]
      rw [ih]
      simp [ht]

/-- A session whose own update is answered is revoked when the loop ends, whatever
happens to the updates of the other sessions. -/
theorem AuthService.revokeEach_revokes_answered (tokens : List RefreshToken) (w : World)
    (i : Nat) (t : RefreshToken)
    (hi : (tokens.filter (fun t => !t.isRevoked))[i]? = some t)
    (hf : w.faultAt i = false) :
    ∀ r ∈ (AuthService.revokeEach tokens w).store.refreshTokens,
      r.id = t.id → r.isRevoked = true := by
  induction tokens generalizing w i with
  | nil => simp at hi
  | cons t0 ts ih =>
    unfold AuthService.revokeEach
    cases ht : t0.isRevoked
    · simp only [Bool.not_false, if_true]
      rw [List.filter_cons_of_pos (by simp [ht])] at hi
      cases i with
      | zero =>
        simp only [List.getElem?_cons_zero, Option.some.injEq] at hi
        subst hi
        obtain ⟨p, hp⟩ := AuthService.revokeEach_store ts
          (refreshTokenRepositoryImpl.Update (t0.SetRevoked true) w).2
        rw [hp, refreshTokenRepositoryImpl_Update_SetRevoked_snd]
        have hf0 : w.nextFault = false := hf
        intro r hr hrid
        simp only [hf0, Bool.false_eq_true, if_false, World.withStore_store,
          Store.mapRefreshTokens_refreshTokens, List.map_map, List.mem_map,
          Function.comp] at hr
        obtain ⟨r0, -, rfl⟩ := hr
        simp only [RefreshToken.revokeIfId_id] at hrid
        simp [hrid]
      | succ j =>
        simp only [List.getElem?_cons_succ] at hi
        refine ih _ j hi ?_
        rw [refreshTokenRepositoryImpl_Update_SetRevoked_snd, World.withStore_faultAt,
          ← World.faultAt_succ]
        exact hf
    · simp only [Bool.not_true, Bool.false_eq_true, if_false]
      rw [List.filter_cons_of_neg (by simp [ht])] at hi
      exact ih w i hi hf

/-! ### Best-effort side actions -/

/-- C19: best-effort side actions never abort the primary operation. `RegisterUser`
returns the created user, stored in the users table, when every statement up to the role
grant is answered and the insert of the verification token fails. `AuthenticateUser`
returns the user when the lookups are answered, the password verifies and the write of
the last login time fails. `RevokeAllUserTokens` returns no error whenever its query is
answered, makes one round trip for every session of the user that is not yet revoked
whichever updates fail, and every session whose own update is answered is revoked
afterwards. -/
theorem best_effort_actions_never_abort (H : Hasher) (w : World) :
    (∀ email username displayName password hashed,
      w.faultAt 0 = false → w.faultAt 1 = false → w.faultAt 2 = false →
      w.faultAt 3 = false → w.faultAt 4 = false → w.faultAt 5 = true →
      w.store.users.any (fun u => u.email == email) = false →
      w.store.users.any (fun u => u.username == username) = false →
      H.GenerateFromPassword w.nextSalt password = .ok hashed →
      ∃ user, (AuthService.RegisterUser H email username displayName password w).1 = .ok user ∧
        user.email = email ∧
        user ∈ (AuthService.RegisterUser H email username displayName password w).2.store.users ∧
        (AuthService.RegisterUser H email username displayName password
          w).2.store.emailVerifications = w.store.emailVerifications) ∧
    (∀ email password user userAuth,
      w.store.users.find? (fun u => u.email == email) = some user → user.isActive = true →
      w.store.userAuths.find? (fun a => a.userID == user.id) = some userAuth →
      ComparePassword H userAuth.passwordHash password = true →
      w.faultAt 0 = false → w.faultAt 1 = false → w.faultAt 2 = true →
      (AuthService.AuthenticateUser H email password w).1 = .ok user ∧
      (AuthService.AuthenticateUser H email password w).2.store = w.store) ∧
    (∀ userID, w.faultAt 0 = false →
      (AuthService.RevokeAllUserTokens userID w).1 = .ok () ∧
      (AuthService.RevokeAllUserTokens userID w).2.faults =
        w.faults.drop (1 + (AuthService.pendingSessions userID w).length) ∧
      ∀ i t, (AuthService.pendingSessions userID w)[i]? = some t →
        w.faultAt (1 + i) = false →
        ∀ r ∈ (AuthService.RevokeAllUserTokens userID w).2.store.refreshTokens,
          r.id = t.id → r.isRevoked = true) := by
  refine ⟨?_, ?_, ?_⟩
  · intro email username displayName password hashed hf0 hf1 hf2 hf3 hf4 hf5 hE hU hhash
    rcases AuthService.RegisterUser_outcome H email username displayName password w with
      ⟨-, -, -, -, -, -, -, -, user, -, hres, -, hemail, -, -, -, -, husers, -, -,
        ⟨v, -, -, hvs⟩⟩ | ⟨hcause, -⟩
    · refine ⟨user, hres, hemail, by rw [husers]; simp, ?_⟩
      rw [hvs, hf5]
      rfl
    · rw [hf0, hf1, hf2, hf3, hf4, hE, hU, hhash] at hcause
      simp at hcause
  · intro email password user userAuth huser hactive hauth hcmp hf0 hf1 hf2
    rw [World.faultAt_one] at hf1
    rw [World.faultAt_two] at hf2
    unfold AuthService.AuthenticateUser
    rw [userRepositoryImpl_GetByEmail_of_found email w user hf0 huser]
    simp only [hactive, Bool.not_true, Bool.false_eq_true, if_false]
    rw [userAuthRepositoryImpl_GetByUserID_of_found _ _ userAuth hf1 (by simpa using hauth)]
    simp only [hcmp, Bool.not_true, Bool.false_eq_true, if_false, time.Now,
      UserAuth.SetLastLoginAt]
    rw [userAuthRepositoryImpl_Update_of_fault _ _ (by simpa using hf2)]
    simp
  · intro userID hf0
    have hf0n : w.nextFault = false := hf0
    unfold AuthService.RevokeAllUserTokens
    rw [refreshTokenRepositoryImpl_GetByUserID_of_answered _ _ hf0n]
    refine ⟨rfl, ?_, ?_⟩
    · simp only []
      rw [AuthService.revokeEach_faults, World.afterCall_faults, List.drop_drop]
      rfl
    · intro i t hi hfi
      rw [Nat.add_comm, World.faultAt_succ] at hfi
      exact AuthService.revokeEach_revokes_answered _ _ i t hi hfi

/-- C19, at concrete stores: the insert of the verification token of `alice@x.com` fails;
the write of the last login of user 7 fails; and of the five sessions of user 7, updated
newest first, the updates of the sessions 6 and 4 fail while session 5 is still
revoked. -/
theorem best_effort_actions_never_abort_witness :
    (∃ user, (AuthService.RegisterUser toyHasher "alice@x.com" "alice" "Alice" "OldPass1!"
        (signupWorld [false, false, false, false, false, true])).1 = .ok user ∧
      user.email = "alice@x.com") ∧
    (AuthService.AuthenticateUser toyHasher "alice@x.com" "OldPass1!"
      (loginWorld [false, false, true])).1 = .ok userA ∧
    (AuthService.RevokeAllUserTokens 7 (accountWorld [false, true, false, true])).1 = .ok () ∧
    (AuthService.RevokeAllUserTokens 7 (accountWorld [false, true, false, true])).2.faults =
      [] ∧
    (∀ r ∈ (AuthService.RevokeAllUserTokens 7
        (accountWorld [false, true, false, true])).2.store.refreshTokens,
      r.id = 5 → r.isRevoked = true) := by
  obtain ⟨user, hres, hemail, -, -⟩ :=
    (best_effort_actions_never_abort toyHasher
      (signupWorld [false, false, false, false, false, true])).1
      "alice@x.com" "alice" "Alice" "OldPass1!" "bcrypt:OldPass1!"
      (by decide) (by decide) (by decide) (by decide) (by decide) (by decide) (by decide)
      (by decide) rfl
  have hauth := (best_effort_actions_never_abort toyHasher
    (loginWorld [false, false, true])).2.1 "alice@x.com" "OldPass1!" userA authA
    (by decide) (by decide) (by decide) (by decide) (by decide) (by decide) (by decide)
  have hrev := (best_effort_actions_never_abort toyHasher
    (accountWorld [false, true, false, true])).2.2 7 (by decide)
  exact ⟨⟨user, hres, hemail⟩, hauth.1, hrev.1, hrev.2.1,
    hrev.2.2 1
      { id := 5, userID := 7, token := "s5", expiresAt := 100, isRevoked := false,
        createdAt := 5 } (by decide) (by decide)⟩

/-! ### Store errors in `AuthenticateUser` -/

/-- C20 (the code at a failing input): user 7 exists with the address `alice@x.com`. When
the user lookup fails with a driver error, `GetByEmail` returns that error and
`AuthenticateUser` reports `ErrUserNotFound` in its place; when the credential lookup
fails with a driver error, `GetByUserID` returns that error and `AuthenticateUser`
reports `ErrUserAuthNotFound` in its place. -/
theorem authenticateUser_masks_store_error :
    (loginWorld [true]).store.users.find? (fun u => u.email == "alice@x.com") = some userA ∧
    (userRepositoryImpl.GetByEmail "alice@x.com" (loginWorld [true])).1 = .error .driver ∧
    (AuthService.AuthenticateUser toyHasher "alice@x.com" "OldPass1!" (loginWorld [true])).1 =
      .error .ErrUserNotFound ∧
    (loginWorld [false, true]).store.userAuths.find? (fun a => a.userID == 7) = some authA ∧
    (userAuthRepositoryImpl.GetByUserID 7 (loginWorld [false, true]).afterCall).1 =
      .error .driver ∧
    (AuthService.AuthenticateUser toyHasher "alice@x.com" "OldPass1!"
      (loginWorld [false, true])).1 = .error .ErrUserAuthNotFound := by
  decide

/-! ### The role hierarchy -/

theorem GetRoleLevel_user : GetRoleLevel RoleUser = 1 := by decide

theorem GetRoleLevel_moderator : GetRoleLevel RoleModerator = 2 := by decide

theorem GetRoleLevel_admin : GetRoleLevel RoleAdmin = 3 := by decide

/-- C23: `CanAssignRole(a, t)` is true exactly when the level of `a` is strictly greater
than the level of `t`, where the levels are user = 1, moderator = 2, admin = 3 (and 0 for
a string outside the hierarchy); hence no role can assign itself, and admin can assign
moderator while moderator cannot assign admin and user cannot assign user. -/
theorem canAssignRole_iff_strictly_higher :
    (∀ a t : UserRoleType, CanAssignRole a t = true ↔ GetRoleLevel a > GetRoleLevel t) ∧
    GetRoleLevel RoleUser = 1 ∧ GetRoleLevel RoleModerator = 2 ∧ GetRoleLevel RoleAdmin = 3 ∧
    (∀ r : UserRoleType, CanAssignRole r r = false) ∧
    CanAssignRole RoleAdmin RoleModerator = true ∧
    CanAssignRole RoleModerator RoleAdmin = false ∧
    CanAssignRole RoleUser RoleUser = false := by
  refine ⟨?_, GetRoleLevel_user, GetRoleLevel_moderator, GetRoleLevel_admin, ?_,
    by decide, by decide, by decide⟩
  · intro a t
    simp [CanAssignRole]
  · intro r
    simp [CanAssignRole]

theorem RoleHierarchy_pos (role : UserRoleType) (level : Int)
    (h : RoleHierarchy role = some level) : 1 ≤ level := by
  unfold RoleHierarchy at h
  split_ifs at h <;> cases h <;> decide

/-- For a required role of the hierarchy `HasHigherRole` compares the levels. -/
theorem HasHigherRole_eq_decide (userRole requiredRole : UserRoleType)
    (hreq : IsValidRole requiredRole = true) :
    HasHigherRole userRole requiredRole =
      decide (GetRoleLevel userRole ≥ GetRoleLevel requiredRole) := by
  unfold IsValidRole at hreq
  unfold HasHigherRole GetRoleLevel
  cases hr : RoleHierarchy requiredRole with
  | none => simp [hr] at hreq
  | some required =>
    have hpos := RoleHierarchy_pos requiredRole required hr
    cases hu : RoleHierarchy userRole with
    | none =>
      simp only [ge_iff_le]
      symm
      rw [decide_eq_false_iff_not]
      omega
    | some level => rfl

/-- C24: for every store, user and required role of the hierarchy, when the query of the
role grants is answered by the database, `HasPermission` returns true exactly when some
grant of the user is active and the level of its role is at least the level of the
required role (user = 1, moderator = 2, admin = 3, and 0 for a role outside the
hierarchy); so a user whose grants are all inactive has no permission. The store is
unchanged. -/
theorem hasPermission_iff_active_grant_at_least (userID : UUID) (requiredRole : UserRoleType)
    (w : World) (hreq : IsValidRole requiredRole = true) (hf : w.nextFault = false) :
    (∃ b, (AuthService.HasPermission userID requiredRole w).1 = .ok b ∧
      (b = true ↔ ∃ g ∈ w.store.userRoles, g.userID = userID ∧ g.isActive = true ∧
        GetRoleLevel g.role ≥ GetRoleLevel requiredRole)) ∧
    ((∀ g ∈ w.store.userRoles, g.userID = userID → g.isActive = false) →
      (AuthService.HasPermission userID requiredRole w).1 = .ok false) ∧
    (AuthService.HasPermission userID requiredRole w).2.store = w.store := by
  unfold AuthService.HasPermission
  rw [userRoleRepositoryImpl_GetByUserID_of_answered userID w hf]
  refine ⟨⟨_, rfl, ?_⟩, ?_, rfl⟩
  · simp only [List.any_eq_true, mem_orderByDesc, List.mem_filter, Bool.and_eq_true,
      beq_iff_eq, HasHigherRole_eq_decide _ _ hreq, decide_eq_true_eq]
    constructor
    · rintro ⟨g, ⟨hg, hu⟩, ha, hl⟩
      exact ⟨g, hg, hu, ha, hl⟩
    · rintro ⟨g, hg, hu, ha, hl⟩
      exact ⟨g, ⟨hg, hu⟩, ha, hl⟩
  · intro hall
    simp only [Except.ok.injEq, List.any_eq_false, mem_orderByDesc, List.mem_filter,
      Bool.and_eq_true, beq_iff_eq, not_and, Bool.not_eq_true, and_imp]
    intro g hg hu ha
    rw [hall g hg hu] at ha
    cases ha

/-- C24, at a concrete store: user 7 holds an active grant of `moderator` and a revoked
grant of `admin`; the permission `user` is granted, the permission `admin` is not. -/
theorem hasPermission_iff_active_grant_at_least_witness :
    (AuthService.HasPermission 7 RoleUser (roleWorld [])).1 = .ok true ∧
    (AuthService.HasPermission 7 RoleAdmin (roleWorld [])).1 = .ok false ∧
    HasHigherRole RoleModerator RoleUser = true := by
  obtain ⟨⟨b, hb, hiff⟩, -, -⟩ := hasPermission_iff_active_grant_at_least 7 RoleUser
    (roleWorld []) (by decide) (by decide)
  have hb1 : b = true := hiff.mpr
    ⟨{ id := 31, userID := 7, role := RoleModerator, grantedAt := 10, isActive := true },
      by decide, rfl, rfl, by decide⟩
  exact ⟨by rw [hb, hb1], by decide, by decide⟩

/-! ### Assigning and revoking roles -/

/-- The answer of `HasRole` when its query is answered by the database. -/
theorem AuthService.HasRole_of_answered (userID : UUID) (role : UserRoleType) (w : World)
    (hf : w.nextFault = false) :
    AuthService.HasRole userID role w =
      (.ok (w.store.userRoles.any
        (fun g => g.userID == userID && (g.role == role && g.isActive))), w.afterCall) := by
  unfold AuthService.HasRole
  rw [userRoleRepositoryImpl_GetByUserID_of_answered userID w hf]
  simp only [Prod.mk.injEq, Except.ok.injEq, and_true]
  rw [Bool.eq_iff_iff]
  simp only [List.any_eq_true, mem_orderByDesc, List.mem_filter, Bool.and_eq_true,
    beq_iff_eq]
  constructor
  · rintro ⟨g, ⟨hg, hu⟩, hr, ha⟩
    exact ⟨g, hg, hu, hr, ha⟩
  · rintro ⟨g, hg, hu, hr, ha⟩
    exact ⟨g, ⟨hg, hu⟩, hr, ha⟩

theorem AuthService.HasRole_of_fault (userID : UUID) (role : UserRoleType) (w : World)
    (hf : w.nextFault = true) (hcut : w.nextCut = none) :
    AuthService.HasRole userID role w = (.error .driver, w.afterCall) := by
  unfold AuthService.HasRole
  rw [userRoleRepositoryImpl_GetByUserID_of_fault userID w hf hcut]

/-- The answer of `HasRole` when its query fails while the rows are read: the answer for
the rows read so far. -/
theorem AuthService.HasRole_of_cut (userID : UUID) (role : UserRoleType) (w : World) (n : Nat)
    (hf : w.nextFault = true) (hcut : w.nextCut = some n) :
    AuthService.HasRole userID role w =
      (.ok (((orderByDesc (fun r => r.grantedAt)
        (w.store.userRoles.filter (fun r => r.userID == userID))).take n).any
          (fun userRole => userRole.role == role && userRole.isActive)), w.afterCall) := by
  unfold AuthService.HasRole
  rw [userRoleRepositoryImpl_GetByUserID_of_cut userID w n hf hcut]

/-- C21: `AssignRole(u, r)` fails with `ErrInvalidRole` when `r` is not one of `user`,
`moderator`, `admin`, and the world is untouched. For a role of the hierarchy of which `u`
holds an active grant, when the query of the grants is answered by the database it fails
with `ErrUserRoleAlreadyExists` and leaves the store unchanged; when `db.Query` returns an
error it fails with that error and leaves the store unchanged. Otherwise (no active grant
of `r` for `u`, also when an inactive one exists), when the query and the insert are
answered, it appends exactly one new active grant `(u, r)` and changes nothing else in the
store. -/
theorem assignRole_cases (userID : UUID) (role : UserRoleType) (w : World) :
    (IsValidRole role = false →
      AuthService.AssignRole userID role w = (.error .ErrInvalidRole, w)) ∧
    (IsValidRole role = true →
      (∃ g ∈ w.store.userRoles, g.userID = userID ∧ g.role = role ∧ g.isActive = true) →
      (w.faultAt 0 = false →
        (AuthService.AssignRole userID role w).2.store = w.store ∧
        (AuthService.AssignRole userID role w).1 = .error .ErrUserRoleAlreadyExists) ∧
      (w.faultAt 0 = true → w.nextCut = none →
        (AuthService.AssignRole userID role w).2.store = w.store ∧
        (AuthService.AssignRole userID role w).1 = .error .driver)) ∧
    (IsValidRole role = true →
      (∀ g ∈ w.store.userRoles, g.userID = userID → g.role = role → g.isActive = false) →
      w.faultAt 0 = false → w.faultAt 1 = false →
      ∃ g : UserRole, g.userID = userID ∧ g.role = role ∧ g.isActive = true ∧
        (AuthService.AssignRole userID role w).1 = .ok () ∧
        (AuthService.AssignRole userID role w).2.store =
          { w.store with userRoles := w.store.userRoles ++ [g] }) := by
  refine ⟨?_, ?_, ?_⟩
  · intro hinv
    simp [AuthService.AssignRole, hinv]
  · intro hvalid hex
    have hany : w.store.userRoles.any
        (fun g => g.userID == userID && (g.role == role && g.isActive)) = true := by
      simpa using hex
    unfold AuthService.AssignRole
    simp only [hvalid, Bool.not_true, Bool.false_eq_true, if_false]
    refine ⟨fun hf0 => ?_, fun hf0 hcut => ?_⟩
    · have hf : w.nextFault = false := hf0
      rw [AuthService.HasRole_of_answered userID role w hf, hany]
      exact ⟨rfl, rfl⟩
    · have hf : w.nextFault = true := hf0
      rw [AuthService.HasRole_of_fault userID role w hf hcut]
      exact ⟨rfl, rfl⟩
  · intro hvalid hnone hf0 hf1
    have hf0n : w.nextFault = false := hf0
    rw [World.faultAt_one] at hf1
    have hany : w.store.userRoles.any
        (fun g => g.userID == userID && (g.role == role && g.isActive)) = false := by
      simpa using hnone
    unfold AuthService.AssignRole
    simp only [hvalid, Bool.not_true, Bool.false_eq_true, if_false]
    rw [AuthService.HasRole_of_answered userID role w hf0n, hany]
    simp only [NewUserRole, uuid.New, time.Now]
    rw [userRoleRepositoryImpl_Create_of_answered _ _ (by simpa using hf1)]
    exact ⟨{ id := w.nextUUID, userID := userID, role := role, grantedAt := w.clock,
             isActive := true }, rfl, rfl, rfl, rfl, by simp⟩

/-- C21, at a concrete store: `superuser` is not a role; user 7 holds an active grant of
`moderator`; and the grant of `admin` that user 7 holds is revoked, so `admin` is assigned
again by a new row. -/
theorem assignRole_cases_witness :
    (AuthService.AssignRole 7 "superuser" (roleWorld [])).1 = .error .ErrInvalidRole ∧
    (AuthService.AssignRole 7 RoleModerator (roleWorld [])).1 =
      .error .ErrUserRoleAlreadyExists ∧
    (AuthService.AssignRole 7 RoleModerator (roleWorld [])).2.store = (roleWorld []).store ∧
    (AuthService.AssignRole 7 RoleAdmin (roleWorld [])).1 = .ok () ∧
    (AuthService.AssignRole 7 RoleAdmin (roleWorld [])).2.store.userRoles =
      grantsA ++ [{ id := 41, userID := 7, role := RoleAdmin, grantedAt := 50,
                    isActive := true }] := by
  have h1 := (assignRole_cases 7 "superuser" (roleWorld [])).1 (by decide)
  have h2 := (assignRole_cases 7 RoleModerator (roleWorld [])).2.1 (by decide) (by decide)
  obtain ⟨g, -, -, -, hok, -⟩ := (assignRole_cases 7 RoleAdmin (roleWorld [])).2.2
    (by decide) (by decide) (by decide) (by decide)
  exact ⟨by rw [h1], (h2.1 (by decide)).2, (h2.1 (by decide)).1, hok, by decide⟩

/-- The grant `RevokeRole` picks when the user holds an active grant of the role. -/
theorem find?_active_grant (userID : UUID) (role : UserRoleType) (grants : List UserRole)
    (hex : ∃ g ∈ grants, g.userID = userID ∧ g.role = role ∧ g.isActive = true) :
    ∃ g ∈ grants, g.userID = userID ∧ g.role = role ∧ g.isActive = true ∧
      (orderByDesc (fun r => r.grantedAt) (grants.filter (fun r => r.userID == userID))).find?
        (fun userRole => userRole.role == role && userRole.isActive) = some g := by
  cases hfind : (orderByDesc (fun r => r.grantedAt)
      (grants.filter (fun r => r.userID == userID))).find?
        (fun userRole => userRole.role == role && userRole.isActive) with
  | none =>
    obtain ⟨g, hg, hu, hr, ha⟩ := hex
    have := List.find?_eq_none.mp hfind g
      ((mem_orderByDesc _ _ _).mpr (List.mem_filter.mpr ⟨hg, by simp [hu]⟩))
    simp [hr, ha] at this
  | some g =>
    have hmem := (mem_orderByDesc _ _ _).mp (List.mem_of_find?_eq_some hfind)
    have hp := List.find?_some hfind
    simp only [List.mem_filter, beq_iff_eq] at hmem
    simp only [Bool.and_eq_true, beq_iff_eq] at hp
    exact ⟨g, hmem.1, hmem.2, hp.1, hp.2, rfl⟩

theorem find?_active_grant_none (userID : UUID) (role : UserRoleType) (grants : List UserRole)
    (hno : ∀ g ∈ grants, g.userID = userID → g.role = role → g.isActive = false) :
    (orderByDesc (fun r => r.grantedAt) (grants.filter (fun r => r.userID == userID))).find?
      (fun userRole => userRole.role == role && userRole.isActive) = none := by
  rw [List.find?_eq_none]
  intro g hg
  have hmem := (mem_orderByDesc _ _ _).mp hg
  simp only [List.mem_filter, beq_iff_eq] at hmem
  simp only [Bool.and_eq_true, beq_iff_eq, not_and, Bool.not_eq_true]
  exact hno g hmem.1 hmem.2

/-- The outcome of `RevokeRole` when the user holds an active grant of the role and both
statements are answered by the database: the grant the query lists first is updated. -/
theorem AuthService.RevokeRole_of_active (userID : UUID) (role : UserRoleType) (w : World)
    (g : UserRole) (hg : g ∈ w.store.userRoles)
    (hfind : (orderByDesc (fun r => r.grantedAt)
      (w.store.userRoles.filter (fun r => r.userID == userID))).find?
        (fun userRole => userRole.role == role && userRole.isActive) = some g)
    (hf0 : w.nextFault = false) (hf1 : w.afterCall.nextFault = false) :
    AuthService.RevokeRole userID role w =
      (.ok (), w.afterCall.afterCall.withStore
        { w.store with userRoles := w.store.userRoles.map (fun x =>
            if x.id == g.id then { x with role := g.role, isActive := false } else x) }) := by
  unfold AuthService.RevokeRole
  rw [userRoleRepositoryImpl_GetByUserID_of_answered userID w hf0]
  simp only [hfind]
  rw [userRoleRepositoryImpl_Update_of_present _ _ hf1
    (by
      simp only [World.afterCall_store, UserRole.SetActive]
      exact List.any_eq_true.mpr ⟨g, hg, by simp⟩)]
  simp [hf1, UserRole.SetActive]

/-- Every outcome of `RevokeRole`, whatever statements fail: either an error with the
store untouched, or success with the rows that carry the id of the picked active grant
deactivated. -/
theorem AuthService.RevokeRole_outcome (userID : UUID) (role : UserRoleType) (w : World) :
    ((AuthService.RevokeRole userID role w).2.store = w.store ∧
      ∃ err, (AuthService.RevokeRole userID role w).1 = .error err) ∨
    ∃ g ∈ w.store.userRoles, g.userID = userID ∧ g.role = role ∧ g.isActive = true ∧
      (AuthService.RevokeRole userID role w).1 = .ok () ∧
      (AuthService.RevokeRole userID role w).2.store =
        { w.store with userRoles := w.store.userRoles.map (fun x =>
            if x.id == g.id then { x with role := g.role, isActive := false } else x) } := by
  cases hf0 : w.nextFault with
  | true =>
    cases hcut : w.nextCut with
    | none =>
      left
      unfold AuthService.RevokeRole
      rw [userRoleRepositoryImpl_GetByUserID_of_fault userID w hf0 hcut]
      simp
    | some n =>
    cases hfind : ((orderByDesc (fun r => r.grantedAt)
        (w.store.userRoles.filter (fun r => r.userID == userID))).take n).find?
          (fun userRole => userRole.role == role && userRole.isActive) with
    | none =>
      left
      unfold AuthService.RevokeRole
      rw [userRoleRepositoryImpl_GetByUserID_of_cut userID w n hf0 hcut]
      simp [hfind]
    | some g =>
      have hmem := (mem_orderByDesc _ _ _).mp
        (List.mem_of_mem_take (List.mem_of_find?_eq_some hfind))
      have hp := List.find?_some hfind
      simp only [List.mem_filter, beq_iff_eq] at hmem
      simp only [Bool.and_eq_true, beq_iff_eq] at hp
      unfold AuthService.RevokeRole
      rw [userRoleRepositoryImpl_GetByUserID_of_cut userID w n hf0 hcut]
      simp only [hfind]
      cases hf1 : w.afterCall.nextFault with
      | true =>
        left
        rw [userRoleRepositoryImpl_Update_of_fault _ _ hf1]
        simp
      | false =>
        right
        rw [userRoleRepositoryImpl_Update_of_present _ _ hf1
          (by
            simp only [World.afterCall_store, UserRole.SetActive]
            exact List.any_eq_true.mpr ⟨g, hmem.1, by simp⟩)]
        exact ⟨g, hmem.1, hmem.2, hp.1, hp.2, rfl, by simp [hf1, UserRole.SetActive]⟩
  | false =>
  cases hfind : (orderByDesc (fun r => r.grantedAt)
      (w.store.userRoles.filter (fun r => r.userID == userID))).find?
        (fun userRole => userRole.role == role && userRole.isActive) with
  | none =>
    left
    unfold AuthService.RevokeRole
    rw [userRoleRepositoryImpl_GetByUserID_of_answered userID w hf0]
    simp [hfind]
  | some g =>
    have hmem := (mem_orderByDesc _ _ _).mp (List.mem_of_find?_eq_some hfind)
    have hp := List.find?_some hfind
    simp only [List.mem_filter, beq_iff_eq] at hmem
    simp only [Bool.and_eq_true, beq_iff_eq] at hp
    cases hf1 : w.afterCall.nextFault with
    | true =>
      left
      unfold AuthService.RevokeRole
      rw [userRoleRepositoryImpl_GetByUserID_of_answered userID w hf0]
      simp only [hfind]
      rw [userRoleRepositoryImpl_Update_of_fault _ _ hf1]
      simp
    | false =>
      right
      rw [AuthService.RevokeRole_of_active userID role w g hmem.1 hfind hf0 hf1]
      exact ⟨g, hmem.1, hmem.2, hp.1, hp.2, rfl, rfl⟩

/-- C22: when the user holds no active grant of the role, `RevokeRole(u, r)` fails and the
store is unchanged, with `ErrUserRoleNotFound` when the query of the grants is answered by
the database. Otherwise, for a store whose grant ids are pairwise distinct and with both
statements answered, it succeeds and deactivates one active grant `g` of `r` held by `u`:
the grant table is the old one with `g` replaced by its inactive copy, every other grant
and every other table is unchanged, and the number of grants of `u` is as before. -/
theorem revokeRole_cases (userID : UUID) (role : UserRoleType) (w : World) :
    ((∀ g ∈ w.store.userRoles, g.userID = userID → g.role = role → g.isActive = false) →
      (AuthService.RevokeRole userID role w).2.store = w.store ∧
      (∃ err, (AuthService.RevokeRole userID role w).1 = .error err) ∧
      (w.faultAt 0 = false →
        (AuthService.RevokeRole userID role w).1 = .error .ErrUserRoleNotFound)) ∧
    ((∃ g ∈ w.store.userRoles, g.userID = userID ∧ g.role = role ∧ g.isActive = true) →
      (w.store.userRoles.map (fun g => g.id)).Nodup →
      w.faultAt 0 = false → w.faultAt 1 = false →
      ∃ g ∈ w.store.userRoles, g.userID = userID ∧ g.role = role ∧ g.isActive = true ∧
        (AuthService.RevokeRole userID role w).1 = .ok () ∧
        (AuthService.RevokeRole userID role w).2.store =
          { w.store with userRoles := w.store.userRoles.map (fun x =>
              if x = g then { g with isActive := false } else x) } ∧
        ((AuthService.RevokeRole userID role w).2.store.userRoles.filter
          (fun x => x.userID == userID)).length =
          (w.store.userRoles.filter (fun x => x.userID == userID)).length) := by
  constructor
  · intro hno
    have hfind := find?_active_grant_none userID role w.store.userRoles hno
    unfold AuthService.RevokeRole
    cases hf0 : w.nextFault
    · rw [userRoleRepositoryImpl_GetByUserID_of_answered userID w hf0]
      simp [hfind]
    · cases hcut : w.nextCut with
      | none =>
        rw [userRoleRepositoryImpl_GetByUserID_of_fault userID w hf0 hcut]
        simp [World.faultAt_zero, hf0]
      | some n =>
        rw [userRoleRepositoryImpl_GetByUserID_of_cut userID w n hf0 hcut]
        have hcutfind : ((orderByDesc (fun r => r.grantedAt)
            (w.store.userRoles.filter (fun r => r.userID == userID))).take n).find?
              (fun userRole => userRole.role == role && userRole.isActive) = none := by
          rw [List.find?_eq_none]
          intro x hx
          exact List.find?_eq_none.mp hfind x (List.mem_of_mem_take hx)
        simp [hcutfind, World.faultAt_zero, hf0]
  · intro hex hnodup hf0 hf1
    have hf0n : w.nextFault = false := hf0
    rw [World.faultAt_one] at hf1
    obtain ⟨g, hg, hu, hr, ha, hfind⟩ := find?_active_grant userID role w.store.userRoles hex
    have hmap : w.store.userRoles.map (fun x =>
          if x.id == g.id then { x with role := g.role, isActive := false } else x) =
        w.store.userRoles.map (fun x => if x = g then { g with isActive := false } else x) := by
      apply List.map_congr_left
      intro x hx
      by_cases hxg : x = g
      · subst hxg
        simp
      · have hid : x.id ≠ g.id := fun h =>
          hxg (List.inj_on_of_nodup_map hnodup hx hg h)
        simp [hxg, hid]
    rw [AuthService.RevokeRole_of_active userID role w g hg hfind hf0n hf1, hmap]
    refine ⟨g, hg, hu, hr, ha, rfl, rfl, ?_⟩
    simp only [World.withStore_store, List.filter_map, List.length_map]
    congr 1
    apply List.filter_congr
    intro x hx
    by_cases hxg : x = g
    · subst hxg
      simp
    · simp [hxg]

/-- C22, at a concrete store: user 7 holds no active grant of `admin`; the active grant of
`moderator` of user 7 is deactivated and the two other grants are unchanged. -/
theorem revokeRole_cases_witness :
    (AuthService.RevokeRole 7 RoleAdmin (roleWorld [])).1 = .error .ErrUserRoleNotFound ∧
    (AuthService.RevokeRole 7 RoleAdmin (roleWorld [])).2.store = (roleWorld []).store ∧
    (AuthService.RevokeRole 7 RoleModerator (roleWorld [])).1 = .ok () ∧
    (AuthService.RevokeRole 7 RoleModerator (roleWorld [])).2.store.userRoles =
      [ { id := 31, userID := 7, role := RoleModerator, grantedAt := 10, isActive := false },
        { id := 32, userID := 7, role := RoleAdmin, grantedAt := 5, isActive := false },
        { id := 33, userID := 8, role := RoleUser, grantedAt := 7, isActive := true } ] := by
  have h1 := (revokeRole_cases 7 RoleAdmin (roleWorld [])).1 (by decide)
  obtain ⟨g, -, -, -, -, hok, -, -⟩ := (revokeRole_cases 7 RoleModerator (roleWorld [])).2
    (by decide) (by decide) (by decide) (by decide)
  exact ⟨h1.2.2 (by decide), h1.1, hok, by decide⟩

/-! ### At most one active grant per user and role -/

/-- A `RegisterUser` that does not return a user has not stored a role grant. -/
theorem AuthService.RegisterUser_userRoles_or_ok (H : Hasher)
    (email username displayName password : String) (w : World) :
    (AuthService.RegisterUser H email username displayName password w).2.store.userRoles =
      w.store.userRoles ∨
    ∃ user, (AuthService.RegisterUser H email username displayName password w).1 =
      .ok user := by
  unfold AuthService.RegisterUser
  repeat' split
  all_goals simp only [Prod.ext_iff] at *
  all_goals (try casesm* _ ∧ _)
  all_goals subst_vars
  all_goals first
    | exact Or.inr ⟨_, rfl⟩
    | (left
       simp_all [NewUser, NewUserAuth, NewUserRole, HashPassword, uuid.New, time.Now,
         apply_ite Store.userRoles]
       done)
    | (left
       cases hq : w.afterCall.afterCall.afterCall.afterCall.nextFault <;>
         simp_all [NewUser, NewUserAuth, NewUserRole, HashPassword, uuid.New, time.Now,
           apply_ite Store.userRoles])

theorem ActiveGrantsUnique.append_grant (grants : List UserRole) (g : UserRole)
    (h : ActiveGrantsUnique grants)
    (hnew : ∀ x ∈ grants, x.userID = g.userID → x.role = g.role → x.isActive = false) :
    ActiveGrantsUnique (grants ++ [g]) := by
  unfold ActiveGrantsUnique at h ⊢
  rw [List.pairwise_append]
  refine ⟨h, List.pairwise_singleton _ _, ?_⟩
  intro a ha b hb
  rw [List.mem_singleton] at hb
  subst hb
  rintro ⟨hu, hr, hact, -⟩
  rw [hnew a ha hu hr] at hact
  cases hact

theorem ActiveGrantsUnique.deactivate (grants : List UserRole) (i : UUID)
    (role : UserRoleType) (h : ActiveGrantsUnique grants) :
    ActiveGrantsUnique (grants.map (fun x =>
      if x.id == i then { x with role := role, isActive := false } else x)) := by
  unfold ActiveGrantsUnique at h ⊢
  refine List.Pairwise.map _ ?_ h
  intro a b hab
  by_cases ha : a.id = i
  · simp [ha]
  · by_cases hb : b.id = i
    · simp [hb]
    · simpa [ha, hb] using hab

/-- Two different active grants of one role to one user contradict the invariant. -/
theorem ActiveGrantsUnique.eq_of_active (grants : List UserRole) (h : ActiveGrantsUnique grants)
    (a b : UserRole) (ha : a ∈ grants) (hb : b ∈ grants) (hu : a.userID = b.userID)
    (hr : a.role = b.role) (hact : a.isActive = true) (hbct : b.isActive = true) : a = b := by
  by_contra hne
  have hsymm : Symmetric (fun a b : UserRole =>
      ¬(a.userID = b.userID ∧ a.role = b.role ∧ a.isActive = true ∧ b.isActive = true)) := by
    intro x y hxy hyx
    exact hxy ⟨hyx.1.symm, hyx.2.1.symm, hyx.2.2.2, hyx.2.2.1⟩
  exact List.Pairwise.forall hsymm h ha hb hne ⟨hu, hr, hact, hbct⟩

/-- Whatever statements fail, `AssignRole` leaves the grants as they are or appends one
grant of the role to the user; when its query is answered, or fails by returning the
error, it appends only when the user holds no active grant of the role. -/
theorem AuthService.AssignRole_outcome (userID : UUID) (role : UserRoleType) (w : World) :
    (AuthService.AssignRole userID role w).2.store = w.store ∨
    ∃ g : UserRole, g.userID = userID ∧ g.role = role ∧
      (w.nextFault = false ∨ w.nextCut = none →
        ∀ x ∈ w.store.userRoles, x.userID = userID → x.role = role → x.isActive = false) ∧
      (AuthService.AssignRole userID role w).2.store =
        { w.store with userRoles := w.store.userRoles ++ [g] } := by
  unfold AuthService.AssignRole
  cases hvalid : IsValidRole role
  · left; simp
  simp only [Bool.not_true, Bool.false_eq_true, if_false]
  cases hf0 : w.nextFault
  swap
  · cases hcut : w.nextCut with
    | none =>
      left
      rw [AuthService.HasRole_of_fault userID role w hf0 hcut]
      simp
    | some n =>
      rw [AuthService.HasRole_of_cut userID role w n hf0 hcut]
      cases hany : ((orderByDesc (fun r => r.grantedAt)
          (w.store.userRoles.filter (fun r => r.userID == userID))).take n).any
            (fun userRole => userRole.role == role && userRole.isActive)
      swap
      · left; simp
      simp only [NewUserRole, uuid.New, time.Now]
      cases hf1 : w.afterCall.nextFault
      · right
        rw [userRoleRepositoryImpl_Create_of_answered _ _ (by simpa using hf1)]
        exact ⟨{ id := w.nextUUID, userID := userID, role := role, grantedAt := w.clock,
                 isActive := true }, rfl, rfl,
          (fun h => by rcases h with h | h <;> simp_all), by simp⟩
      · left
        rw [userRoleRepositoryImpl_Create_of_fault _ _ (by simpa using hf1)]
        simp
  rw [AuthService.HasRole_of_answered userID role w hf0]
  cases hany : w.store.userRoles.any
      (fun g => g.userID == userID && (g.role == role && g.isActive))
  swap
  · left; simp
  simp only [NewUserRole, uuid.New, time.Now]
  cases hf1 : w.afterCall.nextFault
  · right
    rw [userRoleRepositoryImpl_Create_of_answered _ _ (by simpa using hf1)]
    exact ⟨{ id := w.nextUUID, userID := userID, role := role, grantedAt := w.clock,
             isActive := true }, rfl, rfl, fun _ => by simpa using hany, by simp⟩
  · left
    rw [userRoleRepositoryImpl_Create_of_fault _ _ (by simpa using hf1)]
    simp

/-- C28, counterexample: in `cutWorld` no user holds two active grants of one role, and
user 7 holds an active grant of `moderator`. The query of `AssignRole(7, moderator)` fails
while the rows are read, before the first row; the failure is not noticed, the list of
grants read is empty, the call succeeds and stores a second active grant of `moderator`
to user 7. -/
theorem assignRole_duplicates_active_grant :
    ActiveGrantsUnique cutWorld.store.userRoles ∧
    (AuthService.AssignRole 7 RoleModerator cutWorld).1 = .ok () ∧
    (AuthService.AssignRole 7 RoleModerator cutWorld).2.store.userRoles =
      grantsA ++ [{ id := 41, userID := 7, role := RoleModerator, grantedAt := 50,
                    isActive := true }] ∧
    ¬ ActiveGrantsUnique (AuthService.AssignRole 7 RoleModerator cutWorld).2.store.userRoles := by
  decide

/-- C28 (amended): if no user holds two active grants of one role, the same is true after
`RegisterUser` (when no stored grant refers to the generated user id) and after
`RevokeRole`, whatever statements fail, and after `AssignRole` whenever its query of the
grants is answered by the database or fails by returning the error (a failure that comes
up while the rows are read is not noticed and can let a second active grant in); and
after a successful `RevokeRole(u, r)` on such a store `HasRole(u, r)` never answers true:
it answers false whenever its query is answered by the database. -/
theorem active_grants_stay_unique (H : Hasher) (w : World)
    (hinv : ActiveGrantsUnique w.store.userRoles) :
    (∀ email username displayName password,
      (∀ g ∈ w.store.userRoles, g.userID ≠ w.nextUUID) →
      ActiveGrantsUnique
        (AuthService.RegisterUser H email username displayName password w).2.store.userRoles) ∧
    (∀ userID role, (w.nextFault = false ∨ w.nextCut = none) →
      ActiveGrantsUnique (AuthService.AssignRole userID role w).2.store.userRoles) ∧
    (∀ userID role,
      ActiveGrantsUnique (AuthService.RevokeRole userID role w).2.store.userRoles) ∧
    (∀ userID role, (AuthService.RevokeRole userID role w).1 = .ok () →
      ∀ w2 : World, w2.store = (AuthService.RevokeRole userID role w).2.store →
        (AuthService.HasRole userID role w2).1 ≠ .ok true ∧
        (w2.nextFault = false → (AuthService.HasRole userID role w2).1 = .ok false)) := by
  refine ⟨?_, ?_, ?_, ?_⟩
  · intro email username displayName password hfresh
    rcases AuthService.RegisterUser_userRoles_or_ok H email username displayName password w
      with hsame | ⟨user, hok⟩
    · rw [hsame]
      exact hinv
    · rcases AuthService.RegisterUser_outcome H email username displayName password w with
        ⟨-, -, -, -, -, -, -, -, user2, -, -, hid, -, -, -, -, -, -, -,
          ⟨role, hrid, -, -, hroles⟩, -⟩ | ⟨-, err, herr⟩
      · rw [hroles]
        refine ActiveGrantsUnique.append_grant _ _ hinv ?_
        intro x hx hxu
        exact absurd (hxu.trans (hrid.trans hid)) (hfresh x hx)
      · rw [herr] at hok
        cases hok
  · intro userID role hq
    rcases AuthService.AssignRole_outcome userID role w with hsame | ⟨g, hu, hr, hno, hst⟩
    · rw [hsame]
      exact hinv
    · rw [hst]
      refine ActiveGrantsUnique.append_grant _ _ hinv ?_
      intro x hx hxu hxr
      exact hno hq x hx (hxu.trans hu) (hxr.trans hr)
  · intro userID role
    rcases AuthService.RevokeRole_outcome userID role w with
      ⟨hsame, -⟩ | ⟨g, -, -, -, -, -, hst⟩
    · rw [hsame]
      exact hinv
    · rw [hst]
      exact ActiveGrantsUnique.deactivate _ _ _ hinv
  · intro userID role hok w2 hw2
    rcases AuthService.RevokeRole_outcome userID role w with
      ⟨-, err, herr⟩ | ⟨g, hg, hgu, hgr, hga, -, hst⟩
    · rw [herr] at hok
      cases hok
    · have hany : w2.store.userRoles.any
          (fun x => x.userID == userID && (x.role == role && x.isActive)) = false := by
        rw [hw2, hst]
        simp only [List.any_eq_false, List.mem_map, Bool.and_eq_true, beq_iff_eq, not_and,
          Bool.not_eq_true, forall_exists_index, and_imp]
        intro x y hy hxy hxu hxr
        subst hxy
        by_cases hyid : y.id = g.id
        · simp [hyid]
        · simp only [beq_iff_eq, hyid, if_false] at hxu hxr ⊢
          cases hya : y.isActive
          · rfl
          · have := ActiveGrantsUnique.eq_of_active _ hinv y g hy hg (hxu.trans hgu.symm)
              (hxr.trans hgr.symm) hya hga
            exact absurd (congrArg UserRole.id this) hyid
      cases hf : w2.nextFault
      · rw [AuthService.HasRole_of_answered userID role w2 hf, hany]
        exact ⟨by simp, fun _ => rfl⟩
      · cases hcut : w2.nextCut with
        | none =>
          rw [AuthService.HasRole_of_fault userID role w2 hf hcut]
          exact ⟨by simp, fun h => by cases h⟩
        | some n =>
          rw [AuthService.HasRole_of_cut userID role w2 n hf hcut]
          refine ⟨?_, fun h => by cases h⟩
          intro htrue
          simp only [Prod.fst, Except.ok.injEq, List.any_eq_true] at htrue
          obtain ⟨x, hx, hpx⟩ := htrue
          have hmem := (mem_orderByDesc _ _ _).mp (List.mem_of_mem_take hx)
          simp only [List.mem_filter, beq_iff_eq] at hmem
          have hfalse := List.any_eq_false.mp hany x hmem.1
          simp only [Bool.and_eq_true, beq_iff_eq] at hpx
          simp [hmem.2, hpx.1, hpx.2] at hfalse

/-- C28, at a concrete store: the grants of `roleWorld` are unique; they stay so when
`carol` registers, when `admin` is assigned to user 7 and when `moderator` is revoked from
user 7, after which user 7 does not hold `moderator`. -/
theorem active_grants_stay_unique_witness :
    ActiveGrantsUnique (roleWorld []).store.userRoles ∧
    ActiveGrantsUnique (AuthService.RegisterUser toyHasher "carol@x.com" "carol" "Carol"
      "Passw0rd!" (roleWorld [])).2.store.userRoles ∧
    ActiveGrantsUnique (AuthService.AssignRole 7 RoleAdmin (roleWorld [])).2.store.userRoles ∧
    ActiveGrantsUnique
      (AuthService.RevokeRole 7 RoleModerator (roleWorld [])).2.store.userRoles ∧
    (AuthService.HasRole 7 RoleModerator
      (AuthService.RevokeRole 7 RoleModerator (roleWorld [])).2).1 = .ok false := by
  have key := active_grants_stay_unique toyHasher (roleWorld []) (by decide)
  exact ⟨by decide, key.1 "carol@x.com" "carol" "Carol" "Passw0rd!" (by decide),
    key.2.1 7 RoleAdmin (Or.inl (by decide)), key.2.2.1 7 RoleModerator,
    (key.2.2.2 7 RoleModerator (by decide) _ rfl).2 (by decide)⟩

/-! ### Friendship -/

/-- The two methods never change the users of a friendship. -/
theorem Friendship.run_users (op : Friendship.Op) (f : Friendship) (w : World) :
    (Friendship.run op f w).1.requesterID = f.requesterID ∧
    (Friendship.run op f w).1.addresseeID = f.addresseeID := by
  cases op <;>
    simp only [Friendship.run, Friendship.Accept, Friendship.Reject, time.Now] <;>
    split <;> exact ⟨rfl, rfl⟩

theorem Friendship.runAll_users (ops : List Friendship.Op) (f : Friendship) (w : World) :
    (Friendship.runAll ops f w).1.requesterID = f.requesterID ∧
    (Friendship.runAll ops f w).1.addresseeID = f.addresseeID := by
  induction ops generalizing f w with
  | nil => exact ⟨rfl, rfl⟩
  | cons op ops ih =>
    unfold Friendship.runAll
    have h1 := ih (Friendship.run op f w).1 (Friendship.run op f w).2
    have h2 := Friendship.run_users op f w
    exact ⟨h1.1.trans h2.1, h1.2.trans h2.2⟩

/-- A friendship that is not pending is left as it is by either method. -/
theorem Friendship.run_of_not_pending (op : Friendship.Op) (f : Friendship) (w : World)
    (h : f.status ≠ FriendshipPending) : Friendship.run op f w = (f, w) := by
  cases op <;> simp [Friendship.run, Friendship.Accept, Friendship.Reject, h]

theorem Friendship.runAll_of_not_pending (ops : List Friendship.Op) (f : Friendship)
    (w : World) (h : f.status ≠ FriendshipPending) : Friendship.runAll ops f w = (f, w) := by
  induction ops with
  | nil => rfl
  | cons op ops ih =>
    unfold Friendship.runAll
    rw [Friendship.run_of_not_pending op f w h]
    exact ih

/-- C30: `NewFriendship(a, b)` fails when `a = b` or one of the ids is not positive and
otherwise yields a pending friendship of `a` and `b`. On a pending friendship `Accept`
succeeds and sets the status accepted, `Reject` succeeds and sets the status rejected; on a
friendship that is not pending both return an error and leave it as it is. Hence an
accepted or rejected friendship is unchanged by every sequence of `Accept` and `Reject`,
and the requester and the addressee of a friendship made by `NewFriendship` stay
distinct. -/
theorem friendship_state_machine :
    (∀ (a b : Int) (w : World), a = b ∨ a ≤ 0 ∨ b ≤ 0 →
      ∃ msg, NewFriendship a b w = (.error msg, w)) ∧
    (∀ (a b : Int) (w : World), a ≠ b → 0 < a → 0 < b →
      ∃ f, (NewFriendship a b w).1 = .ok f ∧ f.status = FriendshipPending ∧
        f.requesterID = a ∧ f.addresseeID = b) ∧
    (∀ (f : Friendship) (w : World), f.status = FriendshipPending →
      (f.Accept w).1 = .ok () ∧ (f.Accept w).2.1.status = FriendshipAccepted ∧
      (f.Reject w).1 = .ok () ∧ (f.Reject w).2.1.status = FriendshipRejected) ∧
    (∀ (f : Friendship) (w : World), f.status ≠ FriendshipPending →
      (∃ msg, f.Accept w = (.error msg, f, w)) ∧ (∃ msg, f.Reject w = (.error msg, f, w))) ∧
    (∀ (f : Friendship) (ops : List Friendship.Op) (w : World),
      f.status = FriendshipAccepted ∨ f.status = FriendshipRejected →
      (Friendship.runAll ops f w).1 = f) ∧
    (∀ (a b : Int) (w : World) (f : Friendship) (ops : List Friendship.Op) (w2 : World),
      (NewFriendship a b w).1 = .ok f →
      (Friendship.runAll ops f w2).1.requesterID ≠
        (Friendship.runAll ops f w2).1.addresseeID) := by
  refine ⟨?_, ?_, ?_, ?_, ?_, ?_⟩
  · intro a b w h
    unfold NewFriendship
    by_cases hab : a = b
    · exact ⟨"user cannot be friend with themselves", by simp [hab]⟩
    · have h2 : a ≤ 0 ∨ b ≤ 0 := h.resolve_left hab
      exact ⟨"invalid user IDs", by simp [hab, h2]⟩
  · intro a b w hab ha hb
    have h2 : ¬(a ≤ 0 ∨ b ≤ 0) := by omega
    exact ⟨{ id := 0, requesterID := a, addresseeID := b, status := FriendshipPending,
             createdAt := w.clock, updatedAt := w.clock },
      by simp [NewFriendship, hab, h2, time.Now], rfl, rfl, rfl⟩
  · intro f w h
    simp [Friendship.Accept, Friendship.Reject, h, time.Now]
  · intro f w h
    exact ⟨⟨"can only accept pending friendship", by simp [Friendship.Accept, h]⟩,
      ⟨"can only reject pending friendship", by simp [Friendship.Reject, h]⟩⟩
  · intro f ops w h
    rw [Friendship.runAll_of_not_pending ops f w
      (by rcases h with h | h <;> rw [h] <;> decide)]
  · intro a b w f ops w2 hok
    have hne : f.requesterID ≠ f.addresseeID := by
      unfold NewFriendship at hok
      by_cases hab : a = b
      · simp [hab] at hok
      · by_cases h2 : a ≤ 0 ∨ b ≤ 0
        · simp [hab, h2] at hok
        · simp only [hab, h2, if_false, time.Now, Except.ok.injEq] at hok
          rw [← hok]
          exact hab
    have hu := Friendship.runAll_users ops f w2
    rw [hu.1, hu.2]
    exact hne

/-- C30, for the users 1 and 2: the request is pending, accepted once, and stays accepted
under a rejection and a second acceptance; a request of user 1 to user 1 fails. -/
theorem friendship_state_machine_witness :
    (∃ msg, NewFriendship 1 1 (worldAt 50) = (.error msg, worldAt 50)) ∧
    (∃ f, (NewFriendship 1 2 (worldAt 50)).1 = .ok f ∧ f.status = FriendshipPending ∧
      (Friendship.runAll [.Accept, .Reject, .Accept] f (worldAt 50)).1.status =
        FriendshipAccepted) := by
  obtain ⟨f, hf, hst, -, -⟩ := friendship_state_machine.2.1 1 2 (worldAt 50) (by decide)
    (by decide) (by decide)
  refine ⟨friendship_state_machine.1 1 1 (worldAt 50) (Or.inl rfl), f, hf, hst, ?_⟩
  have hacc := (friendship_state_machine.2.2.1 f (worldAt 50) hst).2.1
  have hfix := friendship_state_machine.2.2.2.2.1 (f.Accept (worldAt 50)).2.1
    [.Reject, .Accept] (f.Accept (worldAt 50)).2.2 (Or.inl hacc)
  show (Friendship.runAll [.Reject, .Accept] (f.Accept (worldAt 50)).2.1
    (f.Accept (worldAt 50)).2.2).1.status = FriendshipAccepted
  rw [hfix]
  exact hacc

/-! ### Password rules -/

theorem List.any_congr_of_mem {α : Type} (l : List α) (p q : α → Bool)
    (h : ∀ x ∈ l, p x = q x) : l.any p = l.any q := by
  induction l with
  | nil => rfl
  | cons a l ih =>
    simp only [List.any_cons]
    rw [h a (List.mem_cons_self a l), ih (fun x hx => h x (List.mem_cons_of_mem a hx))]

/-- The flags after the loop of `ValidatePassword` over a list of characters. -/
theorem ValidatePassword.foldl_step (U : unicode.Classes) (cs : List Char)
    (flags : PasswordFlags) :
    cs.foldl (ValidatePassword.step U) flags =
      { hasUpper := flags.hasUpper || cs.any U.IsUpper
        hasLower := flags.hasLower || cs.any (fun c => !U.IsUpper c && U.IsLower c)
        hasNumber := flags.hasNumber ||
          cs.any (fun c => !U.IsUpper c && !U.IsLower c && U.IsNumber c)
        hasSpecial := flags.hasSpecial ||
          cs.any (fun c => !U.IsUpper c && !U.IsLower c && !U.IsNumber c &&
            (U.IsPunct c || U.IsSymbol c)) } := by
  induction cs generalizing flags with
  | nil => simp
  | cons c cs ih =>
    rw [List.foldl_cons, ih]
    unfold ValidatePassword.step
    cases hu : U.IsUpper c <;> cases hl : U.IsLower c <;> cases hn : U.IsNumber c <;>
      cases hp : U.IsPunct c <;> cases hs : U.IsSymbol c <;>
      simp [hu, hl, hn, hp, hs, Bool.or_assoc]

/-- C29: for classes of characters in which no character is at once in two of the four
groups uppercase letter, lowercase letter, number, punctuation or symbol (as in the
Unicode tables of Go), `ValidatePassword(p)` is true exactly when the byte length of `p`
is between 8 and 128 inclusive and `p` contains an uppercase letter, a lowercase letter,
a number and a punctuation or symbol character; and `ValidationService.ValidatePassword`
returns `ErrPasswordTooWeak` exactly when it is false, no error otherwise. -/
theorem validatePassword_iff (U : unicode.Classes) (p : String)
    (hlower : ∀ c, U.IsLower c = true → U.IsUpper c = false)
    (hnumber : ∀ c, U.IsNumber c = true → U.IsUpper c = false ∧ U.IsLower c = false)
    (hspecial : ∀ c, U.IsPunct c = true ∨ U.IsSymbol c = true →
      U.IsUpper c = false ∧ U.IsLower c = false ∧ U.IsNumber c = false) :
    (ValidatePassword U p = true ↔
      8 ≤ p.utf8ByteSize ∧ p.utf8ByteSize ≤ 128 ∧
      (∃ c ∈ p.toList, U.IsUpper c = true) ∧ (∃ c ∈ p.toList, U.IsLower c = true) ∧
      (∃ c ∈ p.toList, U.IsNumber c = true) ∧
      (∃ c ∈ p.toList, U.IsPunct c = true ∨ U.IsSymbol c = true)) ∧
    (ValidationService.ValidatePassword U p = .error .ErrPasswordTooWeak ↔
      ValidatePassword U p = false) ∧
    (ValidationService.ValidatePassword U p = .ok () ↔ ValidatePassword U p = true) := by
  refine ⟨?_, ?_, ?_⟩
  · unfold ValidatePassword
    by_cases hlen : p.utf8ByteSize < 8 ∨ p.utf8ByteSize > 128
    · simp only [hlen, if_true, Bool.false_eq_true, false_iff]
      intro h
      omega
    · have h1 : 8 ≤ p.utf8ByteSize := by omega
      have h2 : p.utf8ByteSize ≤ 128 := by omega
      have eL : p.toList.any (fun c => !U.IsUpper c && U.IsLower c) = p.toList.any U.IsLower := by
        apply List.any_congr_of_mem
        intro c _
        cases hl : U.IsLower c
        · simp
        · simp [hlower c hl]
      have eN : p.toList.any (fun c => !U.IsUpper c && !U.IsLower c && U.IsNumber c) =
          p.toList.any U.IsNumber := by
        apply List.any_congr_of_mem
        intro c _
        cases hn : U.IsNumber c
        · simp
        · simp [(hnumber c hn).1, (hnumber c hn).2]
      have eS : p.toList.any (fun c => !U.IsUpper c && !U.IsLower c && !U.IsNumber c &&
            (U.IsPunct c || U.IsSymbol c)) =
          p.toList.any (fun c => U.IsPunct c || U.IsSymbol c) := by
        apply List.any_congr_of_mem
        intro c _
        cases hs : (U.IsPunct c || U.IsSymbol c)
        · simp [hs]
        · have := hspecial c (by simpa using hs)
          simp [hs, this.1, this.2.1, this.2.2]
      simp only [hlen, if_false, ValidatePassword.foldl_step, Bool.false_or, eL, eN, eS,
        Bool.and_eq_true, List.any_eq_true, Bool.or_eq_true, h1, h2, true_and]
      exact ⟨fun ⟨⟨⟨a, b⟩, c⟩, d⟩ => ⟨a, b, c, d⟩, fun ⟨a, b, c, d⟩ => ⟨⟨⟨a, b⟩, c⟩, d⟩⟩
  · unfold ValidationService.ValidatePassword
    cases ValidatePassword U p <;> simp
  · unfold ValidationService.ValidatePassword
    cases ValidatePassword U p <;> simp

theorem asciiClasses_disjoint :
    (∀ c, asciiClasses.IsLower c = true → asciiClasses.IsUpper c = false) ∧
    (∀ c, asciiClasses.IsNumber c = true →
      asciiClasses.IsUpper c = false ∧ asciiClasses.IsLower c = false) ∧
    (∀ c, asciiClasses.IsPunct c = true ∨ asciiClasses.IsSymbol c = true →
      asciiClasses.IsUpper c = false ∧ asciiClasses.IsLower c = false ∧
        asciiClasses.IsNumber c = false) := by
  refine ⟨?_, ?_, ?_⟩
  · intro c h
    simp only [asciiClasses, decide_eq_true_eq, decide_eq_false_iff_not] at h ⊢
    omega
  · intro c h
    simp only [asciiClasses, decide_eq_true_eq, decide_eq_false_iff_not] at h ⊢
    omega
  · intro c h
    simp [asciiClasses] at h ⊢
    omega

/-- C29, for the ASCII classes: `Passw0rd!` has the four kinds of characters and nine
bytes; `password1!` has no uppercase letter; `Pw0!` is too short. -/
theorem validatePassword_iff_witness :
    ValidatePassword asciiClasses "Passw0rd!" = true ∧
    ValidationService.ValidatePassword asciiClasses "Passw0rd!" = .ok () ∧
    ValidatePassword asciiClasses "password1!" = false ∧
    ValidationService.ValidatePassword asciiClasses "password1!" = .error .ErrPasswordTooWeak ∧
    ValidatePassword asciiClasses "Pw0!" = false := by
  have h1 := validatePassword_iff asciiClasses "Passw0rd!" asciiClasses_disjoint.1
    asciiClasses_disjoint.2.1 asciiClasses_disjoint.2.2
  have h2 := validatePassword_iff asciiClasses "password1!" asciiClasses_disjoint.1
    asciiClasses_disjoint.2.1 asciiClasses_disjoint.2.2
  have e1 : ValidatePassword asciiClasses "Passw0rd!" = true := by decide
  have e2 : ValidatePassword asciiClasses "password1!" = false := by decide
  exact ⟨e1, h1.2.2.mpr e1, e2, h2.2.1.mpr e2, by decide⟩

/-! ### Access tokens -/

theorem jwt.NewNumericDate_add_minutes (t : Time) (n : Int) :
    jwt.NewNumericDate (t + n * time.Minute) = jwt.NewNumericDate t + n * time.Minute := by
  unfold jwt.NewNumericDate
  have h : (t + n * time.Minute) % time.Second = t % time.Second := by
    have : n * time.Minute = time.Second * (n * 60) := by
      unfold time.Minute
      ring
    rw [this, Int.add_mul_emod_self_left]
  rw [h]
  ring

/-- The token `GenerateAccessToken` builds at the clock reading `t0`. -/
theorem JWTService.GenerateAccessToken_eq (s : JWTService) (user : User)
    (roles : List UserRoleType) (w : World) :
    s.GenerateAccessToken user roles w =
      (.ok { method := "HS256",
             claims :=
               { UserID := user.id, Email := user.email, Username := user.username,
                 DisplayName := user.displayName, Roles := roles,
                 IsVerified := user.isVerified,
                 Registered :=
                   { Issuer := s.issuer, Subject := user.id,
                     IssuedAt := jwt.NewNumericDate w.clock,
                     ExpiresAt := jwt.NewNumericDate w.clock + 15 * time.Minute,
                     NotBefore := jwt.NewNumericDate w.clock } },
             key := s.accessSecret }, w.afterTick) := by
  simp [JWTService.GenerateAccessToken, time.Now, jwt.NewNumericDate_add_minutes]

/-- C25 (as stated) fails: at the issue time of one second and a half the token has
not-before and issued-at one second, not the issue time, and expiry one second plus 15
minutes; one nanosecond before issue time plus 15 minutes the token is refused. -/
theorem access_token_dates_are_whole_seconds :
    halfSecondWorld.clock = 1500000000 ∧
    (∃ token, (jwtA.GenerateAccessToken userA [RoleUser] halfSecondWorld).1 = .ok token ∧
      token.claims.Registered.NotBefore = 1000000000 ∧
      token.claims.Registered.IssuedAt = 1000000000 ∧
      token.claims.Registered.ExpiresAt = 1000000000 + 15 * time.Minute ∧
      1500000000 + 15 * time.Minute - 1 < 1500000000 + 15 * time.Minute ∧
      (jwtA.ValidateAccessToken token (worldAt (1500000000 + 15 * time.Minute - 1))).1 =
        .error .ErrTokenInvalid) := by
  refine ⟨rfl, _, rfl, ?_⟩
  decide

/-- C25 (amended): for every user, role list and issue time `t0`, the token built by
`GenerateAccessToken` has not-before = issued-at = `t0` truncated to whole seconds and
expiry = not-before + 15 minutes; `ValidateAccessToken` with the same access secret
returns the claims of the token, with the same subject, role list and verified flag, at
every clock time from not-before up to but excluding expiry, and fails with
`ErrTokenInvalid` at or after expiry and strictly before not-before. -/
theorem access_token_round_trip (s : JWTService) (user : User) (roles : List UserRoleType)
    (w : World) :
    ∃ token : SignedToken, s.GenerateAccessToken user roles w = (.ok token, w.afterTick) ∧
      token.claims.Registered.NotBefore = w.clock - w.clock % time.Second ∧
      token.claims.Registered.IssuedAt = token.claims.Registered.NotBefore ∧
      token.claims.Registered.ExpiresAt =
        token.claims.Registered.NotBefore + 15 * time.Minute ∧
      token.claims.Registered.NotBefore ≤ w.clock ∧
      token.claims.UserID = user.id ∧ token.claims.Registered.Subject = user.id ∧
      token.claims.Roles = roles ∧ token.claims.IsVerified = user.isVerified ∧
      (∀ w2 : World, token.claims.Registered.NotBefore ≤ w2.clock →
        w2.clock < token.claims.Registered.ExpiresAt →
        (s.ValidateAccessToken token w2).1 = .ok token.claims) ∧
      (∀ w2 : World, token.claims.Registered.ExpiresAt ≤ w2.clock →
        (s.ValidateAccessToken token w2).1 = .error .ErrTokenInvalid) ∧
      (∀ w2 : World, w2.clock < token.claims.Registered.NotBefore →
        (s.ValidateAccessToken token w2).1 = .error .ErrTokenInvalid) := by
  refine ⟨_, JWTService.GenerateAccessToken_eq s user roles w, rfl, rfl, rfl, ?_, rfl, rfl,
    rfl, rfl, ?_, ?_, ?_⟩
  · show w.clock - w.clock % time.Second ≤ w.clock
    have h : (0 : Int) ≤ w.clock % time.Second := Int.emod_nonneg _ (by decide)
    linarith
  · intro w2 hnbf hexp
    simp only [JWTService.ValidateAccessToken, time.Now]
    simp [hexp, not_lt.mpr hnbf]
  · intro w2 hexp
    simp only [JWTService.ValidateAccessToken, time.Now]
    simp [not_lt.mpr hexp]
  · intro w2 hnbf
    simp only [JWTService.ValidateAccessToken, time.Now]
    simp [hnbf]

/-- C25, for user 7 at the issue time of one second and a half: the token is accepted at
the issue time and refused one second plus 15 minutes later. -/
theorem access_token_round_trip_witness :
    ∃ token : SignedToken,
      (jwtA.GenerateAccessToken userA [RoleUser] halfSecondWorld).1 = .ok token ∧
      (jwtA.ValidateAccessToken token halfSecondWorld).1 = .ok token.claims ∧
      token.claims.UserID = 7 ∧ token.claims.Roles = [RoleUser] ∧
      (jwtA.ValidateAccessToken token (worldAt (1000000000 + 15 * time.Minute))).1 =
        .error .ErrTokenInvalid := by
  obtain ⟨token, hgen, hnbf, -, hexp, -, hid, -, hroles, -, hvalid, hexpired, -⟩ :=
    access_token_round_trip jwtA userA [RoleUser] halfSecondWorld
  refine ⟨token, by rw [hgen], hvalid halfSecondWorld ?_ ?_, hid, hroles,
    hexpired (worldAt (1000000000 + 15 * time.Minute)) ?_⟩
  · rw [hnbf]
    decide
  · rw [hexp, hnbf]
    decide
  · rw [hexp, hnbf]
    decide

/-! ### Role middleware -/

/-- After `RequireAuth` let a request pass, the value under `user_roles` is the role list
of the claims with the Go type `[]domain.UserRoleType`. -/
theorem AuthMiddleware.RequireAuth_roles (jwtService : JWTService) (c : gin.Context)
    (w : World) (hpass : (AuthMiddleware.RequireAuth jwtService c w).1.aborted = false) :
    ∃ roles, (AuthMiddleware.RequireAuth jwtService c w).1.Get "user_roles" =
      some (.roleTypes roles) := by
  unfold AuthMiddleware.RequireAuth at hpass ⊢
  cases htok : c.token with
  | none => simp [htok, AuthMiddleware.respondUnauthorized] at hpass
  | some token =>
    simp only [htok] at hpass ⊢
    cases hval : jwtService.ValidateAccessToken token w with
    | mk res w1 =>
      cases res with
      | error e => simp [hval, AuthMiddleware.respondUnauthorized] at hpass
      | ok claims =>
        refine ⟨claims.Roles, ?_⟩
        simp [gin.Context.Get, gin.Context.Set]

/-- Every request that `RequireAuth` let pass is refused by `RequireRole`, whatever the
required role and the roles of the token, and by `RequireModerator`: the type assertion
on the stored role list fails. -/
theorem AuthMiddleware.RequireRole_after_RequireAuth (jwtService : JWTService)
    (c : gin.Context) (w w2 : World) (requiredRole : String)
    (hpass : (AuthMiddleware.RequireAuth jwtService c w).1.aborted = false) :
    AuthMiddleware.RequireRole requiredRole (AuthMiddleware.RequireAuth jwtService c w).1 w2 =
      AuthMiddleware.respondForbidden (AuthMiddleware.RequireAuth jwtService c w).1
        "Invalid roles format" w2 ∧
    AuthMiddleware.RequireModerator (AuthMiddleware.RequireAuth jwtService c w).1 w2 =
      AuthMiddleware.respondForbidden (AuthMiddleware.RequireAuth jwtService c w).1
        "Invalid roles format" w2 := by
  obtain ⟨roles, hroles⟩ := AuthMiddleware.RequireAuth_roles jwtService c w hpass
  constructor
  · unfold AuthMiddleware.RequireRole
    rw [hroles]
  · unfold AuthMiddleware.RequireModerator
    rw [hroles]

/-- C26 (the code at a failing input): a request that carries a valid access token with
the role `admin` passes `RequireAuth`, which stores the roles as a
`[]domain.UserRoleType`; `RequireAdmin` then fails the type assertion to `[]string` and
answers 403 `Invalid roles format`, so the endpoint of the admin route is not reached;
`RequireModerator` and `RequireRole` of any other role answer the same. -/
theorem requireAdmin_rejects_admin_token :
    (jwtA.ValidateAccessToken adminToken (worldAt 50)).1 = .ok adminToken.claims ∧
    adminToken.claims.Roles = [RoleAdmin] ∧
    (AuthMiddleware.RequireAuth jwtA adminRequest (worldAt 50)).1.aborted = false ∧
    (AuthMiddleware.RequireAuth jwtA adminRequest (worldAt 50)).1.Get "user_roles" =
      some (.roleTypes [RoleAdmin]) ∧
    (gin.handle (adminRoute jwtA okEndpoint) adminRequest (worldAt 50)).1.aborted = true ∧
    (gin.handle (adminRoute jwtA okEndpoint) adminRequest (worldAt 50)).1.response =
      some { status := 403,
             payload := .error { Error := "forbidden", Message := "Invalid roles format",
                                 Timestamp := 50, Path := "/api/auth/users/8/roles" } } ∧
    (AuthMiddleware.RequireModerator
      (AuthMiddleware.RequireAuth jwtA adminRequest (worldAt 50)).1 (worldAt 50)).1.aborted =
      true ∧
    (AuthMiddleware.RequireRole "user"
      (AuthMiddleware.RequireAuth jwtA adminRequest (worldAt 50)).1 (worldAt 50)).1.aborted =
      true := by
  decide

/-! ### The status of the password-reset confirmation -/

/-- C27 (the code at failing inputs): a request with a well-formed body and a strong
password is answered with status 500 when the reset token is unknown
(`ErrPasswordResetNotFound`), when it has expired and when it was already used
(`ErrPasswordResetInvalid`), because `handleServiceError` has no case for these two
errors; a successful reset is answered with 200, a weak password and a malformed body
with 400. -/
theorem resetPassword_handler_answers_500 :
    (AuthService.ResetPassword toyHasher "nope" "Passw0rd!" (tokenWorld [])).1 =
      .error .ErrPasswordResetNotFound ∧
    (AuthHandler.ResetPassword asciiClasses toyHasher (confirmRequest "nope" "Passw0rd!")
      (tokenWorld [])).1.status = 500 ∧
    (AuthService.ResetPassword toyHasher "r" "Passw0rd!" lateWorld).1 =
      .error .ErrPasswordResetInvalid ∧
    (AuthHandler.ResetPassword asciiClasses toyHasher (confirmRequest "r" "Passw0rd!")
      lateWorld).1.status = 500 ∧
    (AuthHandler.ResetPassword asciiClasses toyHasher (confirmRequest "r" "Passw0rd!")
      (tokenWorld [])).1.status = 200 ∧
    (AuthHandler.ResetPassword asciiClasses toyHasher (confirmRequest "r" "Passw0rd!")
      (AuthHandler.ResetPassword asciiClasses toyHasher (confirmRequest "r" "Passw0rd!")
        (tokenWorld [])).2).1.status = 500 ∧
    (AuthHandler.ResetPassword asciiClasses toyHasher (confirmRequest "r" "password")
      (tokenWorld [])).1.status = 400 ∧
    (AuthHandler.ResetPassword asciiClasses toyHasher
      { path := "/api/auth/reset-password/confirm", json := none } (tokenWorld [])).1.status =
      400 := by
  decide

end AuthSvc
